import Mathlib

/-!
# Circuit-breaker rule service of polaris: batch engine

A shallow embedding of `service/circuitbreaker_rule.go`.  The Go methods of `Server`
become functions that pass the server state explicitly.  The external collaborators
(storage, id generator, JSON encoder, error-code mapping, configured limits) are
parameters, exactly as the Go code reaches them through interfaces and package globals.
-/

namespace Polaris

/-! ## Data model -/

/-- The status codes of `apimodel.Code` that the embedded sources name; every other
code of the enumeration is `other` with its numeric value. -/
inductive Code where
  | ExecuteSuccess
  | BadRequest
  | ParseException
  | EmptyRequest
  | BatchSizeOverLimit
  | InvalidParameter
  | InvalidNamespaceName
  | InvalidServiceName
  | InvalidServiceComment
  | InvalidCircuitBreakerID
  | InvalidCircuitBreakerName
  | ServiceExistedCircuitBreakers
  | NotFoundCircuitBreaker
  | ParseCircuitBreakerException
  | NotAllowedAccess
  | ExecuteException
  | StoreLayerException
  | other (value : Nat)
  deriving DecidableEq, Repr

/-- The Go type `time.Time`, kept as its calendar fields. -/
structure Time where
  year : Int
  month : Nat
  day : Nat
  hour : Nat
  minute : Nat
  second : Nat
  deriving DecidableEq, Repr

/-- The zero value of `time.Time` (January 1, year 1). -/
def Time.zero : Time := ⟨1, 1, 1, 0, 0, 0⟩

/-- The message `apifault.RuleMatcher_SourceService`. -/
structure SourceService where
  Service : String
  Namespace : String
  deriving DecidableEq, Repr

/-- The message `apifault.RuleMatcher_DestinationService`; `method` is the string inside
the `MatchString` wrapper, `none` when a pointer on the way is nil. -/
structure DestinationService where
  Service : String
  Namespace : String
  Method : Option String
  deriving DecidableEq, Repr

/-- The message `apifault.RuleMatcher`. -/
structure RuleMatcher where
  Source : Option SourceService
  Destination : Option DestinationService
  deriving DecidableEq, Repr

/-- The message `apifault.CircuitBreakerRule` (the external representation of a rule).
The policy sub-messages whose content the service never inspects are carried as text. -/
structure ApiRule where
  Id : String
  Name : String
  Namespace : String
  Enable : Bool
  Revision : String
  Ctime : String
  Mtime : String
  Etime : String
  Description : String
  Level : Int
  RuleMatcher : Option RuleMatcher
  ErrorConditions : List String
  TriggerCondition : List String
  MaxEjectionPercent : Nat
  RecoverCondition : Option String
  FaultDetectConfig : Option String
  FallbackConfig : Option String
  deriving DecidableEq, Repr

/-- The Go zero value `&apifault.CircuitBreakerRule{}`. -/
def ApiRule.empty : ApiRule :=
  { Id := "", Name := "", Namespace := "", Enable := false, Revision := "", Ctime := "",
    Mtime := "", Etime := "", Description := "", Level := 0, RuleMatcher := none,
    ErrorConditions := [], TriggerCondition := [], MaxEjectionPercent := 0,
    RecoverCondition := none, FaultDetectConfig := none, FallbackConfig := none }

/-- Getter chain `req.GetRuleMatcher().GetSource().GetService()` (nil-safe). -/
def ApiRule.srcService (r : ApiRule) : String :=
  match r.RuleMatcher with
  | some m => match m.Source with
    | some s => s.Service
    | none => ""
  | none => ""

/-- Getter chain `req.GetRuleMatcher().GetSource().GetNamespace()` (nil-safe). -/
def ApiRule.srcNamespace (r : ApiRule) : String :=
  match r.RuleMatcher with
  | some m => match m.Source with
    | some s => s.Namespace
    | none => ""
  | none => ""

/-- Getter chain `req.GetRuleMatcher().GetDestination().GetService()` (nil-safe). -/
def ApiRule.dstService (r : ApiRule) : String :=
  match r.RuleMatcher with
  | some m => match m.Destination with
    | some d => d.Service
    | none => ""
  | none => ""

/-- Getter chain `req.GetRuleMatcher().GetDestination().GetNamespace()` (nil-safe). -/
def ApiRule.dstNamespace (r : ApiRule) : String :=
  match r.RuleMatcher with
  | some m => match m.Destination with
    | some d => d.Namespace
    | none => ""
  | none => ""

/-- Getter chain `req.GetRuleMatcher().GetDestination().GetMethod().GetValue().GetValue()`. -/
def ApiRule.dstMethod (r : ApiRule) : String :=
  match r.RuleMatcher with
  | some m => match m.Destination with
    | some d => d.Method.getD ""
    | none => ""
  | none => ""

/-- The record `model.CircuitBreakerRule` (the internal representation of a rule). -/
structure CircuitBreakerRule where
  ID : String
  Name : String
  Namespace : String
  Description : String
  Level : Int
  SrcService : String
  SrcNamespace : String
  DstService : String
  DstNamespace : String
  DstMethod : String
  Rule : String
  Revision : String
  Enable : Bool
  CreateTime : Time
  ModifyTime : Time
  EnableTime : Time
  deriving DecidableEq, Repr

/-- The Go zero value `model.CircuitBreakerRule{}`. -/
def CircuitBreakerRule.empty : CircuitBreakerRule :=
  { ID := "", Name := "", Namespace := "", Description := "", Level := 0, SrcService := "",
    SrcNamespace := "", DstService := "", DstNamespace := "", DstMethod := "", Rule := "",
    Revision := "", Enable := false, CreateTime := Time.zero, ModifyTime := Time.zero,
    EnableTime := Time.zero }

/-- An error returned by the storage collaborator: its store code and `err.Error()`. -/
structure StoreError where
  code : Nat
  msg : String
  deriving DecidableEq, Repr

/-- The message `apiservice.Response`: status code, info text and the `Any` payload. -/
structure Response where
  code : Code
  info : String
  data : Option ApiRule
  deriving DecidableEq, Repr

/-- The message `apiservice.BatchWriteResponse`. -/
structure BatchWriteResponse where
  code : Code
  info : String
  size : Nat
  responses : List Response
  deriving DecidableEq, Repr

/-- The constants `model.OCreate`, `model.OUpdate`, `model.ODelete`. -/
inductive OperationType where
  | OCreate
  | OUpdate
  | ODelete
  deriving DecidableEq, Repr

/-- The record `model.RecordEntry` written to the history sink.  `HappenTime` is the
wall clock and is not carried. -/
structure RecordEntry where
  ResourceType : String
  ResourceName : String
  Namespace : String
  OperationType : OperationType
  Operator : String
  Detail : ApiRule
  deriving DecidableEq, Repr

/-- The part of `context.Context` the service reads: request id and operator. -/
structure Context where
  requestID : String
  operator : String
  deriving DecidableEq, Repr

/-- The package-level configuration and pure helpers that `circuitbreaker_rule.go` reads
but that are declared outside the embedded files. -/
structure Env where
  MaxBatchSize : Nat
  MaxDbServiceNameLength : Nat
  MaxDbServiceNamespaceLength : Nat
  MaxRuleName : Nat
  MaxCommentLength : Nat
  DefaultNamespace : String
  /-- The table `code2info` of `common/api/v1`. -/
  code2info : Code → String
  /-- The mapping `commonstore.StoreCode2APICode`. -/
  StoreCode2APICode : StoreError → Code
  /-- The encoder `json.Marshal` on a rule message. -/
  jsonMarshal : ApiRule → Except String String
  /-- The value returned by the n-th call of `utils.NewUUID`. -/
  uuid : Nat → String

/-- The storage collaborator `s.storage` (an interface in Go), over a store state `σ`.
Existence checks and the listing read the store; the four writes return the new store
state and the error, if any. -/
structure Storage (σ : Type) where
  HasCircuitBreakerRule : σ → String → Except StoreError Bool
  HasCircuitBreakerRuleByName : σ → String → String → Except StoreError Bool
  HasCircuitBreakerRuleByNameExcludeId : σ → String → String → String → Except StoreError Bool
  CreateCircuitBreakerRule : σ → CircuitBreakerRule → σ × Option StoreError
  UpdateCircuitBreakerRule : σ → CircuitBreakerRule → σ × Option StoreError
  DeleteCircuitBreakerRule : σ → String → σ × Option StoreError
  EnableCircuitBreakerRule : σ → CircuitBreakerRule → σ × Option StoreError
  GetCircuitBreakerRules :
    σ → List (String × String) → Nat → Nat → Except StoreError (Nat × List CircuitBreakerRule)

/-- One call made on the storage collaborator, with its arguments. -/
inductive StorageCall where
  | Has (id : String)
  | HasByName (name ns : String)
  | HasByNameExcludeId (name ns id : String)
  | Create (data : CircuitBreakerRule)
  | Update (data : CircuitBreakerRule)
  | Delete (id : String)
  | Enable (data : CircuitBreakerRule)
  | Get (filter : List (String × String)) (offset limit : Nat)
  deriving DecidableEq, Repr

/-- What a call of a `Server` method can observe and change: the store behind
`s.storage`, the history sink behind `s.RecordHistory`, the number of ids drawn from
`utils.NewUUID`, and the calls made on the storage so far (oldest first). -/
structure ServerState (σ : Type) where
  store : σ
  history : List RecordEntry
  uuidCount : Nat
  calls : List StorageCall

/-! ## Response helpers of `common/api/v1` -/

/-- Modelled from the spec: `api.NewResponse` of `common/api/v1` (not among the embedded
files): a per-item result carrying the given status code, the code's standard text and
no payload. -/
def NewResponse (env : Env) (code : Code) : Response :=
  { code := code, info := env.code2info code, data := none }

/-- Modelled from the spec: `api.NewResponseWithMsg` of `common/api/v1` (not among the
embedded files): "surfaced with their mapped code plus the original message". -/
def NewResponseWithMsg (_env : Env) (code : Code) (msg : String) : Response :=
  { code := code, info := msg, data := none }

/-- Modelled from the spec: `api.NewAnyDataResponse` of `common/api/v1` (not among the
embedded files): a per-item result carrying the given code and the given rule message as
payload ("echo the item with its assigned id"). -/
def NewAnyDataResponse (env : Env) (code : Code) (msg : ApiRule) : Response :=
  { code := code, info := env.code2info code, data := some msg }

/-- Modelled from the spec: `storeError2AnyResponse` of package `service` (not among the
embedded files): "surfaced with their mapped code plus the original message", with the
given message as payload. -/
def storeError2AnyResponse (env : Env) (err : StoreError) (msg : ApiRule) : Response :=
  { code := env.StoreCode2APICode err, info := err.msg, data := some msg }

/-- Modelled from the spec: `api.NewBatchWriteResponse` of `common/api/v1` (not among the
embedded files): a write response "{status code, message, ordered per-item results}" with
the given code and no per-item result. -/
def NewBatchWriteResponse (env : Env) (code : Code) : BatchWriteResponse :=
  { code := code, info := env.code2info code, size := 0, responses := [] }

/-- Modelled from the spec: `api.Collect` of `common/api/v1` (not among the embedded
files): adds one per-item result at the end of the "ordered per-item results". -/
def Collect (b : BatchWriteResponse) (response : Response) : BatchWriteResponse :=
  { b with size := b.size + 1, responses := b.responses ++ [response] }

/-- Modelled from the spec: `api.FormatBatchWriteResponse` of `common/api/v1` (not among
the embedded files): "overall status code (success iff every item succeeded, else the
code of a failing item)".  The failing item taken is the first one; a response without a
failing item keeps its code. -/
def FormatBatchWriteResponse (env : Env) (b : BatchWriteResponse) : BatchWriteResponse :=
  match b.responses.find? (fun r => decide (r.code ≠ Code.ExecuteSuccess)) with
  | some r => { b with code := r.code, info := env.code2info r.code }
  | none => b

/-- Modelled from the spec: `utils.CheckDbRawStrFieldLen` of `common/utils` (not among the
embedded files): "maximum field lengths"; `true` stands for a non-nil error, returned
when the text has more characters than the limit. -/
def CheckDbRawStrFieldLen (param : String) (dbLen : Nat) : Bool :=
  decide (param.length > dbLen)

/-! ## Server state primitives -/

/-- The call `utils.NewUUID()`: the next value of the id generator. -/
def NewUUID {σ : Type} (env : Env) (st : ServerState σ) : String × ServerState σ :=
  (env.uuid st.uuidCount, { st with uuidCount := st.uuidCount + 1 })

/-- Notes one call on `s.storage`. -/
def ServerState.noteCall {σ : Type} (st : ServerState σ) (c : StorageCall) : ServerState σ :=
  { st with calls := st.calls ++ [c] }

/-- The call `s.RecordHistory(ctx, entry)`: appends to the audit sink. -/
def RecordHistory {σ : Type} (st : ServerState σ) (entry : RecordEntry) : ServerState σ :=
  { st with history := st.history ++ [entry] }

/-! ## `circuitbreaker_rule.go` -/

/-- Go: `checkBatchCircuitBreakerRules`. -/
def checkBatchCircuitBreakerRules (env : Env) (req : List (Option ApiRule)) :
    Option BatchWriteResponse :=
  if req.length = 0 then
    some (NewBatchWriteResponse env Code.EmptyRequest)
  else if req.length > env.MaxBatchSize then
    some (NewBatchWriteResponse env Code.BatchSizeOverLimit)
  else
    none

/-- Go: `checkCircuitBreakerRuleParamsDbLen`. -/
def checkCircuitBreakerRuleParamsDbLen (env : Env) (req : ApiRule) : Option Response :=
  if CheckDbRawStrFieldLen req.srcService env.MaxDbServiceNameLength then
    some (NewResponse env Code.InvalidServiceName)
  else if CheckDbRawStrFieldLen req.srcNamespace env.MaxDbServiceNamespaceLength then
    some (NewResponse env Code.InvalidNamespaceName)
  else if CheckDbRawStrFieldLen req.Name env.MaxRuleName then
    some (NewResponse env Code.InvalidCircuitBreakerName)
  else if CheckDbRawStrFieldLen req.Namespace env.MaxDbServiceNamespaceLength then
    some (NewResponse env Code.InvalidNamespaceName)
  else if CheckDbRawStrFieldLen req.Description env.MaxCommentLength then
    some (NewResponse env Code.InvalidServiceComment)
  else
    none

/-- Go: `checkCircuitBreakerRuleParams`; a nil request pointer is `none`. -/
def checkCircuitBreakerRuleParams (env : Env) (req : Option ApiRule)
    (idRequired nameRequired : Bool) : Option Response :=
  match req with
  | none => some (NewResponse env Code.EmptyRequest)
  | some r =>
    match checkCircuitBreakerRuleParamsDbLen env r with
    | some resp => some resp
    | none =>
      if nameRequired && decide (r.Name.length = 0) then
        some (NewResponse env Code.InvalidCircuitBreakerName)
      else if idRequired && decide (r.Id.length = 0) then
        some (NewResponse env Code.InvalidCircuitBreakerID)
      else
        none

/-- Go: `circuitBreakerRuleRecordEntry`. -/
def circuitBreakerRuleRecordEntry (ctx : Context) (req : ApiRule) (md : CircuitBreakerRule)
    (opt : OperationType) : RecordEntry :=
  { ResourceType := "RCircuitBreakerRule",
    ResourceName := md.Name ++ "(" ++ md.ID ++ ")",
    Namespace := req.Namespace,
    OperationType := opt,
    Operator := ctx.operator,
    Detail := req }

/-- Go: `marshalCircuitBreakerRuleV2`: encodes a copy of the request that keeps only the
policy fields. -/
def marshalCircuitBreakerRuleV2 (env : Env) (req : ApiRule) : Except String String :=
  env.jsonMarshal
    { ApiRule.empty with
      RuleMatcher := req.RuleMatcher,
      ErrorConditions := req.ErrorConditions,
      TriggerCondition := req.TriggerCondition,
      MaxEjectionPercent := req.MaxEjectionPercent,
      RecoverCondition := req.RecoverCondition,
      FaultDetectConfig := req.FaultDetectConfig,
      FallbackConfig := req.FallbackConfig }

/-- Go: `api2CircuitBreakerRule`.  The revision is drawn from `utils.NewUUID` after the
payload has been encoded. -/
def api2CircuitBreakerRule {σ : Type} (env : Env) (st : ServerState σ) (req : ApiRule) :
    Except String CircuitBreakerRule × ServerState σ :=
  match marshalCircuitBreakerRuleV2 env req with
  | .error err => (.error err, st)
  | .ok rule =>
    let out : CircuitBreakerRule :=
      { CircuitBreakerRule.empty with
        Name := req.Name,
        Namespace := req.Namespace,
        Description := req.Description,
        Level := req.Level,
        SrcService := req.srcService,
        SrcNamespace := req.srcNamespace,
        DstService := req.dstService,
        DstNamespace := req.dstNamespace,
        DstMethod := req.dstMethod,
        Enable := req.Enable,
        Rule := rule,
        Revision := (NewUUID env st).1 }
    (.ok (if out.Namespace = "" then { out with Namespace := env.DefaultNamespace } else out),
      (NewUUID env st).2)

/-- Go: `Server.checkCircuitBreakerRuleExists`; the call on the storage is noted by the
caller through `noteCall`. -/
def checkCircuitBreakerRuleExists {σ : Type} (env : Env) (S : Storage σ) (st : ServerState σ)
    (id : String) : Option Response :=
  match S.HasCircuitBreakerRule st.store id with
  | .error err => some (NewResponse env (env.StoreCode2APICode err))
  | .ok false => some (NewResponse env Code.NotFoundCircuitBreaker)
  | .ok true => none

/-- Go: `Server.createCircuitBreakerRule`.  The returned payload is the request after
`request.Id = data.ID`. -/
def createCircuitBreakerRule {σ : Type} (env : Env) (S : Storage σ) (ctx : Context)
    (st : ServerState σ) (request : Option ApiRule) : ServerState σ × Response :=
  match checkCircuitBreakerRuleParams env request false true with
  | some resp => (st, resp)
  | none =>
    match request with
    | none => (st, NewResponse env Code.EmptyRequest) -- not reached: nil is rejected above
    | some req =>
      match api2CircuitBreakerRule env st req with
      | (.error _, st1) => (st1, NewResponse env Code.ParseCircuitBreakerException)
      | (.ok data, st1) =>
        let st2 := st1.noteCall (StorageCall.HasByName data.Name data.Namespace)
        match S.HasCircuitBreakerRuleByName st2.store data.Name data.Namespace with
        | .error err => (st2, NewResponseWithMsg env (env.StoreCode2APICode err) err.msg)
        | .ok true => (st2, NewResponse env Code.ServiceExistedCircuitBreakers)
        | .ok false =>
          let data1 : CircuitBreakerRule := { data with ID := (NewUUID env st2).1 }
          let st3 := (NewUUID env st2).2.noteCall (StorageCall.Create data1)
          match S.CreateCircuitBreakerRule st3.store data1 with
          | (store1, some err) =>
            ({ st3 with store := store1 },
              NewResponseWithMsg env (env.StoreCode2APICode err) err.msg)
          | (store1, none) =>
            (RecordHistory { st3 with store := store1 }
                (circuitBreakerRuleRecordEntry ctx req data1 OperationType.OCreate),
              NewAnyDataResponse env Code.ExecuteSuccess { req with Id := data1.ID })

/-- Go: `Server.deleteCircuitBreakerRule`. -/
def deleteCircuitBreakerRule {σ : Type} (env : Env) (S : Storage σ) (ctx : Context)
    (st : ServerState σ) (request : Option ApiRule) : ServerState σ × Response :=
  match checkCircuitBreakerRuleParams env request true false with
  | some resp => (st, resp)
  | none =>
    match request with
    | none => (st, NewResponse env Code.EmptyRequest) -- not reached: nil is rejected above
    | some req =>
      let st1 := st.noteCall (StorageCall.Has req.Id)
      match checkCircuitBreakerRuleExists env S st1 req.Id with
      | some resp =>
        (st1, if resp.code = Code.NotFoundCircuitBreaker
              then { resp with code := Code.ExecuteSuccess } else resp)
      | none =>
        let cbRuleId : ApiRule := { ApiRule.empty with Id := req.Id }
        let st2 := st1.noteCall (StorageCall.Delete req.Id)
        match S.DeleteCircuitBreakerRule st2.store req.Id with
        | (store1, some _) =>
          ({ st2 with store := store1 },
            NewAnyDataResponse env Code.ParseCircuitBreakerException cbRuleId)
        | (store1, none) =>
          let cbRule : CircuitBreakerRule :=
            { CircuitBreakerRule.empty with
              ID := req.Id, Name := req.Name, Namespace := req.Namespace }
          (RecordHistory { st2 with store := store1 }
              (circuitBreakerRuleRecordEntry ctx req cbRule OperationType.ODelete),
            NewAnyDataResponse env Code.ExecuteSuccess cbRuleId)

/-- Go: `Server.enableCircuitBreakerRule`. -/
def enableCircuitBreakerRule {σ : Type} (env : Env) (S : Storage σ) (ctx : Context)
    (st : ServerState σ) (request : Option ApiRule) : ServerState σ × Response :=
  match checkCircuitBreakerRuleParams env request true false with
  | some resp => (st, resp)
  | none =>
    match request with
    | none => (st, NewResponse env Code.EmptyRequest) -- not reached: nil is rejected above
    | some req =>
      let st1 := st.noteCall (StorageCall.Has req.Id)
      match checkCircuitBreakerRuleExists env S st1 req.Id with
      | some resp => (st1, resp)
      | none =>
        let cbRuleId : ApiRule := { ApiRule.empty with Id := req.Id }
        let cbRule : CircuitBreakerRule :=
          { CircuitBreakerRule.empty with
            ID := req.Id,
            Namespace := req.Namespace,
            Name := req.Name,
            Enable := req.Enable,
            Revision := (NewUUID env st1).1 }
        let st2 := (NewUUID env st1).2.noteCall (StorageCall.Enable cbRule)
        match S.EnableCircuitBreakerRule st2.store cbRule with
        | (store1, some err) =>
          ({ st2 with store := store1 }, storeError2AnyResponse env err cbRuleId)
        | (store1, none) =>
          (RecordHistory { st2 with store := store1 }
              (circuitBreakerRuleRecordEntry ctx req cbRule OperationType.OUpdate),
            NewAnyDataResponse env Code.ExecuteSuccess cbRuleId)

/-- Go: `Server.updateCircuitBreakerRule`. -/
def updateCircuitBreakerRule {σ : Type} (env : Env) (S : Storage σ) (ctx : Context)
    (st : ServerState σ) (request : Option ApiRule) : ServerState σ × Response :=
  match checkCircuitBreakerRuleParams env request true true with
  | some resp => (st, resp)
  | none =>
    match request with
    | none => (st, NewResponse env Code.EmptyRequest) -- not reached: nil is rejected above
    | some req =>
      let st1 := st.noteCall (StorageCall.Has req.Id)
      match checkCircuitBreakerRuleExists env S st1 req.Id with
      | some resp => (st1, resp)
      | none =>
        let cbRuleId : ApiRule := { ApiRule.empty with Id := req.Id }
        match api2CircuitBreakerRule env st1 req with
        | (.error _, st2) =>
          (st2, NewAnyDataResponse env Code.ParseCircuitBreakerException cbRuleId)
        | (.ok converted, st2) =>
          let cbRule : CircuitBreakerRule := { converted with ID := req.Id }
          let st3 := st2.noteCall
            (StorageCall.HasByNameExcludeId cbRule.Name cbRule.Namespace cbRule.ID)
          match S.HasCircuitBreakerRuleByNameExcludeId st3.store
              cbRule.Name cbRule.Namespace cbRule.ID with
          | .error err => (st3, NewResponseWithMsg env (env.StoreCode2APICode err) err.msg)
          | .ok true => (st3, NewResponse env Code.ServiceExistedCircuitBreakers)
          | .ok false =>
            let st4 := st3.noteCall (StorageCall.Update cbRule)
            match S.UpdateCircuitBreakerRule st4.store cbRule with
            | (store1, some err) =>
              ({ st4 with store := store1 }, storeError2AnyResponse env err cbRuleId)
            | (store1, none) =>
              (RecordHistory { st4 with store := store1 }
                  (circuitBreakerRuleRecordEntry ctx req cbRule OperationType.OUpdate),
                NewAnyDataResponse env Code.ExecuteSuccess cbRuleId)

/-- The loop `for _, entry := range request { resp := step(entry); api.Collect(responses, resp) }`
shared by the four batch operations: `step` runs on the state left by the items before. -/
def collectEach {σ : Type} (step : ServerState σ → Option ApiRule → ServerState σ × Response) :
    ServerState σ → BatchWriteResponse → List (Option ApiRule) →
      ServerState σ × BatchWriteResponse
  | st, responses, [] => (st, responses)
  | st, responses, entry :: rest =>
    collectEach step (step st entry).1 (Collect responses (step st entry).2) rest

/-- The common body of the four batch operations: size check, loop, format. -/
def runBatch {σ : Type} (env : Env)
    (step : ServerState σ → Option ApiRule → ServerState σ × Response)
    (st : ServerState σ) (request : List (Option ApiRule)) :
    ServerState σ × BatchWriteResponse :=
  match checkBatchCircuitBreakerRules env request with
  | some checkErr => (st, checkErr)
  | none =>
    ((collectEach step st (NewBatchWriteResponse env Code.ExecuteSuccess) request).1,
      FormatBatchWriteResponse env
        (collectEach step st (NewBatchWriteResponse env Code.ExecuteSuccess) request).2)

/-- Go: `Server.CreateCircuitBreakerRules`. -/
def CreateCircuitBreakerRules {σ : Type} (env : Env) (S : Storage σ) (ctx : Context)
    (st : ServerState σ) (request : List (Option ApiRule)) :
    ServerState σ × BatchWriteResponse :=
  runBatch env (createCircuitBreakerRule env S ctx) st request

/-- Go: `Server.DeleteCircuitBreakerRules`. -/
def DeleteCircuitBreakerRules {σ : Type} (env : Env) (S : Storage σ) (ctx : Context)
    (st : ServerState σ) (request : List (Option ApiRule)) :
    ServerState σ × BatchWriteResponse :=
  runBatch env (deleteCircuitBreakerRule env S ctx) st request

/-- Go: `Server.EnableCircuitBreakerRules`. -/
def EnableCircuitBreakerRules {σ : Type} (env : Env) (S : Storage σ) (ctx : Context)
    (st : ServerState σ) (request : List (Option ApiRule)) :
    ServerState σ × BatchWriteResponse :=
  runBatch env (enableCircuitBreakerRule env S ctx) st request

/-- Go: `Server.UpdateCircuitBreakerRules`. -/
def UpdateCircuitBreakerRules {σ : Type} (env : Env) (S : Storage σ) (ctx : Context)
    (st : ServerState σ) (request : List (Option ApiRule)) :
    ServerState σ × BatchWriteResponse :=
  runBatch env (updateCircuitBreakerRule env S ctx) st request

/-! ## Specification-side notions -/

/-- The state on which the item after `items` runs: the one left by running `step` on
each of `items` in order. -/
def stateAfter {σ : Type} (step : ServerState σ → Option ApiRule → ServerState σ × Response)
    (st : ServerState σ) (items : List (Option ApiRule)) : ServerState σ :=
  items.foldl (fun s x => (step s x).1) st

/-- The batch size is admissible: `1 <= n <= MaxBatchSize`. -/
def Admissible (env : Env) (request : List (Option ApiRule)) : Prop :=
  1 ≤ request.length ∧ request.length ≤ env.MaxBatchSize

instance (env : Env) (request : List (Option ApiRule)) : Decidable (Admissible env request) :=
  inferInstanceAs (Decidable (_ ∧ _))

/-- The overall code of a batch response aggregates its per-item results: it is success
if and only if every per-item code is success, and otherwise it is the code of a failing
per-item result. -/
def OverallCodeAggregates (b : BatchWriteResponse) : Prop :=
  (b.code = Code.ExecuteSuccess ↔ ∀ r ∈ b.responses, r.code = Code.ExecuteSuccess) ∧
  (b.code ≠ Code.ExecuteSuccess →
    ∃ r ∈ b.responses, r.code ≠ Code.ExecuteSuccess ∧ b.code = r.code)

instance (b : BatchWriteResponse) : Decidable (OverallCodeAggregates b) :=
  inferInstanceAs (Decidable (_ ∧ _))

/-- The response of a batch on `request` lists the outcome of every item, in input order,
each item having run on the state left by the items before it; `out` is the pair
returned by the batch operation. -/
def PerItemInOrder {σ : Type}
    (step : ServerState σ → Option ApiRule → ServerState σ × Response)
    (st : ServerState σ) (request : List (Option ApiRule))
    (out : ServerState σ × BatchWriteResponse) : Prop :=
  out.2.responses.length = request.length ∧
  out.2.size = request.length ∧
  (∀ i (h : i < request.length),
    out.2.responses.get? i =
      some (step (stateAfter step st (request.take i)) (request.get ⟨i, h⟩)).2) ∧
  out.1 = stateAfter step st request

/-- The per-item outcomes of a run of the loop, in order. -/
def outcomes {σ : Type} (step : ServerState σ → Option ApiRule → ServerState σ × Response) :
    ServerState σ → List (Option ApiRule) → List Response
  | _, [] => []
  | st, x :: xs => (step st x).2 :: outcomes step (step st x).1 xs

/-! ## An in-memory storage collaborator -/

/-- Modelled from the spec: the storage engine behind `s.storage` (not among the embedded
files): "existence-by-name, existence-by-name-excluding-id, existence-by-id,
create/update/delete/enable-rule (each fallible), paginated filtered listing returning
(total, page, error)".  The live rules are a list.  When `readErr` (resp. `writeErr`) is
set every read (resp. write) fails with that error and the rules stay as they are.  `now`
is the clock of the store. -/
structure MemStore where
  rules : List CircuitBreakerRule
  readErr : Option StoreError
  writeErr : Option StoreError
  now : Time
  deriving DecidableEq, Repr

/-- Modelled from the spec: one entry of the listing filter applied to a stored rule.  The
keys that carry paging or display options select nothing. -/
def MemStore.matchesEntry (r : CircuitBreakerRule) (kv : String × String) : Bool :=
  if kv.1 = "id" then decide (r.ID = kv.2)
  else if kv.1 = "name" then decide (r.Name = kv.2)
  else if kv.1 = "namespace" then decide (r.Namespace = kv.2)
  else if kv.1 = "enable" then decide (r.Enable = decide (kv.2 = "true"))
  else if kv.1 = "description" then decide (r.Description = kv.2)
  else if kv.1 = "srcService" then decide (r.SrcService = kv.2)
  else if kv.1 = "srcNamespace" then decide (r.SrcNamespace = kv.2)
  else if kv.1 = "dstService" then decide (r.DstService = kv.2)
  else if kv.1 = "dstNamespace" then decide (r.DstNamespace = kv.2)
  else if kv.1 = "dstMethod" then decide (r.DstMethod = kv.2)
  else true

/-- Modelled from the spec: existence-by-id. -/
def MemStore.HasCircuitBreakerRule (s : MemStore) (id : String) : Except StoreError Bool :=
  match s.readErr with
  | some e => .error e
  | none => .ok (s.rules.any (fun r => decide (r.ID = id)))

/-- Modelled from the spec: existence-by-name. -/
def MemStore.HasCircuitBreakerRuleByName (s : MemStore) (name ns : String) :
    Except StoreError Bool :=
  match s.readErr with
  | some e => .error e
  | none => .ok (s.rules.any (fun r => decide (r.Name = name ∧ r.Namespace = ns)))

/-- Modelled from the spec: existence-by-name-excluding-id. -/
def MemStore.HasCircuitBreakerRuleByNameExcludeId (s : MemStore) (name ns id : String) :
    Except StoreError Bool :=
  match s.readErr with
  | some e => .error e
  | none =>
    .ok (s.rules.any (fun r => decide (r.Name = name ∧ r.Namespace = ns ∧ r.ID ≠ id)))

/-- Modelled from the spec: create-rule; the store stamps creation and modification time. -/
def MemStore.CreateCircuitBreakerRule (s : MemStore) (r : CircuitBreakerRule) :
    MemStore × Option StoreError :=
  match s.writeErr with
  | some e => (s, some e)
  | none =>
    ({ s with rules := s.rules ++ [{ r with CreateTime := s.now, ModifyTime := s.now }] },
      none)

/-- Modelled from the spec: update-rule: "mutated in place by update (fields replaced,
revision regenerated)"; identifier, creation time and enable time stay. -/
def MemStore.UpdateCircuitBreakerRule (s : MemStore) (r : CircuitBreakerRule) :
    MemStore × Option StoreError :=
  match s.writeErr with
  | some e => (s, some e)
  | none =>
    ({ s with rules := s.rules.map (fun x =>
        if x.ID = r.ID then
          { r with CreateTime := x.CreateTime, ModifyTime := s.now, EnableTime := x.EnableTime }
        else x) }, none)

/-- Modelled from the spec: delete-rule: "hard-deleted by delete (no soft-delete/tombstone)". -/
def MemStore.DeleteCircuitBreakerRule (s : MemStore) (id : String) :
    MemStore × Option StoreError :=
  match s.writeErr with
  | some e => (s, some e)
  | none => ({ s with rules := s.rules.filter (fun x => decide (x.ID ≠ id)) }, none)

/-- Modelled from the spec: enable-rule: "toggles the enable flag, regenerates revision and
enable-timestamp, leaves the policy payload untouched"; the enable timestamp is cleared
when the flag is switched off. -/
def MemStore.EnableCircuitBreakerRule (s : MemStore) (r : CircuitBreakerRule) :
    MemStore × Option StoreError :=
  match s.writeErr with
  | some e => (s, some e)
  | none =>
    ({ s with rules := s.rules.map (fun x =>
        if x.ID = r.ID then
          { x with Enable := r.Enable, Revision := r.Revision,
                   EnableTime := if r.Enable then s.now else Time.zero }
        else x) }, none)

/-- Modelled from the spec: "paginated filtered listing returning (total, page, error)". -/
def MemStore.GetCircuitBreakerRules (s : MemStore) (filter : List (String × String))
    (offset limit : Nat) : Except StoreError (Nat × List CircuitBreakerRule) :=
  match s.readErr with
  | some e => .error e
  | none =>
    let hits := s.rules.filter (fun r => filter.all (MemStore.matchesEntry r))
    .ok (hits.length, (hits.drop offset).take limit)

/-- Modelled from the spec: the in-memory store as the storage collaborator. -/
def memStorage : Storage MemStore :=
  { HasCircuitBreakerRule := MemStore.HasCircuitBreakerRule,
    HasCircuitBreakerRuleByName := MemStore.HasCircuitBreakerRuleByName,
    HasCircuitBreakerRuleByNameExcludeId := MemStore.HasCircuitBreakerRuleByNameExcludeId,
    CreateCircuitBreakerRule := MemStore.CreateCircuitBreakerRule,
    UpdateCircuitBreakerRule := MemStore.UpdateCircuitBreakerRule,
    DeleteCircuitBreakerRule := MemStore.DeleteCircuitBreakerRule,
    EnableCircuitBreakerRule := MemStore.EnableCircuitBreakerRule,
    GetCircuitBreakerRules := MemStore.GetCircuitBreakerRules }

/-! ## Sample values -/

/-- A configuration with the limits of a default deployment.  The n-th generated id is
`u` repeated `n + 1` times. -/
def sampleEnv : Env :=
  { MaxBatchSize := 100,
    MaxDbServiceNameLength := 128,
    MaxDbServiceNamespaceLength := 64,
    MaxRuleName := 64,
    MaxCommentLength := 1024,
    DefaultNamespace := "default",
    code2info := fun _ => "",
    StoreCode2APICode := fun _ => Code.StoreLayerException,
    jsonMarshal := fun r => .ok (String.intercalate "," r.ErrorConditions),
    uuid := fun n => String.mk (List.replicate (n + 1) (Char.ofNat 117)) }

/-- The sample configuration with batches of at most two items. -/
def smallBatchEnv : Env := { sampleEnv with MaxBatchSize := 2 }

/-- A request context. -/
def sampleCtx : Context := { requestID := "req-1", operator := "alice" }

/-- An empty, fault-free store. -/
def emptyStore : MemStore := { rules := [], readErr := none, writeErr := none, now := Time.zero }

/-- A server on the empty store that has drawn no id yet. -/
def sampleState : ServerState MemStore :=
  { store := emptyStore, history := [], uuidCount := 0, calls := [] }

/-- A create item: rule `r1` in namespace `default`. -/
def sampleItem : ApiRule := { ApiRule.empty with Name := "r1", Namespace := "default" }

/-! ## Conversion of a request, stated in closed form -/

/-- The namespace under which a request is stored: the default namespace when the request
names none. -/
def effectiveNamespace (env : Env) (req : ApiRule) : String :=
  if req.Namespace = "" then env.DefaultNamespace else req.Namespace

/-- The record `api2CircuitBreakerRule` builds from a request, its encoded payload and the
revision drawn for it. -/
def convertedRule (env : Env) (req : ApiRule) (payload revision : String) : CircuitBreakerRule :=
  { CircuitBreakerRule.empty with
    Name := req.Name,
    Namespace := effectiveNamespace env req,
    Description := req.Description,
    Level := req.Level,
    SrcService := req.srcService,
    SrcNamespace := req.srcNamespace,
    DstService := req.dstService,
    DstNamespace := req.dstNamespace,
    DstMethod := req.dstMethod,
    Enable := req.Enable,
    Rule := payload,
    Revision := revision }

/-- The server state after `sampleItem` has been created on `sampleState`. -/
def oneRuleState : ServerState MemStore :=
  (createCircuitBreakerRule sampleEnv memStorage sampleCtx sampleState (some sampleItem)).1

/-! ## Uniqueness invariants on the in-memory store -/

/-- The (name, namespace) of a stored rule. -/
def ruleKey (r : CircuitBreakerRule) : String × String := (r.Name, r.Namespace)

/-- The invariant "(name, namespace) unique among live rules". -/
def UniqueNames (s : MemStore) : Prop := (s.rules.map ruleKey).Nodup

/-- No two live rules share an identifier. -/
def UniqueIds (s : MemStore) : Prop := (s.rules.map (fun r => r.ID)).Nodup

instance (s : MemStore) : Decidable (UniqueNames s) :=
  inferInstanceAs (Decidable (List.Nodup _))

instance (s : MemStore) : Decidable (UniqueIds s) :=
  inferInstanceAs (Decidable (List.Nodup _))

/-- The identifiers the generator has yet to return are not in the store. -/
def FreshIds (env : Env) (st : ServerState MemStore) : Prop :=
  ∀ n, st.uuidCount ≤ n → env.uuid n ∉ st.store.rules.map (fun r => r.ID)

/-- One call of a sequence of batch calls: a create batch or an update batch. -/
inductive BatchCall where
  | create (request : List (Option ApiRule))
  | update (request : List (Option ApiRule))

/-- The server state after one batch call on the in-memory store. -/
def runCall (env : Env) (ctx : Context) (st : ServerState MemStore) :
    BatchCall → ServerState MemStore
  | BatchCall.create request => (CreateCircuitBreakerRules env memStorage ctx st request).1
  | BatchCall.update request => (UpdateCircuitBreakerRules env memStorage ctx st request).1

/-- The server state after a sequence of batch calls executed one after the other. -/
def runCalls (env : Env) (ctx : Context) (st : ServerState MemStore)
    (calls : List BatchCall) : ServerState MemStore :=
  calls.foldl (runCall env ctx) st

/-- The record `updateCircuitBreakerRule` hands to the storage: the converted request
under the request's own id. -/
def updatedRule (env : Env) (req : ApiRule) (payload revision : String) : CircuitBreakerRule :=
  { convertedRule env req payload revision with ID := req.Id }

/-- The invariant carried along a run on the in-memory store: identifiers and
(name, namespace) pairs are unique among live rules and the identifiers still to be
generated are not in use. -/
def StoreInv (env : Env) (st : ServerState MemStore) : Prop :=
  UniqueIds st.store ∧ UniqueNames st.store ∧ FreshIds env st

/-- The rule stored by an update of the in-memory store in place of `x`. -/
def MemStore.replaced (s : MemStore) (r x : CircuitBreakerRule) : CircuitBreakerRule :=
  { r with CreateTime := x.CreateTime, ModifyTime := s.now, EnableTime := x.EnableTime }

/-! ## Create batches: names and assigned identifiers -/

/-- The identifiers carried by the payloads of the per-item results of a batch response. -/
def assignedIds (b : BatchWriteResponse) : List String :=
  b.responses.filterMap (fun r => r.data.map (fun m => m.Id))

/-- The (name, namespace) pairs of the items of a request, as the request writes them. -/
def requestNames (request : List (Option ApiRule)) : List (String × String) :=
  request.filterMap (fun o => o.map (fun r => (r.Name, r.Namespace)))

/-- The (name, namespace) pair under which an item is stored. -/
def storedName (env : Env) (r : ApiRule) : String × String :=
  (r.Name, effectiveNamespace env r)

/-- The state left by a successful create of `req` on the in-memory store. -/
def createdState (env : Env) (ctx : Context) (st : ServerState MemStore) (req : ApiRule)
    (payload : String) : ServerState MemStore :=
  { store := { st.store with rules := st.store.rules ++
      [{ convertedRule env req payload (env.uuid st.uuidCount) with
         ID := env.uuid (st.uuidCount + 1),
         CreateTime := st.store.now, ModifyTime := st.store.now }] },
    history := st.history ++
      [circuitBreakerRuleRecordEntry ctx req
        { convertedRule env req payload (env.uuid st.uuidCount) with
          ID := env.uuid (st.uuidCount + 1) } OperationType.OCreate],
    uuidCount := st.uuidCount + 2,
    calls := st.calls ++
      [StorageCall.HasByName req.Name (effectiveNamespace env req),
       StorageCall.Create
         { convertedRule env req payload (env.uuid st.uuidCount) with
           ID := env.uuid (st.uuidCount + 1) }] }

/-- The per-item results of a create batch in which every item succeeds: each item is
echoed with the identifier drawn for it, the generator having returned `c` values before
the batch (each item draws a revision, then its identifier). -/
def createdResponses (env : Env) : Nat → List ApiRule → List Response
  | _, [] => []
  | c, r :: rs =>
    NewAnyDataResponse env Code.ExecuteSuccess { r with Id := env.uuid (c + 1) } ::
      createdResponses env (c + 2) rs

/-! ## Closed forms of the records handed to the storage -/

/-- The payload `cbRuleId` returned by delete, enable and update: a message that carries
the identifier only. -/
def idOnly (req : ApiRule) : ApiRule := { ApiRule.empty with Id := req.Id }

/-- The record `deleteCircuitBreakerRule` writes to the audit history. -/
def deletedRule (req : ApiRule) : CircuitBreakerRule :=
  { CircuitBreakerRule.empty with ID := req.Id, Name := req.Name, Namespace := req.Namespace }

/-- The record `enableCircuitBreakerRule` hands to the storage. -/
def enabledRule (req : ApiRule) (revision : String) : CircuitBreakerRule :=
  { CircuitBreakerRule.empty with
    ID := req.Id, Namespace := req.Namespace, Name := req.Name, Enable := req.Enable,
    Revision := revision }

/-- The result of `deleteCircuitBreakerRule` when the existence check answers with `resp`:
a not-found code is rewritten to success, the info text stays. -/
def remapNotFound (resp : Response) : Response :=
  if resp.code = Code.NotFoundCircuitBreaker then { resp with code := Code.ExecuteSuccess }
  else resp

/-! ## Queries: data model and collaborators -/

/-- The message `anypb.Any`: the type URL and the packed bytes of a message. -/
structure AnyData where
  TypeUrl : String
  Value : String
  deriving DecidableEq, Repr

/-- The message `apiservice.BatchQueryResponse` (the fields the embedded code uses). -/
structure BatchQueryResponse where
  code : Code
  info : String
  amount : Nat
  size : Nat
  data : List AnyData
  deriving DecidableEq, Repr

/-- One entry written to a `zip.Writer`: the name given to `w.Create` and the bytes
written to it. -/
structure ZipEntry where
  Name : String
  content : String
  deriving DecidableEq, Repr

/-- One member `*zip.File` of a `zip.Reader`: its name, the error of `file.Open()` if any,
and the result of `io.ReadAll` on the opened member. -/
structure ZipFile where
  Name : String
  openErr : Option String
  body : Except String String

/-- What `utils.ParseOffsetAndLimit(query)` yields when it succeeds: the offset, the limit
and the query map as the call leaves it (a Go map is shared with the callee). -/
structure Paging where
  offset : Nat
  limit : Nat
  query : List (String × String)
  deriving DecidableEq, Repr

/-- The helpers and libraries that the query, export and import code calls and that are
declared outside the embedded files.  A Go map is a list of key/value pairs in the order
in which `range` visits it. -/
structure Codec where
  /-- The helper `utils.ParseOffsetAndLimit`. -/
  ParseOffsetAndLimit : List (String × String) → Except String Paging
  /-- The decoder `json.Unmarshal` into an empty rule message. -/
  jsonUnmarshal : String → Except String ApiRule
  /-- The helper `commontime.Time2String`. -/
  Time2String : Time → String
  /-- The packing of a rule message into `anypb.Any`. -/
  packAny : ApiRule → Except String AnyData
  /-- The call `anypb.UnmarshalTo` into an empty rule message. -/
  unpackAny : AnyData → Except String ApiRule
  /-- The encoder `yaml.Marshal` on a rule message. -/
  yamlMarshal : ApiRule → Except String String
  /-- The decoder `yaml.Unmarshal` into an empty rule message. -/
  yamlUnmarshal : String → Except String ApiRule
  /-- The error of `w.Create(name)` on the archive writer, if any. -/
  zipCreate : String → Option String
  /-- The error of `f.Write(bytes)` on an archive member, if any. -/
  zipWrite : String → Option String
  /-- The bytes of the buffer after `w.Close()`, for the entries written. -/
  zipBytes : List ZipEntry → String
  /-- The call `zip.NewReader` on the bytes of an archive source. -/
  zipNewReader : String → Except String (List ZipFile)

/-- Modelled from the spec: `api.NewBatchQueryResponse` of `common/api/v1` (not among the
embedded files): a query response "{status code, total match count, returned page size,
ordered list of self-describing rule payloads}" with the given code, counts of zero and
no payload. -/
def NewBatchQueryResponse (env : Env) (code : Code) : BatchQueryResponse :=
  { code := code, info := env.code2info code, amount := 0, size := 0, data := [] }

/-- Modelled from the spec: `api.NewBatchQueryResponseWithMsg` of `common/api/v1` (not
among the embedded files): the response of `NewBatchQueryResponse` carrying the given
message as its info text. -/
def NewBatchQueryResponseWithMsg (_env : Env) (code : Code) (msg : String) :
    BatchQueryResponse :=
  { code := code, info := msg, amount := 0, size := 0, data := [] }

/-- Modelled from the spec: `api.AddAnyDataIntoBatchQuery` of `common/api/v1` (not among
the embedded files): packs the message and adds it at the end of the "ordered list of
self-describing rule payloads"; the error of the packing is returned. -/
def AddAnyDataIntoBatchQuery (codec : Codec) (out : BatchQueryResponse) (msg : ApiRule) :
    Except String BatchQueryResponse :=
  match codec.packAny msg with
  | .error err => .error err
  | .ok packed => .ok { out with data := out.data ++ [packed] }

/-! ## `circuitbreaker_rule.go`: query, export, import -/

/-- Go: the variable `CircuitBreakerRuleFilters` (the keys of the map). -/
def CircuitBreakerRuleFilters : List String :=
  ["brief", "offset", "limit", "id", "name", "namespace", "enable", "level", "service",
   "serviceNamespace", "srcService", "srcNamespace", "dstService", "dstNamespace",
   "dstMethod", "description"]

/-- The Go map assignment `m[key] = value`. -/
def mapSet (m : List (String × String)) (key value : String) : List (String × String) :=
  if m.any (fun kv => decide (kv.1 = key)) then
    m.map (fun kv => if kv.1 = key then (key, value) else kv)
  else m ++ [(key, value)]

/-- The loop of `GetCircuitBreakerRules` over the query map that fills `searchFilter`;
`none` stands for the early return with `InvalidParameter`. -/
def buildSearchFilter :
    List (String × String) → List (String × String) → Option (List (String × String))
  | [], searchFilter => some searchFilter
  | (key, value) :: rest, searchFilter =>
    if ¬ CircuitBreakerRuleFilters.contains key then none
    else if value = "" then buildSearchFilter rest searchFilter
    else buildSearchFilter rest (mapSet searchFilter key value)

/-- Go: `circuitBreakerRule2api`; a nil pointer is `none`. -/
def circuitBreakerRule2api (codec : Codec) :
    Option CircuitBreakerRule → Except String (Option ApiRule)
  | none => .ok none
  | some cbRule =>
    let decoded : Except String ApiRule :=
      if cbRule.Rule.length > 0 then codec.jsonUnmarshal cbRule.Rule
      else
        -- brief search, to display the services in list result
        .ok { ApiRule.empty with
              RuleMatcher := some
                { Source := some
                    { Service := cbRule.SrcService, Namespace := cbRule.SrcNamespace },
                  Destination := some
                    { Service := cbRule.DstService, Namespace := cbRule.DstNamespace,
                      Method := some cbRule.DstMethod } } }
    match decoded with
    | .error err => .error err
    | .ok proto =>
      .ok (some
        { proto with
          Id := cbRule.ID,
          Name := cbRule.Name,
          Namespace := cbRule.Namespace,
          Description := cbRule.Description,
          Level := cbRule.Level,
          Enable := cbRule.Enable,
          Revision := cbRule.Revision,
          Ctime := codec.Time2String cbRule.CreateTime,
          Mtime := codec.Time2String cbRule.ModifyTime,
          Etime := if cbRule.EnableTime.year > 2000
                   then codec.Time2String cbRule.EnableTime else "" })

/-- The loop of `GetCircuitBreakerRules` over the rules of the page: a rule whose
conversion or packing fails is skipped. -/
def collectRules (codec : Codec) :
    List CircuitBreakerRule → BatchQueryResponse → BatchQueryResponse
  | [], out => out
  | cbRule :: rest, out =>
    match circuitBreakerRule2api codec (some cbRule) with
    | .error _ => collectRules codec rest out
    | .ok none => collectRules codec rest out
    | .ok (some cbRuleProto) =>
      match AddAnyDataIntoBatchQuery codec out cbRuleProto with
      | .error _ => collectRules codec rest out
      | .ok out1 => collectRules codec rest out1

/-- Go: `Server.GetCircuitBreakerRules`.  A page holds fewer than `2^32` rules, so the
conversion of its length to `uint32` is the identity. -/
def GetCircuitBreakerRules {σ : Type} (env : Env) (codec : Codec) (S : Storage σ)
    (_ctx : Context) (st : ServerState σ) (query : List (String × String)) :
    ServerState σ × BatchQueryResponse :=
  match codec.ParseOffsetAndLimit query with
  | .error _ => (st, NewBatchQueryResponse env Code.InvalidParameter)
  | .ok paging =>
    match buildSearchFilter paging.query [] with
    | none => (st, NewBatchQueryResponse env Code.InvalidParameter)
    | some searchFilter =>
      let st1 := st.noteCall (StorageCall.Get searchFilter paging.offset paging.limit)
      match S.GetCircuitBreakerRules st1.store searchFilter paging.offset paging.limit with
      | .error err => (st1, NewBatchQueryResponse env (env.StoreCode2APICode err))
      | .ok (total, cbRules) =>
        (st1, collectRules codec cbRules
          { NewBatchQueryResponse env Code.ExecuteSuccess with
            amount := total, size := cbRules.length })

/-- The name given to the archive entry of a rule: `fmt.Sprint(msg.GetName(), ".yaml")`. -/
def entryName (name : String) : String := name ++ ".yaml"

/-- The loop of `ExportCircuitBreakerRules` over `ret.GetData()`; `w` is the list of
entries written to the archive so far and an error is the response returned early. -/
def exportEntries (env : Env) (codec : Codec) :
    List AnyData → List ZipEntry → Except BatchQueryResponse (List ZipEntry)
  | [], w => .ok w
  | data :: rest, w =>
    match codec.unpackAny data with
    | .error err => .error (NewBatchQueryResponseWithMsg env Code.ParseException err)
    | .ok msg =>
      match codec.yamlMarshal msg with
      | .error err => .error (NewBatchQueryResponseWithMsg env Code.ParseException err)
      | .ok byMsg =>
        match codec.zipCreate (entryName msg.Name) with
        | some err => .error (NewBatchQueryResponseWithMsg env Code.ParseException err)
        | none =>
          match codec.zipWrite byMsg with
          | some err => .error (NewBatchQueryResponseWithMsg env Code.ParseException err)
          | none =>
            exportEntries env codec rest
              (w ++ [{ Name := entryName msg.Name, content := byMsg }])

/-- Go: `Server.ExportCircuitBreakerRules`.  The archive is returned as the info text of
the response. -/
def ExportCircuitBreakerRules {σ : Type} (env : Env) (codec : Codec) (S : Storage σ)
    (ctx : Context) (st : ServerState σ) (query : List (String × String)) :
    ServerState σ × BatchQueryResponse :=
  let ret := GetCircuitBreakerRules env codec S ctx st query
  if ret.2.code ≠ Code.ExecuteSuccess then
    (ret.1, NewBatchQueryResponseWithMsg env Code.InvalidParameter ret.2.info)
  else if ret.2.data.length = 0 then
    (ret.1, NewBatchQueryResponse env Code.NotFoundCircuitBreaker)
  else
    match exportEntries env codec ret.2.data [] with
    | .error resp => (ret.1, resp)
    | .ok w => (ret.1, NewBatchQueryResponseWithMsg env Code.ExecuteSuccess (codec.zipBytes w))

/-- The message `apiconfig.ConfigFile`: the field the import reads and the fields that
name a file. -/
structure ConfigFile where
  Content : Option String
  Namespace : Option String := none
  Group : Option String := none
  Name : Option String := none
  deriving DecidableEq, Repr

/-- Getter chain `file.GetContent().GetValue()` (nil-safe). -/
def ConfigFile.contentValue : Option ConfigFile → String
  | none => ""
  | some file => file.Content.getD ""

/-- The variables of `ImportCircuitBreakerRules` while it reads the archives: the server
state and the slices `news` and `exists`. -/
structure ImportVars (σ : Type) where
  state : ServerState σ
  news : List ApiRule
  existing : List ApiRule

/-- The inner loop of `ImportCircuitBreakerRules` over the members of one archive. -/
def importEntries {σ : Type} (env : Env) (codec : Codec) (S : Storage σ) (ctx : Context) :
    List ZipFile → ImportVars σ → ImportVars σ
  | [], vars => vars
  | file :: rest, vars =>
    match file.openErr with
    | some _ => importEntries env codec S ctx rest vars
    | none =>
      match file.body with
      | .error _ => importEntries env codec S ctx rest vars
      | .ok byData =>
        match codec.yamlUnmarshal byData with
        | .error _ => importEntries env codec S ctx rest vars
        | .ok rule =>
          let resp := GetCircuitBreakerRules env codec S ctx vars.state [("id", rule.Id)]
          if resp.2.amount = 0 then
            importEntries env codec S ctx rest
              { vars with state := resp.1, news := vars.news ++ [rule] }
          else
            importEntries env codec S ctx rest
              { vars with state := resp.1, existing := vars.existing ++ [rule] }

/-- The outer loop of `ImportCircuitBreakerRules` over the archive sources. -/
def importFiles {σ : Type} (env : Env) (codec : Codec) (S : Storage σ) (ctx : Context) :
    List (Option ConfigFile) → ImportVars σ → ImportVars σ
  | [], vars => vars
  | file :: rest, vars =>
    match codec.zipNewReader (ConfigFile.contentValue file) with
    | .error _ => importFiles env codec S ctx rest vars
    | .ok zr => importFiles env codec S ctx rest (importEntries env codec S ctx zr vars)

/-- The Go zero value `&apiservice.BatchWriteResponse{}`: the getters of its nil fields
return zero. -/
def BatchWriteResponse.zero : BatchWriteResponse :=
  { code := Code.other 0, info := "", size := 0, responses := [] }

/-- The second half of `ImportCircuitBreakerRules`: the create batch on `news`, then the
update batch on `exists`, each assigned to the one variable `ret`, which is returned.
`api.FormatBatchWriteResponse(ret)` works on `ret` in place. -/
def importSubmit {σ : Type} (env : Env) (S : Storage σ) (ctx : Context)
    (vars : ImportVars σ) : ServerState σ × BatchWriteResponse :=
  let ret0 : ServerState σ × BatchWriteResponse := (vars.state, BatchWriteResponse.zero)
  let ret1 : ServerState σ × BatchWriteResponse :=
    if vars.news.length > 0 then
      ((CreateCircuitBreakerRules env S ctx ret0.1 (vars.news.map some)).1,
        FormatBatchWriteResponse env
          (CreateCircuitBreakerRules env S ctx ret0.1 (vars.news.map some)).2)
    else ret0
  if vars.existing.length > 0 then
    ((UpdateCircuitBreakerRules env S ctx ret1.1 (vars.existing.map some)).1,
      FormatBatchWriteResponse env
        (UpdateCircuitBreakerRules env S ctx ret1.1 (vars.existing.map some)).2)
  else ret1

/-- Go: `Server.ImportCircuitBreakerRules`. -/
def ImportCircuitBreakerRules {σ : Type} (env : Env) (codec : Codec) (S : Storage σ)
    (ctx : Context) (st : ServerState σ) (configFiles : List (Option ConfigFile)) :
    ServerState σ × BatchWriteResponse :=
  importSubmit env S ctx
    (importFiles env codec S ctx configFiles { state := st, news := [], existing := [] })

/-! ## A sample codec -/

/-- The characters before the first `sep`. -/
def beforeSep (sep : Char) : List Char → List Char
  | [] => []
  | c :: cs => if c = sep then [] else c :: beforeSep sep cs

/-- The characters after the first `sep`. -/
def afterSep (sep : Char) : List Char → List Char
  | [] => []
  | c :: cs => if c = sep then cs else afterSep sep cs

/-- The lines of a text; `cur` holds the current line, last character first. -/
def linesOf : List Char → List Char → List String
  | [], cur => if cur = [] then [] else [String.mk cur.reverse]
  | c :: cs, cur =>
    if c = Char.ofNat 10 then String.mk cur.reverse :: linesOf cs []
    else linesOf cs (c :: cur)

/-- Reads lines two by two as the name and the content of an archive member. -/
def membersOf : List String → Option (List ZipFile)
  | [] => some []
  | [_] => none
  | name :: content :: rest =>
    (membersOf rest).map (fun files =>
      { Name := name, openErr := none, body := .ok content } :: files)

/-- A decimal number. -/
def decimalOf (text : String) : Option Nat :=
  if text.data = [] then none
  else text.data.foldl
    (fun acc c => acc.bind (fun n =>
      if c.isDigit then some (10 * n + (c.toNat - 48)) else none)) (some 0)

/-- The value at a key of a query map. -/
def lookupKey (query : List (String × String)) (key : String) : Option String :=
  (query.find? (fun kv => decide (kv.1 = key))).map (fun kv => kv.2)

/-- A sample of `utils.ParseOffsetAndLimit`: decimal offset (default 0) and limit (default
100), both removed from the map. -/
def sampleParseOffsetAndLimit (query : List (String × String)) : Except String Paging :=
  let rest := query.filter (fun kv => decide (kv.1 ≠ "offset" ∧ kv.1 ≠ "limit"))
  match lookupKey query "offset", lookupKey query "limit" with
  | none, none => .ok { offset := 0, limit := 100, query := rest }
  | some o, none =>
    match decimalOf o with
    | some n => .ok { offset := n, limit := 100, query := rest }
    | none => .error "invalid offset"
  | none, some l =>
    match decimalOf l with
    | some n => .ok { offset := 0, limit := n, query := rest }
    | none => .error "invalid limit"
  | some o, some l =>
    match decimalOf o, decimalOf l with
    | some n, some k => .ok { offset := n, limit := k, query := rest }
    | _, _ => .error "invalid offset or limit"

/-- A sample text form of a rule message: its id and its name around a slash. -/
def sampleText (m : ApiRule) : String :=
  String.mk (m.Id.data ++ Char.ofNat 47 :: m.Name.data)

/-- The rule message read back from its sample text form. -/
def sampleRead (text : String) : ApiRule :=
  { ApiRule.empty with
    Id := String.mk (beforeSep (Char.ofNat 47) text.data),
    Name := String.mk (afterSep (Char.ofNat 47) text.data) }

/-- The sample text form is written for rule messages whose id holds no slash. -/
def sampleWritable (m : ApiRule) : Bool := !(m.Id.data.contains (Char.ofNat 47))

/-- The text holds no line break. -/
def oneLine (text : String) : Bool := !(text.data.contains (Char.ofNat 10))

/-- The characters of a sample archive: the name and the content of each entry in turn,
each on a line. -/
def archiveChars : List ZipEntry → List Char
  | [] => []
  | e :: es =>
    e.Name.data ++ Char.ofNat 10 :: (e.content.data ++ Char.ofNat 10 :: archiveChars es)

/-- A sample codec.  Rule messages are written as id and name; an archive is written as
lines, the name and the content of each member in turn; the text `bad` does not decode. -/
def sampleCodec : Codec :=
  { ParseOffsetAndLimit := sampleParseOffsetAndLimit,
    jsonUnmarshal := fun text =>
      if text = "bad" then .error "invalid character" else .ok ApiRule.empty,
    Time2String := fun t => toString t.year,
    packAny := fun m =>
      if sampleWritable m then
        .ok { TypeUrl := "type.googleapis.com/v1.CircuitBreakerRule", Value := sampleText m }
      else .error "unsupported id",
    unpackAny := fun a => .ok (sampleRead a.Value),
    yamlMarshal := fun m =>
      if sampleWritable m then .ok (sampleText m) else .error "unsupported id",
    yamlUnmarshal := fun text =>
      if text = "bad" then .error "cannot unmarshal" else .ok (sampleRead text),
    zipCreate := fun name => if oneLine name then none else some "invalid name",
    zipWrite := fun bytes => if oneLine bytes then none else some "invalid content",
    zipBytes := fun entries => String.mk (archiveChars entries),
    zipNewReader := fun bytes =>
      if bytes.data = [] then .error "zip: not a valid zip file"
      else match membersOf (linesOf bytes.data []) with
        | some files => .ok files
        | none => .error "zip: not a valid zip file" }

/-! ## Queries: specification-side notions -/

/-- The payload that `GetCircuitBreakerRules` adds for a rule of the page: the packed
external representation, or nothing when the conversion or the packing fails. -/
def payloadOf (codec : Codec) (r : CircuitBreakerRule) : Option AnyData :=
  match circuitBreakerRule2api codec (some r) with
  | .ok (some m) =>
    match codec.packAny m with
    | .ok packed => some packed
    | .error _ => none
  | _ => none

/-- A store that holds one rule whose stored payload does not decode. -/
def brokenRuleState : ServerState MemStore :=
  { store :=
      { rules := [{ CircuitBreakerRule.empty with
                    ID := "b1", Name := "broken", Namespace := "default", Rule := "bad" }],
        readErr := none, writeErr := none, now := Time.zero },
    history := [], uuidCount := 0, calls := [] }

/-- The server state after `r1` and `r2` have been created on `sampleState`. -/
def twoRuleState : ServerState MemStore :=
  (CreateCircuitBreakerRules sampleEnv memStorage sampleCtx sampleState
      ([sampleItem, { sampleItem with Name := "r2" }].map some)).1

/-- The archive entry written for a packed payload: the payload unpacks to a rule message
whose name gives the entry name and whose transfer form is the entry content, and the
archive writer took both the entry name and the content. -/
def EntryOf (codec : Codec) (packed : AnyData) (entry : ZipEntry) : Prop :=
  ∃ msg, codec.unpackAny packed = .ok msg ∧ codec.yamlMarshal msg = .ok entry.content ∧
    entry.Name = entryName msg.Name ∧ codec.zipCreate entry.Name = none ∧
    codec.zipWrite entry.content = none

/-! ## Import: specification-side notions -/

/-- The rule an archive member decodes to, if the member opens, reads and deserializes. -/
def readable (codec : Codec) (file : ZipFile) : Option ApiRule :=
  match file.openErr with
  | some _ => none
  | none =>
    match file.body with
    | .error _ => none
    | .ok byData =>
      match codec.yamlUnmarshal byData with
      | .error _ => none
      | .ok rule => some rule

/-- The well-formed entries of one archive source, in the order of the archive; a source
that is not an archive has none. -/
def sourceEntries (codec : Codec) (file : Option ConfigFile) : List ApiRule :=
  match codec.zipNewReader (ConfigFile.contentValue file) with
  | .error _ => []
  | .ok zr => zr.filterMap (readable codec)

/-- The well-formed entries of a list of archive sources, in the order of the archives. -/
def wellFormedEntries (codec : Codec) : List (Option ConfigFile) → List ApiRule
  | [] => []
  | file :: rest => sourceEntries codec file ++ wellFormedEntries codec rest

/-- The existence probe of the import: the total match count that
`GetCircuitBreakerRules` reports for the query `id = rule.Id`. -/
def probeAmount {σ : Type} (env : Env) (codec : Codec) (S : Storage σ) (ctx : Context)
    (st : ServerState σ) (rule : ApiRule) : Nat :=
  (GetCircuitBreakerRules env codec S ctx st [("id", rule.Id)]).2.amount

/-- The import takes the entry as new: its probe reports no match. -/
def probedNew {σ : Type} (env : Env) (codec : Codec) (S : Storage σ) (ctx : Context)
    (st : ServerState σ) (rule : ApiRule) : Bool :=
  decide (probeAmount env codec S ctx st rule = 0)

/-- The variables of `ImportCircuitBreakerRules` once all archive sources are read. -/
def classified {σ : Type} (env : Env) (codec : Codec) (S : Storage σ) (ctx : Context)
    (st : ServerState σ) (configFiles : List (Option ConfigFile)) : ImportVars σ :=
  importFiles env codec S ctx configFiles { state := st, news := [], existing := [] }

/-- Two server states that differ at most in the trace of storage calls. -/
def SameButCalls {σ : Type} (st st1 : ServerState σ) : Prop :=
  st1.store = st.store ∧ st1.history = st.history ∧ st1.uuidCount = st.uuidCount

/-- An archive source that holds the given bytes. -/
def archiveSource (bytes : String) : Option ConfigFile := some { Content := some bytes }

/-- An archive member that cannot be opened, read or deserialized. -/
def Unreadable (codec : Codec) (file : ZipFile) : Prop :=
  file.openErr ≠ none ∨ (∃ e, file.body = .error e) ∨
    (∃ byData e, file.body = .ok byData ∧ codec.yamlUnmarshal byData = .error e)

/-- An archive with one entry that has no id, named `new1`. -/
def idlessArchive : List (Option ConfigFile) := [archiveSource "x.yaml\n/new1\n"]

/-- An archive with an entry `r9` whose id `zz` no stored rule has, and the entry of the
stored rule `r1`. -/
def mixedArchive : List (Option ConfigFile) :=
  [archiveSource "a.yaml\nzz/r9\nr1.yaml\nuu/r1\n"]

/-- Sources for an import that meets bad input: an archive whose first member does not
deserialize, a missing source, a source that is not an archive, and a good archive. -/
def roughSources : List (Option ConfigFile) :=
  [archiveSource "a\nbad\nb.yaml\nzz/r9\n", none, archiveSource "q",
    archiveSource "r1.yaml\nuu/r1\n"]

/-- The archive member read back for a written entry. -/
def memberOf (e : ZipEntry) : ZipFile :=
  { Name := e.Name, openErr := none, body := .ok e.content }

/-- What the round trip asks of the codec: a rule message keeps its id through the packed
payload and through the transfer form, the transfer form of a rule message reads back, an
archive of accepted entries reads back as its entries, and the parser of offset and limit
leaves a query on the id alone as it is. -/
structure ReadsBack (codec : Codec) : Prop where
  any_id : ∀ m a m1, codec.packAny m = .ok a → codec.unpackAny a = .ok m1 → m1.Id = m.Id
  yaml_back : ∀ m t, codec.yamlMarshal m = .ok t →
    ∃ m1, codec.yamlUnmarshal t = .ok m1 ∧ m1.Id = m.Id
  zip_back : ∀ w, w ≠ [] →
    (∀ e ∈ w, codec.zipCreate e.Name = none ∧ codec.zipWrite e.content = none) →
    codec.zipNewReader (codec.zipBytes w) = .ok (w.map memberOf)
  probe : ∀ v, ∃ p, codec.ParseOffsetAndLimit [("id", v)] = .ok p ∧ p.query = [("id", v)]

/-! ## Authorization decorators: data model and collaborators -/

/-- The message types of the requests that the decorators pass on without looking into
them: `apitraffic.Rule`, `apitraffic.Routing`, `apitraffic.RouteRule`,
`apiconfig.ConfigFileExportRequest`, and the responses `apiconfig.ConfigBatchQueryResponse`
and `apiconfig.ConfigExportResponse` that only the wrapped server builds. -/
structure Messages where
  Rule : Type
  Routing : Type
  RouteRule : Type
  ConfigFileExportRequest : Type
  ConfigBatchQueryResponse : Type
  ConfigExportResponse : Type

/-- Go: `model.ResourceOperation`, the access modes that the decorators ask for. -/
inductive ResourceOperation where
  | Read
  | Create
  | Modify
  | Delete
  deriving DecidableEq, Repr

/-- The error of the policy checker; `message` is `err.Error()`. -/
structure AuthError where
  message : String
  deriving DecidableEq, Repr

/-- Go `context.Context` as the decorators and the wrapped server see it: the values of the
request and the value under `utils.ContextAuthContextKey`, if there is one.  `α` is the
type of the authorization context, `model.AcquireContext`. -/
structure CallContext (α : Type) where
  request : Context
  authContext : Option α

/-- Go: `context.WithValue(ctx, utils.ContextAuthContextKey, authCtx)`. -/
def WithValue {α : Type} (ctx : CallContext α) (authCtx : α) : CallContext α :=
  { ctx with authContext := some authCtx }

/-- The state of the wrapped server together with the trace of the calls forwarded to it:
the name of the operation and the context it was called with. -/
structure AuthState (α ω : Type) where
  target : ω
  forwarded : List (String × CallContext α)

/-- One call of an operation of the wrapped server, noted in the trace. -/
def forward {α ω ρ : Type} (st : AuthState α ω) (method : String) (ctx : CallContext α)
    (call : ω → ω × ρ) : AuthState α ω × ρ :=
  ({ target := (call st.target).1, forwarded := st.forwarded ++ [(method, ctx)] },
    (call st.target).2)

/-- Modelled from the spec: `api.NewBatchWriteResponseWithMsg` of `common/api/v1` (not
among the embedded files): the response of `NewBatchWriteResponse` carrying the given
message as its info text. -/
def NewBatchWriteResponseWithMsg (_env : Env) (code : Code) (msg : String) :
    BatchWriteResponse :=
  { code := code, info := msg, size := 0, responses := [] }

/-- The message `apiconfig.ConfigResponse`: its code and info text; the payload, which only
the wrapped server sets, is carried as text. -/
structure ConfigResponse where
  code : Code
  info : String
  payload : String
  deriving DecidableEq, Repr

/-- The message `apiconfig.ConfigImportResponse`: its code and info text; the lists of
created, skipped and overwritten files, which only the wrapped server sets, are carried as
text. -/
structure ConfigImportResponse where
  code : Code
  info : String
  payload : String
  deriving DecidableEq, Repr

/-- Modelled from the spec: `api.NewConfigFileResponseWithMessage` of `common/api/v1` (not
among the embedded files): a response without payload carrying the given code and the
given message as its info text. -/
def NewConfigFileResponseWithMessage (code : Code) (message : String) : ConfigResponse :=
  { code := code, info := message, payload := "" }

/-- Modelled from the spec: `api.NewConfigFileImportResponseWithMessage` of `common/api/v1`
(not among the embedded files): an import response without payload carrying the given code
and the given message as its info text. -/
def NewConfigFileImportResponseWithMessage (code : Code) (message : String) :
    ConfigImportResponse :=
  { code := code, info := message, payload := "" }

/-- The wrapped server `svr.targetServer` of the decorators of package `service_auth`: the
operations the decorators forward to, each a function of the state of the wrapped server,
the context and the request. -/
structure DiscoverServer (M : Messages) (α ω : Type) where
  CreateCircuitBreakerRules :
    ω → CallContext α → List (Option ApiRule) → ω × BatchWriteResponse
  DeleteCircuitBreakerRules :
    ω → CallContext α → List (Option ApiRule) → ω × BatchWriteResponse
  EnableCircuitBreakerRules :
    ω → CallContext α → List (Option ApiRule) → ω × BatchWriteResponse
  UpdateCircuitBreakerRules :
    ω → CallContext α → List (Option ApiRule) → ω × BatchWriteResponse
  GetCircuitBreakerRules :
    ω → CallContext α → List (String × String) → ω × BatchQueryResponse
  ExportCircuitBreakerRules :
    ω → CallContext α → List (String × String) → ω × BatchQueryResponse
  ImportCircuitBreakerRules :
    ω → CallContext α → List (Option ConfigFile) → ω × BatchWriteResponse
  CreateRateLimits :
    ω → CallContext α → List M.Rule → ω × BatchWriteResponse
  DeleteRateLimits :
    ω → CallContext α → List M.Rule → ω × BatchWriteResponse
  UpdateRateLimits :
    ω → CallContext α → List M.Rule → ω × BatchWriteResponse
  EnableRateLimits :
    ω → CallContext α → List M.Rule → ω × BatchWriteResponse
  GetRateLimits :
    ω → CallContext α → List (String × String) → ω × BatchQueryResponse
  ExportRateLimits :
    ω → CallContext α → List (String × String) → ω × BatchQueryResponse
  ImportRateLimits :
    ω → CallContext α → List (Option ConfigFile) → ω × BatchWriteResponse
  CreateRoutingConfigs :
    ω → CallContext α → List M.Routing → ω × BatchWriteResponse
  DeleteRoutingConfigs :
    ω → CallContext α → List M.Routing → ω × BatchWriteResponse
  UpdateRoutingConfigs :
    ω → CallContext α → List M.Routing → ω × BatchWriteResponse
  GetRoutingConfigs :
    ω → CallContext α → List (String × String) → ω × BatchQueryResponse
  CreateRoutingConfigsV2 :
    ω → CallContext α → List M.RouteRule → ω × BatchWriteResponse
  DeleteRoutingConfigsV2 :
    ω → CallContext α → List M.RouteRule → ω × BatchWriteResponse
  UpdateRoutingConfigsV2 :
    ω → CallContext α → List M.RouteRule → ω × BatchWriteResponse
  EnableRoutings :
    ω → CallContext α → List M.RouteRule → ω × BatchWriteResponse
  QueryRoutingConfigsV2 :
    ω → CallContext α → List (String × String) → ω × BatchQueryResponse
  ExportRoutings :
    ω → CallContext α → List (String × String) → ω × BatchQueryResponse
  ImportRoutings :
    ω → CallContext α → List (Option ConfigFile) → ω × BatchWriteResponse

/-- Go: `ServerAuthAbility` of package `service_auth` with what its methods reach: the
collectors of the authorization context and `convertToErrCode` (functions of the package
that are not among the embedded files), the policy checker
`svr.strategyMgn.GetAuthChecker().CheckConsolePermission`, which works on the authorization
context in place and so returns it with its error, the getter `GetRequestContext` of the
authorization context, and the wrapped server. -/
structure ServerAuthAbility (M : Messages) (α ω : Type) where
  env : Env
  collectCircuitBreakerRuleV2AuthContext :
    CallContext α → Option (List (Option ApiRule)) → ResourceOperation → String → α
  collectRateLimitAuthContext :
    CallContext α → Option (List M.Rule) → ResourceOperation → String → α
  collectRouteRuleAuthContext :
    CallContext α → Option (List M.Routing) → ResourceOperation → String → α
  collectRouteRuleV2AuthContext :
    CallContext α → Option (List M.RouteRule) → ResourceOperation → String → α
  CheckConsolePermission : α → α × Option AuthError
  GetRequestContext : α → CallContext α
  convertToErrCode : AuthError → Code
  targetServer : DiscoverServer M α ω

/-! ## `circuitbreaker_rule_authability.go` -/

/-- Go: `ServerAuthAbility.CreateCircuitBreakerRules`. -/
def ServerAuthAbility.CreateCircuitBreakerRules {M : Messages} {α ω : Type}
    (svr : ServerAuthAbility M α ω) (st : AuthState α ω) (ctx : CallContext α)
    (request : List (Option ApiRule)) : AuthState α ω × BatchWriteResponse :=
  let authCtx := svr.collectCircuitBreakerRuleV2AuthContext ctx (some request)
    ResourceOperation.Read "CreateCircuitBreakerRules"
  match svr.CheckConsolePermission authCtx with
  | (_, some err) => (st, NewBatchWriteResponse svr.env (svr.convertToErrCode err))
  | (authCtx, none) =>
    let ctx := svr.GetRequestContext authCtx
    let ctx := WithValue ctx authCtx
    forward st "CreateCircuitBreakerRules" ctx
      (fun t => svr.targetServer.CreateCircuitBreakerRules t ctx request)

/-- Go: `ServerAuthAbility.DeleteCircuitBreakerRules`. -/
def ServerAuthAbility.DeleteCircuitBreakerRules {M : Messages} {α ω : Type}
    (svr : ServerAuthAbility M α ω) (st : AuthState α ω) (ctx : CallContext α)
    (request : List (Option ApiRule)) : AuthState α ω × BatchWriteResponse :=
  let authCtx := svr.collectCircuitBreakerRuleV2AuthContext ctx (some request)
    ResourceOperation.Read "DeleteCircuitBreakerRules"
  match svr.CheckConsolePermission authCtx with
  | (_, some err) => (st, NewBatchWriteResponse svr.env (svr.convertToErrCode err))
  | (authCtx, none) =>
    let ctx := svr.GetRequestContext authCtx
    let ctx := WithValue ctx authCtx
    forward st "DeleteCircuitBreakerRules" ctx
      (fun t => svr.targetServer.DeleteCircuitBreakerRules t ctx request)

/-- Go: `ServerAuthAbility.EnableCircuitBreakerRules`. -/
def ServerAuthAbility.EnableCircuitBreakerRules {M : Messages} {α ω : Type}
    (svr : ServerAuthAbility M α ω) (st : AuthState α ω) (ctx : CallContext α)
    (request : List (Option ApiRule)) : AuthState α ω × BatchWriteResponse :=
  let authCtx := svr.collectCircuitBreakerRuleV2AuthContext ctx (some request)
    ResourceOperation.Read "EnableCircuitBreakerRules"
  match svr.CheckConsolePermission authCtx with
  | (_, some err) => (st, NewBatchWriteResponse svr.env (svr.convertToErrCode err))
  | (authCtx, none) =>
    let ctx := svr.GetRequestContext authCtx
    let ctx := WithValue ctx authCtx
    forward st "EnableCircuitBreakerRules" ctx
      (fun t => svr.targetServer.EnableCircuitBreakerRules t ctx request)

/-- Go: `ServerAuthAbility.UpdateCircuitBreakerRules`. -/
def ServerAuthAbility.UpdateCircuitBreakerRules {M : Messages} {α ω : Type}
    (svr : ServerAuthAbility M α ω) (st : AuthState α ω) (ctx : CallContext α)
    (request : List (Option ApiRule)) : AuthState α ω × BatchWriteResponse :=
  let authCtx := svr.collectCircuitBreakerRuleV2AuthContext ctx (some request)
    ResourceOperation.Read "UpdateCircuitBreakerRules"
  match svr.CheckConsolePermission authCtx with
  | (_, some err) => (st, NewBatchWriteResponse svr.env (svr.convertToErrCode err))
  | (authCtx, none) =>
    let ctx := svr.GetRequestContext authCtx
    let ctx := WithValue ctx authCtx
    forward st "UpdateCircuitBreakerRules" ctx
      (fun t => svr.targetServer.UpdateCircuitBreakerRules t ctx request)

/-- Go: `ServerAuthAbility.GetCircuitBreakerRules`. -/
def ServerAuthAbility.GetCircuitBreakerRules {M : Messages} {α ω : Type}
    (svr : ServerAuthAbility M α ω) (st : AuthState α ω) (ctx : CallContext α)
    (query : List (String × String)) : AuthState α ω × BatchQueryResponse :=
  let authCtx := svr.collectCircuitBreakerRuleV2AuthContext ctx none
    ResourceOperation.Read "GetCircuitBreakerRules"
  match svr.CheckConsolePermission authCtx with
  | (_, some err) => (st, NewBatchQueryResponse svr.env (svr.convertToErrCode err))
  | (authCtx, none) =>
    let ctx := svr.GetRequestContext authCtx
    let ctx := WithValue ctx authCtx
    forward st "GetCircuitBreakerRules" ctx
      (fun t => svr.targetServer.GetCircuitBreakerRules t ctx query)

/-- Go: `ServerAuthAbility.ExportCircuitBreakerRules`. -/
def ServerAuthAbility.ExportCircuitBreakerRules {M : Messages} {α ω : Type}
    (svr : ServerAuthAbility M α ω) (st : AuthState α ω) (ctx : CallContext α)
    (query : List (String × String)) : AuthState α ω × BatchQueryResponse :=
  let authCtx := svr.collectCircuitBreakerRuleV2AuthContext ctx none
    ResourceOperation.Read "ExportCircuitBreakerRules"
  match svr.CheckConsolePermission authCtx with
  | (_, some err) => (st, NewBatchQueryResponse svr.env (svr.convertToErrCode err))
  | (authCtx, none) =>
    let ctx := svr.GetRequestContext authCtx
    let ctx := WithValue ctx authCtx
    forward st "ExportCircuitBreakerRules" ctx
      (fun t => svr.targetServer.ExportCircuitBreakerRules t ctx query)

/-- Go: `ServerAuthAbility.ImportCircuitBreakerRules`. -/
def ServerAuthAbility.ImportCircuitBreakerRules {M : Messages} {α ω : Type}
    (svr : ServerAuthAbility M α ω) (st : AuthState α ω) (ctx : CallContext α)
    (configFiles : List (Option ConfigFile)) : AuthState α ω × BatchWriteResponse :=
  let authCtx := svr.collectCircuitBreakerRuleV2AuthContext ctx none
    ResourceOperation.Read "ImportCircuitBreakerRules"
  match svr.CheckConsolePermission authCtx with
  | (_, some err) => (st, NewBatchWriteResponse svr.env (svr.convertToErrCode err))
  | (authCtx, none) =>
    let ctx := svr.GetRequestContext authCtx
    let ctx := WithValue ctx authCtx
    forward st "ImportCircuitBreakerRules" ctx
      (fun t => svr.targetServer.ImportCircuitBreakerRules t ctx configFiles)

/-! ## `ratelimit_config_authability.go` -/

/-- Go: `ServerAuthAbility.CreateRateLimits`. -/
def ServerAuthAbility.CreateRateLimits {M : Messages} {α ω : Type}
    (svr : ServerAuthAbility M α ω) (st : AuthState α ω) (ctx : CallContext α)
    (reqs : List M.Rule) : AuthState α ω × BatchWriteResponse :=
  let authCtx := svr.collectRateLimitAuthContext ctx (some reqs)
    ResourceOperation.Create "CreateRateLimits"
  match svr.CheckConsolePermission authCtx with
  | (_, some err) => (st, NewBatchWriteResponseWithMsg svr.env Code.NotAllowedAccess err.message)
  | (authCtx, none) =>
    let ctx := svr.GetRequestContext authCtx
    let ctx := WithValue ctx authCtx
    forward st "CreateRateLimits" ctx
      (fun t => svr.targetServer.CreateRateLimits t ctx reqs)

/-- Go: `ServerAuthAbility.DeleteRateLimits`. -/
def ServerAuthAbility.DeleteRateLimits {M : Messages} {α ω : Type}
    (svr : ServerAuthAbility M α ω) (st : AuthState α ω) (ctx : CallContext α)
    (reqs : List M.Rule) : AuthState α ω × BatchWriteResponse :=
  let authCtx := svr.collectRateLimitAuthContext ctx (some reqs)
    ResourceOperation.Delete "DeleteRateLimits"
  match svr.CheckConsolePermission authCtx with
  | (_, some err) => (st, NewBatchWriteResponseWithMsg svr.env Code.NotAllowedAccess err.message)
  | (authCtx, none) =>
    let ctx := svr.GetRequestContext authCtx
    let ctx := WithValue ctx authCtx
    forward st "DeleteRateLimits" ctx
      (fun t => svr.targetServer.DeleteRateLimits t ctx reqs)

/-- Go: `ServerAuthAbility.UpdateRateLimits`. -/
def ServerAuthAbility.UpdateRateLimits {M : Messages} {α ω : Type}
    (svr : ServerAuthAbility M α ω) (st : AuthState α ω) (ctx : CallContext α)
    (reqs : List M.Rule) : AuthState α ω × BatchWriteResponse :=
  let authCtx := svr.collectRateLimitAuthContext ctx (some reqs)
    ResourceOperation.Modify "UpdateRateLimits"
  match svr.CheckConsolePermission authCtx with
  | (_, some err) => (st, NewBatchWriteResponseWithMsg svr.env Code.NotAllowedAccess err.message)
  | (authCtx, none) =>
    let ctx := svr.GetRequestContext authCtx
    let ctx := WithValue ctx authCtx
    forward st "UpdateRateLimits" ctx
      (fun t => svr.targetServer.UpdateRateLimits t ctx reqs)

/-- Go: `ServerAuthAbility.EnableRateLimits`. -/
def ServerAuthAbility.EnableRateLimits {M : Messages} {α ω : Type}
    (svr : ServerAuthAbility M α ω) (st : AuthState α ω) (ctx : CallContext α)
    (reqs : List M.Rule) : AuthState α ω × BatchWriteResponse :=
  let authCtx := svr.collectRateLimitAuthContext ctx none
    ResourceOperation.Read "EnableRateLimits"
  match svr.CheckConsolePermission authCtx with
  | (_, some err) => (st, NewBatchWriteResponseWithMsg svr.env Code.NotAllowedAccess err.message)
  | (authCtx, none) =>
    let ctx := svr.GetRequestContext authCtx
    let ctx := WithValue ctx authCtx
    forward st "EnableRateLimits" ctx
      (fun t => svr.targetServer.EnableRateLimits t ctx reqs)

/-- Go: `ServerAuthAbility.GetRateLimits`. -/
def ServerAuthAbility.GetRateLimits {M : Messages} {α ω : Type}
    (svr : ServerAuthAbility M α ω) (st : AuthState α ω) (ctx : CallContext α)
    (query : List (String × String)) : AuthState α ω × BatchQueryResponse :=
  let authCtx := svr.collectRateLimitAuthContext ctx none
    ResourceOperation.Read "GetRateLimits"
  match svr.CheckConsolePermission authCtx with
  | (_, some err) => (st, NewBatchQueryResponseWithMsg svr.env Code.NotAllowedAccess err.message)
  | (authCtx, none) =>
    let ctx := svr.GetRequestContext authCtx
    let ctx := WithValue ctx authCtx
    forward st "GetRateLimits" ctx
      (fun t => svr.targetServer.GetRateLimits t ctx query)

/-- Go: `ServerAuthAbility.ExportRateLimits`. -/
def ServerAuthAbility.ExportRateLimits {M : Messages} {α ω : Type}
    (svr : ServerAuthAbility M α ω) (st : AuthState α ω) (ctx : CallContext α)
    (query : List (String × String)) : AuthState α ω × BatchQueryResponse :=
  let authCtx := svr.collectRateLimitAuthContext ctx none
    ResourceOperation.Read "ExportRateLimits"
  match svr.CheckConsolePermission authCtx with
  | (_, some err) => (st, NewBatchQueryResponseWithMsg svr.env Code.NotAllowedAccess err.message)
  | (authCtx, none) =>
    let ctx := svr.GetRequestContext authCtx
    let ctx := WithValue ctx authCtx
    forward st "ExportRateLimits" ctx
      (fun t => svr.targetServer.ExportRateLimits t ctx query)

/-- Go: `ServerAuthAbility.ImportRateLimits`. -/
def ServerAuthAbility.ImportRateLimits {M : Messages} {α ω : Type}
    (svr : ServerAuthAbility M α ω) (st : AuthState α ω) (ctx : CallContext α)
    (configFiles : List (Option ConfigFile)) : AuthState α ω × BatchWriteResponse :=
  let authCtx := svr.collectRateLimitAuthContext ctx none
    ResourceOperation.Read "ImportRateLimits"
  match svr.CheckConsolePermission authCtx with
  | (_, some err) => (st, NewBatchWriteResponseWithMsg svr.env Code.NotAllowedAccess err.message)
  | (authCtx, none) =>
    let ctx := svr.GetRequestContext authCtx
    let ctx := WithValue ctx authCtx
    forward st "ImportRateLimits" ctx
      (fun t => svr.targetServer.ImportRateLimits t ctx configFiles)

/-! ## `routing_config_v1_authability.go` -/

/-- Go: `ServerAuthAbility.CreateRoutingConfigs`. -/
def ServerAuthAbility.CreateRoutingConfigs {M : Messages} {α ω : Type}
    (svr : ServerAuthAbility M α ω) (st : AuthState α ω) (ctx : CallContext α)
    (reqs : List M.Routing) : AuthState α ω × BatchWriteResponse :=
  let authCtx := svr.collectRouteRuleAuthContext ctx (some reqs)
    ResourceOperation.Create "CreateRoutingConfigs"
  match svr.CheckConsolePermission authCtx with
  | (_, some err) => (st, NewBatchWriteResponseWithMsg svr.env Code.NotAllowedAccess err.message)
  | (authCtx, none) =>
    let ctx := svr.GetRequestContext authCtx
    let ctx := WithValue ctx authCtx
    forward st "CreateRoutingConfigs" ctx
      (fun t => svr.targetServer.CreateRoutingConfigs t ctx reqs)

/-- Go: `ServerAuthAbility.DeleteRoutingConfigs`. -/
def ServerAuthAbility.DeleteRoutingConfigs {M : Messages} {α ω : Type}
    (svr : ServerAuthAbility M α ω) (st : AuthState α ω) (ctx : CallContext α)
    (reqs : List M.Routing) : AuthState α ω × BatchWriteResponse :=
  let authCtx := svr.collectRouteRuleAuthContext ctx (some reqs)
    ResourceOperation.Delete "DeleteRoutingConfigs"
  match svr.CheckConsolePermission authCtx with
  | (_, some err) => (st, NewBatchWriteResponseWithMsg svr.env Code.NotAllowedAccess err.message)
  | (authCtx, none) =>
    let ctx := svr.GetRequestContext authCtx
    let ctx := WithValue ctx authCtx
    forward st "DeleteRoutingConfigs" ctx
      (fun t => svr.targetServer.DeleteRoutingConfigs t ctx reqs)

/-- Go: `ServerAuthAbility.UpdateRoutingConfigs`. -/
def ServerAuthAbility.UpdateRoutingConfigs {M : Messages} {α ω : Type}
    (svr : ServerAuthAbility M α ω) (st : AuthState α ω) (ctx : CallContext α)
    (reqs : List M.Routing) : AuthState α ω × BatchWriteResponse :=
  let authCtx := svr.collectRouteRuleAuthContext ctx (some reqs)
    ResourceOperation.Modify "UpdateRoutingConfigs"
  match svr.CheckConsolePermission authCtx with
  | (_, some err) => (st, NewBatchWriteResponseWithMsg svr.env Code.NotAllowedAccess err.message)
  | (authCtx, none) =>
    let ctx := svr.GetRequestContext authCtx
    let ctx := WithValue ctx authCtx
    forward st "UpdateRoutingConfigs" ctx
      (fun t => svr.targetServer.UpdateRoutingConfigs t ctx reqs)

/-- Go: `ServerAuthAbility.GetRoutingConfigs`. -/
def ServerAuthAbility.GetRoutingConfigs {M : Messages} {α ω : Type}
    (svr : ServerAuthAbility M α ω) (st : AuthState α ω) (ctx : CallContext α)
    (query : List (String × String)) : AuthState α ω × BatchQueryResponse :=
  let authCtx := svr.collectRouteRuleAuthContext ctx none
    ResourceOperation.Read "GetRoutingConfigs"
  match svr.CheckConsolePermission authCtx with
  | (_, some err) => (st, NewBatchQueryResponseWithMsg svr.env Code.NotAllowedAccess err.message)
  | (authCtx, none) =>
    let ctx := svr.GetRequestContext authCtx
    let ctx := WithValue ctx authCtx
    forward st "GetRoutingConfigs" ctx
      (fun t => svr.targetServer.GetRoutingConfigs t ctx query)

/-! ## `routing_config_v2_authability.go` -/

/-- Go: `ServerAuthAbility.CreateRoutingConfigsV2`. -/
def ServerAuthAbility.CreateRoutingConfigsV2 {M : Messages} {α ω : Type}
    (svr : ServerAuthAbility M α ω) (st : AuthState α ω) (ctx : CallContext α)
    (req : List M.RouteRule) : AuthState α ω × BatchWriteResponse :=
  let authCtx := svr.collectRouteRuleV2AuthContext ctx (some req)
    ResourceOperation.Read "CreateRoutingConfigsV2"
  match svr.CheckConsolePermission authCtx with
  | (_, some err) => (st, NewBatchWriteResponse svr.env (svr.convertToErrCode err))
  | (authCtx, none) =>
    let ctx := svr.GetRequestContext authCtx
    let ctx := WithValue ctx authCtx
    forward st "CreateRoutingConfigsV2" ctx
      (fun t => svr.targetServer.CreateRoutingConfigsV2 t ctx req)

/-- Go: `ServerAuthAbility.DeleteRoutingConfigsV2`. -/
def ServerAuthAbility.DeleteRoutingConfigsV2 {M : Messages} {α ω : Type}
    (svr : ServerAuthAbility M α ω) (st : AuthState α ω) (ctx : CallContext α)
    (req : List M.RouteRule) : AuthState α ω × BatchWriteResponse :=
  let authCtx := svr.collectRouteRuleV2AuthContext ctx (some req)
    ResourceOperation.Read "DeleteRoutingConfigsV2"
  match svr.CheckConsolePermission authCtx with
  | (_, some err) => (st, NewBatchWriteResponse svr.env (svr.convertToErrCode err))
  | (authCtx, none) =>
    let ctx := svr.GetRequestContext authCtx
    let ctx := WithValue ctx authCtx
    forward st "DeleteRoutingConfigsV2" ctx
      (fun t => svr.targetServer.DeleteRoutingConfigsV2 t ctx req)

/-- Go: `ServerAuthAbility.UpdateRoutingConfigsV2`. -/
def ServerAuthAbility.UpdateRoutingConfigsV2 {M : Messages} {α ω : Type}
    (svr : ServerAuthAbility M α ω) (st : AuthState α ω) (ctx : CallContext α)
    (req : List M.RouteRule) : AuthState α ω × BatchWriteResponse :=
  let authCtx := svr.collectRouteRuleV2AuthContext ctx (some req)
    ResourceOperation.Read "UpdateRoutingConfigsV2"
  match svr.CheckConsolePermission authCtx with
  | (_, some err) => (st, NewBatchWriteResponse svr.env (svr.convertToErrCode err))
  | (authCtx, none) =>
    let ctx := svr.GetRequestContext authCtx
    let ctx := WithValue ctx authCtx
    forward st "UpdateRoutingConfigsV2" ctx
      (fun t => svr.targetServer.UpdateRoutingConfigsV2 t ctx req)

/-- Go: `ServerAuthAbility.EnableRoutings`. -/
def ServerAuthAbility.EnableRoutings {M : Messages} {α ω : Type}
    (svr : ServerAuthAbility M α ω) (st : AuthState α ω) (ctx : CallContext α)
    (req : List M.RouteRule) : AuthState α ω × BatchWriteResponse :=
  let authCtx := svr.collectRouteRuleV2AuthContext ctx (some req)
    ResourceOperation.Read "EnableRoutings"
  match svr.CheckConsolePermission authCtx with
  | (_, some err) => (st, NewBatchWriteResponse svr.env (svr.convertToErrCode err))
  | (authCtx, none) =>
    let ctx := svr.GetRequestContext authCtx
    let ctx := WithValue ctx authCtx
    forward st "EnableRoutings" ctx
      (fun t => svr.targetServer.EnableRoutings t ctx req)

/-- Go: `ServerAuthAbility.QueryRoutingConfigsV2`. -/
def ServerAuthAbility.QueryRoutingConfigsV2 {M : Messages} {α ω : Type}
    (svr : ServerAuthAbility M α ω) (st : AuthState α ω) (ctx : CallContext α)
    (query : List (String × String)) : AuthState α ω × BatchQueryResponse :=
  forward st "QueryRoutingConfigsV2" ctx
    (fun t => svr.targetServer.QueryRoutingConfigsV2 t ctx query)

/-- Go: `ServerAuthAbility.ExportRoutings`. -/
def ServerAuthAbility.ExportRoutings {M : Messages} {α ω : Type}
    (svr : ServerAuthAbility M α ω) (st : AuthState α ω) (ctx : CallContext α)
    (query : List (String × String)) : AuthState α ω × BatchQueryResponse :=
  let authCtx := svr.collectRouteRuleV2AuthContext ctx none
    ResourceOperation.Read "ExportRoutings"
  match svr.CheckConsolePermission authCtx with
  | (_, some err) => (st, NewBatchQueryResponse svr.env (svr.convertToErrCode err))
  | (authCtx, none) =>
    let ctx := svr.GetRequestContext authCtx
    let ctx := WithValue ctx authCtx
    forward st "ExportRoutings" ctx
      (fun t => svr.targetServer.ExportRoutings t ctx query)

/-- Go: `ServerAuthAbility.ImportRoutings`. -/
def ServerAuthAbility.ImportRoutings {M : Messages} {α ω : Type}
    (svr : ServerAuthAbility M α ω) (st : AuthState α ω) (ctx : CallContext α)
    (configFiles : List (Option ConfigFile)) : AuthState α ω × BatchWriteResponse :=
  let authCtx := svr.collectCircuitBreakerRuleV2AuthContext ctx none
    ResourceOperation.Read "ImportRoutings"
  match svr.CheckConsolePermission authCtx with
  | (_, some err) => (st, NewBatchWriteResponse svr.env (svr.convertToErrCode err))
  | (authCtx, none) =>
    let ctx := svr.GetRequestContext authCtx
    let ctx := WithValue ctx authCtx
    forward st "ImportRoutings" ctx
      (fun t => svr.targetServer.ImportRoutings t ctx configFiles)

/-! ## `config_file_authibility.go` -/

/-- The wrapped server `s.targetServer` of the decorator of package `config`. -/
structure ConfigFileServer (M : Messages) (α ω : Type) where
  CreateConfigFile : ω → CallContext α → Option ConfigFile → ω × ConfigResponse
  GetConfigFileBaseInfo : ω → CallContext α → String → String → String → ω × ConfigResponse
  GetConfigFileRichInfo : ω → CallContext α → String → String → String → ω × ConfigResponse
  QueryConfigFilesByGroup :
    ω → CallContext α → String → String → Nat → Nat → ω × M.ConfigBatchQueryResponse
  SearchConfigFile :
    ω → CallContext α → String → String → String → String → Nat → Nat →
      ω × M.ConfigBatchQueryResponse
  UpdateConfigFile : ω → CallContext α → Option ConfigFile → ω × ConfigResponse
  DeleteConfigFile :
    ω → CallContext α → String → String → String → String → ω × ConfigResponse
  BatchDeleteConfigFile :
    ω → CallContext α → List (Option ConfigFile) → String → ω × ConfigResponse
  ExportConfigFile :
    ω → CallContext α → Option M.ConfigFileExportRequest → ω × M.ConfigExportResponse
  ImportConfigFile :
    ω → CallContext α → List (Option ConfigFile) → String → ω × ConfigImportResponse

/-- Go: `serverAuthability` of package `config` with what its methods reach: the collector
of the authorization context and `convertToErrCode` (functions of the package that are not
among the embedded files), the policy checker, the getter `GetRequestContext` of the
authorization context, and the wrapped server. -/
structure serverAuthability (M : Messages) (α ω : Type) where
  collectConfigFileAuthContext :
    CallContext α → List (Option ConfigFile) → ResourceOperation → String → α
  CheckConsolePermission : α → α × Option AuthError
  GetRequestContext : α → CallContext α
  convertToErrCode : AuthError → Code
  targetServer : ConfigFileServer M α ω

/-- Go: `serverAuthability.CreateConfigFile`. -/
def serverAuthability.CreateConfigFile {M : Messages} {α ω : Type}
    (s : serverAuthability M α ω) (st : AuthState α ω) (ctx : CallContext α)
    (configFile : Option ConfigFile) : AuthState α ω × ConfigResponse :=
  let authCtx := s.collectConfigFileAuthContext ctx [configFile]
    ResourceOperation.Create "CreateConfigFile"
  match s.CheckConsolePermission authCtx with
  | (_, some err) =>
    (st, NewConfigFileResponseWithMessage (s.convertToErrCode err) err.message)
  | (authCtx, none) =>
    let ctx := s.GetRequestContext authCtx
    let ctx := WithValue ctx authCtx
    forward st "CreateConfigFile" ctx
      (fun t => s.targetServer.CreateConfigFile t ctx configFile)

/-- Go: `serverAuthability.GetConfigFileBaseInfo`. -/
def serverAuthability.GetConfigFileBaseInfo {M : Messages} {α ω : Type}
    (s : serverAuthability M α ω) (st : AuthState α ω) (ctx : CallContext α)
    (ns group name : String) : AuthState α ω × ConfigResponse :=
  forward st "GetConfigFileBaseInfo" ctx
    (fun t => s.targetServer.GetConfigFileBaseInfo t ctx ns group name)

/-- Go: `serverAuthability.GetConfigFileRichInfo`. -/
def serverAuthability.GetConfigFileRichInfo {M : Messages} {α ω : Type}
    (s : serverAuthability M α ω) (st : AuthState α ω) (ctx : CallContext α)
    (ns group name : String) : AuthState α ω × ConfigResponse :=
  forward st "GetConfigFileRichInfo" ctx
    (fun t => s.targetServer.GetConfigFileRichInfo t ctx ns group name)

/-- Go: `serverAuthability.QueryConfigFilesByGroup`. -/
def serverAuthability.QueryConfigFilesByGroup {M : Messages} {α ω : Type}
    (s : serverAuthability M α ω) (st : AuthState α ω) (ctx : CallContext α)
    (ns group : String) (offset limit : Nat) :
    AuthState α ω × M.ConfigBatchQueryResponse :=
  forward st "QueryConfigFilesByGroup" ctx
    (fun t => s.targetServer.QueryConfigFilesByGroup t ctx ns group offset limit)

/-- Go: `serverAuthability.SearchConfigFile`. -/
def serverAuthability.SearchConfigFile {M : Messages} {α ω : Type}
    (s : serverAuthability M α ω) (st : AuthState α ω) (ctx : CallContext α)
    (ns group name tags : String) (offset limit : Nat) :
    AuthState α ω × M.ConfigBatchQueryResponse :=
  forward st "SearchConfigFile" ctx
    (fun t => s.targetServer.SearchConfigFile t ctx ns group name tags offset limit)

/-- Go: `serverAuthability.UpdateConfigFile`. -/
def serverAuthability.UpdateConfigFile {M : Messages} {α ω : Type}
    (s : serverAuthability M α ω) (st : AuthState α ω) (ctx : CallContext α)
    (configFile : Option ConfigFile) : AuthState α ω × ConfigResponse :=
  let authCtx := s.collectConfigFileAuthContext ctx [configFile]
    ResourceOperation.Modify "UpdateConfigFile"
  match s.CheckConsolePermission authCtx with
  | (_, some err) =>
    (st, NewConfigFileResponseWithMessage (s.convertToErrCode err) err.message)
  | (authCtx, none) =>
    let ctx := s.GetRequestContext authCtx
    let ctx := WithValue ctx authCtx
    forward st "UpdateConfigFile" ctx
      (fun t => s.targetServer.UpdateConfigFile t ctx configFile)

/-- Go: `serverAuthability.DeleteConfigFile`. -/
def serverAuthability.DeleteConfigFile {M : Messages} {α ω : Type}
    (s : serverAuthability M α ω) (st : AuthState α ω) (ctx : CallContext α)
    (ns group name deleteBy : String) : AuthState α ω × ConfigResponse :=
  let authCtx := s.collectConfigFileAuthContext ctx
    [some { Content := none, Namespace := some ns, Name := some name, Group := some group }]
    ResourceOperation.Delete "DeleteConfigFile"
  match s.CheckConsolePermission authCtx with
  | (_, some err) =>
    (st, NewConfigFileResponseWithMessage (s.convertToErrCode err) err.message)
  | (authCtx, none) =>
    let ctx := s.GetRequestContext authCtx
    let ctx := WithValue ctx authCtx
    forward st "DeleteConfigFile" ctx
      (fun t => s.targetServer.DeleteConfigFile t ctx ns group name deleteBy)

/-- Go: `serverAuthability.BatchDeleteConfigFile`. -/
def serverAuthability.BatchDeleteConfigFile {M : Messages} {α ω : Type}
    (s : serverAuthability M α ω) (st : AuthState α ω) (ctx : CallContext α)
    (configFiles : List (Option ConfigFile)) (operator : String) :
    AuthState α ω × ConfigResponse :=
  let authCtx := s.collectConfigFileAuthContext ctx configFiles
    ResourceOperation.Delete "BatchDeleteConfigFile"
  match s.CheckConsolePermission authCtx with
  | (_, some err) =>
    (st, NewConfigFileResponseWithMessage (s.convertToErrCode err) err.message)
  | (authCtx, none) =>
    let ctx := s.GetRequestContext authCtx
    let ctx := WithValue ctx authCtx
    forward st "BatchDeleteConfigFile" ctx
      (fun t => s.targetServer.BatchDeleteConfigFile t ctx configFiles operator)

/-- Go: `serverAuthability.ExportConfigFile`. -/
def serverAuthability.ExportConfigFile {M : Messages} {α ω : Type}
    (s : serverAuthability M α ω) (st : AuthState α ω) (ctx : CallContext α)
    (configFileExport : Option M.ConfigFileExportRequest) :
    AuthState α ω × M.ConfigExportResponse :=
  forward st "ExportConfigFile" ctx
    (fun t => s.targetServer.ExportConfigFile t ctx configFileExport)

/-- Go: `serverAuthability.ImportConfigFile`. -/
def serverAuthability.ImportConfigFile {M : Messages} {α ω : Type}
    (s : serverAuthability M α ω) (st : AuthState α ω) (ctx : CallContext α)
    (configFiles : List (Option ConfigFile)) (conflictHandling : String) :
    AuthState α ω × ConfigImportResponse :=
  let authCtx := s.collectConfigFileAuthContext ctx configFiles
    ResourceOperation.Create "ImportConfigFile"
  match s.CheckConsolePermission authCtx with
  | (_, some err) =>
    (st, NewConfigFileImportResponseWithMessage (s.convertToErrCode err) err.message)
  | (authCtx, none) =>
    let ctx := s.GetRequestContext authCtx
    let ctx := WithValue ctx authCtx
    forward st "ImportConfigFile" ctx
      (fun t => s.targetServer.ImportConfigFile t ctx configFiles conflictHandling)

/-! ## Authorization decorators: specification-side notions -/

/-- The decorated operation forwards on approval: when the policy checker approves the
authorization context collected for the call, the operation `target` of the wrapped server
is called once, on the request as it came and on the context that the authorization
context returns, extended with the authorization context under the key; its state and
its response are returned as they are. -/
def ForwardsOnApproval {α ω ρ τ : Type} (check : α → α × Option AuthError)
    (getRequestContext : α → CallContext α) (method : String)
    (collect : CallContext α → τ → α)
    (decorated : AuthState α ω → CallContext α → τ → AuthState α ω × ρ)
    (target : ω → CallContext α → τ → ω × ρ) : Prop :=
  ∀ (st : AuthState α ω) (ctx : CallContext α) (request : τ) (authCtx : α),
    check (collect ctx request) = (authCtx, none) →
    decorated st ctx request
      = ({ target := (target st.target (WithValue (getRequestContext authCtx) authCtx)
              request).1,
           forwarded := st.forwarded
              ++ [(method, WithValue (getRequestContext authCtx) authCtx)] },
          (target st.target (WithValue (getRequestContext authCtx) authCtx) request).2)

/-- The decorated operation refuses on denial: when the policy checker returns an error for
the authorization context collected for the call, the state of the wrapped server and the
trace of forwarded calls are returned as they were and the response is `denial` of the
error. -/
def RefusesOnDenial {α ω ρ τ : Type} (check : α → α × Option AuthError)
    (collect : CallContext α → τ → α)
    (decorated : AuthState α ω → CallContext α → τ → AuthState α ω × ρ)
    (denial : AuthError → ρ) : Prop :=
  ∀ (st : AuthState α ω) (ctx : CallContext α) (request : τ) (authCtx : α)
    (err : AuthError),
    check (collect ctx request) = (authCtx, some err) →
    decorated st ctx request = (st, denial err)

/-! ## Authorization decorators: sample values -/

/-- A sample authorization context: the values of the request, the access mode asked for
and the name of the operation. -/
structure SampleAcquire where
  request : Context
  operation : ResourceOperation
  method : String
  deriving DecidableEq, Repr

/-- Sample message types: every message is carried as text. -/
def sampleMessages : Messages :=
  { Rule := String, Routing := String, RouteRule := String,
    ConfigFileExportRequest := String, ConfigBatchQueryResponse := String,
    ConfigExportResponse := String }

/-- The sample configuration with an info text for `NotAllowedAccess`. -/
def infoEnv : Env :=
  { sampleEnv with
    code2info := fun code => if code = Code.NotAllowedAccess then "not allowed access" else "" }

/-- A sample wrapped server: the circuit-breaker operations are those of this service on
the in-memory store with the sample codec; the other operations answer a success and
change nothing. -/
def sampleTarget : DiscoverServer sampleMessages SampleAcquire (ServerState MemStore) :=
  { CreateCircuitBreakerRules := fun t ctx request =>
      CreateCircuitBreakerRules infoEnv memStorage ctx.request t request,
    DeleteCircuitBreakerRules := fun t ctx request =>
      DeleteCircuitBreakerRules infoEnv memStorage ctx.request t request,
    EnableCircuitBreakerRules := fun t ctx request =>
      EnableCircuitBreakerRules infoEnv memStorage ctx.request t request,
    UpdateCircuitBreakerRules := fun t ctx request =>
      UpdateCircuitBreakerRules infoEnv memStorage ctx.request t request,
    GetCircuitBreakerRules := fun t ctx query =>
      GetCircuitBreakerRules infoEnv sampleCodec memStorage ctx.request t query,
    ExportCircuitBreakerRules := fun t ctx query =>
      ExportCircuitBreakerRules infoEnv sampleCodec memStorage ctx.request t query,
    ImportCircuitBreakerRules := fun t ctx configFiles =>
      ImportCircuitBreakerRules infoEnv sampleCodec memStorage ctx.request t configFiles,
    CreateRateLimits := fun t _ _ => (t, NewBatchWriteResponse infoEnv Code.ExecuteSuccess),
    DeleteRateLimits := fun t _ _ => (t, NewBatchWriteResponse infoEnv Code.ExecuteSuccess),
    UpdateRateLimits := fun t _ _ => (t, NewBatchWriteResponse infoEnv Code.ExecuteSuccess),
    EnableRateLimits := fun t _ _ => (t, NewBatchWriteResponse infoEnv Code.ExecuteSuccess),
    GetRateLimits := fun t _ _ => (t, NewBatchQueryResponse infoEnv Code.ExecuteSuccess),
    ExportRateLimits := fun t _ _ => (t, NewBatchQueryResponse infoEnv Code.ExecuteSuccess),
    ImportRateLimits := fun t _ _ => (t, NewBatchWriteResponse infoEnv Code.ExecuteSuccess),
    CreateRoutingConfigs := fun t _ _ =>
      (t, NewBatchWriteResponse infoEnv Code.ExecuteSuccess),
    DeleteRoutingConfigs := fun t _ _ =>
      (t, NewBatchWriteResponse infoEnv Code.ExecuteSuccess),
    UpdateRoutingConfigs := fun t _ _ =>
      (t, NewBatchWriteResponse infoEnv Code.ExecuteSuccess),
    GetRoutingConfigs := fun t _ _ => (t, NewBatchQueryResponse infoEnv Code.ExecuteSuccess),
    CreateRoutingConfigsV2 := fun t _ _ =>
      (t, NewBatchWriteResponse infoEnv Code.ExecuteSuccess),
    DeleteRoutingConfigsV2 := fun t _ _ =>
      (t, NewBatchWriteResponse infoEnv Code.ExecuteSuccess),
    UpdateRoutingConfigsV2 := fun t _ _ =>
      (t, NewBatchWriteResponse infoEnv Code.ExecuteSuccess),
    EnableRoutings := fun t _ _ => (t, NewBatchWriteResponse infoEnv Code.ExecuteSuccess),
    QueryRoutingConfigsV2 := fun t _ _ =>
      (t, NewBatchQueryResponse infoEnv Code.ExecuteSuccess),
    ExportRoutings := fun t _ _ => (t, NewBatchQueryResponse infoEnv Code.ExecuteSuccess),
    ImportRoutings := fun t _ _ => (t, NewBatchWriteResponse infoEnv Code.ExecuteSuccess) }

/-- A sample policy checker: the operator `alice` may do everything, nobody else anything. -/
def sampleChecker (authCtx : SampleAcquire) : SampleAcquire × Option AuthError :=
  if authCtx.request.operator = "alice" then (authCtx, none)
  else (authCtx, some { message := "no permission" })

/-- A sample decorator of package `service_auth` around the sample wrapped server. -/
def sampleAuth : ServerAuthAbility sampleMessages SampleAcquire (ServerState MemStore) :=
  { env := infoEnv,
    collectCircuitBreakerRuleV2AuthContext := fun ctx _ operation method =>
      { request := ctx.request, operation := operation, method := method },
    collectRateLimitAuthContext := fun ctx _ operation method =>
      { request := ctx.request, operation := operation, method := method },
    collectRouteRuleAuthContext := fun ctx _ operation method =>
      { request := ctx.request, operation := operation, method := method },
    collectRouteRuleV2AuthContext := fun ctx _ operation method =>
      { request := ctx.request, operation := operation, method := method },
    CheckConsolePermission := sampleChecker,
    GetRequestContext := fun authCtx => { request := authCtx.request, authContext := none },
    convertToErrCode := fun _ => Code.NotAllowedAccess,
    targetServer := sampleTarget }

/-- A sample wrapped server of package `config` that answers a success and changes
nothing. -/
def sampleConfigTarget : ConfigFileServer sampleMessages SampleAcquire (ServerState MemStore) :=
  { CreateConfigFile := fun t _ _ => (t, NewConfigFileResponseWithMessage Code.ExecuteSuccess ""),
    GetConfigFileBaseInfo := fun t _ _ _ _ =>
      (t, NewConfigFileResponseWithMessage Code.ExecuteSuccess ""),
    GetConfigFileRichInfo := fun t _ _ _ _ =>
      (t, NewConfigFileResponseWithMessage Code.ExecuteSuccess ""),
    QueryConfigFilesByGroup := fun t _ _ _ _ _ => (t, ""),
    SearchConfigFile := fun t _ _ _ _ _ _ _ => (t, ""),
    UpdateConfigFile := fun t _ _ => (t, NewConfigFileResponseWithMessage Code.ExecuteSuccess ""),
    DeleteConfigFile := fun t _ _ _ _ _ =>
      (t, NewConfigFileResponseWithMessage Code.ExecuteSuccess ""),
    BatchDeleteConfigFile := fun t _ _ _ =>
      (t, NewConfigFileResponseWithMessage Code.ExecuteSuccess ""),
    ExportConfigFile := fun t _ _ => (t, ""),
    ImportConfigFile := fun t _ _ _ =>
      (t, NewConfigFileImportResponseWithMessage Code.ExecuteSuccess "") }

/-- A sample decorator of package `config`. -/
def sampleConfigAuth : serverAuthability sampleMessages SampleAcquire (ServerState MemStore) :=
  { collectConfigFileAuthContext := fun ctx _ operation method =>
      { request := ctx.request, operation := operation, method := method },
    CheckConsolePermission := sampleChecker,
    GetRequestContext := fun authCtx => { request := authCtx.request, authContext := none },
    convertToErrCode := fun _ => Code.NotAllowedAccess,
    targetServer := sampleConfigTarget }

/-- The context of a call by the operator `alice`. -/
def aliceCall : CallContext SampleAcquire := { request := sampleCtx, authContext := none }

/-- The context of a call by the operator `guest`. -/
def guestCall : CallContext SampleAcquire :=
  { request := { requestID := "req-2", operator := "guest" }, authContext := none }

/-- The sample server before any call is forwarded. -/
def sampleAuthState : AuthState SampleAcquire (ServerState MemStore) :=
  { target := sampleState, forwarded := [] }

/-- The decorated operation is gated by the policy checker: a call either leaves the state
of the wrapped server and the trace of forwarded calls as they were, or the policy checker
returned no error for the authorization context collected for the call. -/
def GatedBy {α ω ρ τ : Type} (check : α → α × Option AuthError)
    (collect : CallContext α → τ → α)
    (decorated : AuthState α ω → CallContext α → τ → AuthState α ω × ρ) : Prop :=
  ∀ (st : AuthState α ω) (ctx : CallContext α) (request : τ),
    (decorated st ctx request).1 = st ∨ (check (collect ctx request)).2 = none

/-- The decorated operation forwards without a check: the operation `target` of the
wrapped server is called on the request and on the context of the caller. -/
def ForwardsUnchecked {α ω ρ τ : Type} (method : String)
    (decorated : AuthState α ω → CallContext α → τ → AuthState α ω × ρ)
    (target : ω → CallContext α → τ → ω × ρ) : Prop :=
  ∀ (st : AuthState α ω) (ctx : CallContext α) (request : τ),
    decorated st ctx request
      = ({ target := (target st.target ctx request).1,
           forwarded := st.forwarded ++ [(method, ctx)] },
          (target st.target ctx request).2)

/-- A policy checker that denies every call. -/
def denyAll (authCtx : SampleAcquire) : SampleAcquire × Option AuthError :=
  (authCtx, some { message := "no permission" })

/-- The sample decorator of package `service_auth` with the checker that denies every
call. -/
def lockedAuth : ServerAuthAbility sampleMessages SampleAcquire (ServerState MemStore) :=
  { sampleAuth with CheckConsolePermission := denyAll }

/-- The sample decorator of package `config` with the checker that denies every call. -/
def lockedConfigAuth :
    serverAuthability sampleMessages SampleAcquire (ServerState MemStore) :=
  { sampleConfigAuth with CheckConsolePermission := denyAll }

/-- The access modes that the policy checker was asked for, read from the trace of
forwarded calls: the name of each forwarded operation with the access mode recorded in the
authorization context under which it was forwarded. -/
def modesAsked {ω : Type} (st : AuthState SampleAcquire ω) :
    List (String × Option ResourceOperation) :=
  st.forwarded.map (fun call => (call.1, call.2.authContext.map (fun a => a.operation)))

/-- A policy checker that grants the access mode `Read` and nothing else. -/
def readOnlyChecker (authCtx : SampleAcquire) : SampleAcquire × Option AuthError :=
  if authCtx.operation = ResourceOperation.Read then (authCtx, none)
  else (authCtx, some { message := "read only" })

/-- The sample decorator of package `service_auth` with the checker that grants `Read`
only. -/
def readOnlyAuth : ServerAuthAbility sampleMessages SampleAcquire (ServerState MemStore) :=
  { sampleAuth with CheckConsolePermission := readOnlyChecker }

/-! ## Storage faults and the audit history: specification-side notions -/

/-- The error of the sample store whose writes fail. -/
def diskFull : StoreError := { code := 500, msg := "disk full" }

/-- The error of the sample store whose reads fail. -/
def connectionLost : StoreError := { code := 501, msg := "connection lost" }

/-- The store of `oneRuleState`, every write of which fails with `diskFull`. -/
def writeFaultState : ServerState MemStore :=
  { oneRuleState with store := { oneRuleState.store with writeErr := some diskFull } }

/-- The store of `oneRuleState`, every read of which fails with `connectionLost`. -/
def readFaultState : ServerState MemStore :=
  { oneRuleState with store := { oneRuleState.store with readErr := some connectionLost } }

/-- A store together with the number of writes it has taken without error. -/
structure Counted (σ : Type) where
  inner : σ
  writes : Nat

/-- The outcome of a write on a counted store: the count goes up when the write returns no
error. -/
def countWrite {σ : Type} (s : Counted σ) (r : σ × Option StoreError) :
    Counted σ × Option StoreError :=
  match r with
  | (s1, none) => ({ inner := s1, writes := s.writes + 1 }, none)
  | (s1, some err) => ({ inner := s1, writes := s.writes }, some err)

/-- The storage collaborator `S` with a count of the writes (create, update, delete, enable)
that returned no error; every answer is the answer of `S`. -/
def countedStorage {σ : Type} (S : Storage σ) : Storage (Counted σ) :=
  { HasCircuitBreakerRule := fun s id => S.HasCircuitBreakerRule s.inner id,
    HasCircuitBreakerRuleByName := fun s name ns => S.HasCircuitBreakerRuleByName s.inner name ns,
    HasCircuitBreakerRuleByNameExcludeId := fun s name ns id =>
      S.HasCircuitBreakerRuleByNameExcludeId s.inner name ns id,
    CreateCircuitBreakerRule := fun s data =>
      countWrite s (S.CreateCircuitBreakerRule s.inner data),
    UpdateCircuitBreakerRule := fun s data =>
      countWrite s (S.UpdateCircuitBreakerRule s.inner data),
    DeleteCircuitBreakerRule := fun s id => countWrite s (S.DeleteCircuitBreakerRule s.inner id),
    EnableCircuitBreakerRule := fun s data =>
      countWrite s (S.EnableCircuitBreakerRule s.inner data),
    GetCircuitBreakerRules := fun s filter offset limit =>
      S.GetCircuitBreakerRules s.inner filter offset limit }

/-- One item audits its write: either the item leaves the audit history and the count of
writes as they were, or it appends exactly one audit entry, of operation `op`, the store
has taken exactly one more write and the result of the item is a success. -/
def StepAudits {σ : Type} (op : OperationType)
    (step : ServerState (Counted σ) → Option ApiRule → ServerState (Counted σ) × Response) :
    Prop :=
  ∀ (st : ServerState (Counted σ)) (item : Option ApiRule),
    ((step st item).1.history = st.history ∧
      (step st item).1.store.writes = st.store.writes) ∨
    (∃ e, (step st item).1.history = st.history ++ [e] ∧ e.OperationType = op ∧
      (step st item).1.store.writes = st.store.writes + 1 ∧
      (step st item).2.code = Code.ExecuteSuccess)

/-- A batch audits its writes: the audit entries it appends are all of operation `op` and
are as many as the writes the store has taken during the batch. -/
def BatchAudits {σ : Type} (op : OperationType)
    (run : ServerState (Counted σ) → List (Option ApiRule) →
      ServerState (Counted σ) × BatchWriteResponse) : Prop :=
  ∀ (st : ServerState (Counted σ)) (request : List (Option ApiRule)),
    ∃ added, (run st request).1.history = st.history ++ added ∧
      (∀ e ∈ added, e.OperationType = op) ∧
      (run st request).1.store.writes = st.store.writes + added.length

/-! ## Per-item validation: specification-side notions -/

/-- The requirements that `checkCircuitBreakerRuleParams` puts on an item: the source
service name and namespace, the name, the namespace and the description are within their
maximum lengths, the name is given when a name is required and the id is given when an id
is required.  The destination service name and namespace are not among them. -/
def MeetsRequirements (env : Env) (r : ApiRule) (idRequired nameRequired : Bool) : Prop :=
  r.srcService.length ≤ env.MaxDbServiceNameLength ∧
  r.srcNamespace.length ≤ env.MaxDbServiceNamespaceLength ∧
  r.Name.length ≤ env.MaxRuleName ∧
  r.Namespace.length ≤ env.MaxDbServiceNamespaceLength ∧
  r.Description.length ≤ env.MaxCommentLength ∧
  (nameRequired = true → r.Name ≠ "") ∧
  (idRequired = true → r.Id ≠ "")

instance (env : Env) (r : ApiRule) (idRequired nameRequired : Bool) :
    Decidable (MeetsRequirements env r idRequired nameRequired) :=
  inferInstanceAs (Decidable (_ ∧ _))

/-- The sample configuration with service names and namespaces of at most eight
characters. -/
def shortNamesEnv : Env :=
  { sampleEnv with MaxDbServiceNameLength := 8, MaxDbServiceNamespaceLength := 8 }

/-- A rule named `r1` whose destination service name and namespace have more than eight
characters. -/
def longDestinationItem : ApiRule :=
  { sampleItem with
    RuleMatcher := some
      { Source := none,
        Destination := some
          { Service := "order-service", Namespace := "production", Method := none } } }

/-- A rule named `r1` whose source service name has more than eight characters. -/
def longSourceItem : ApiRule :=
  { sampleItem with
    RuleMatcher := some
      { Source := some { Service := "order-service", Namespace := "default" },
        Destination := none } }

/-! ## Conversion: sample values -/

/-- A rule `r1` without namespace, with a description, a level, the enable flag and one
error condition. -/
def describedItem : ApiRule :=
  { ApiRule.empty with
    Name := "r1", Description := "first rule", Level := 2, Enable := true,
    ErrorConditions := ["e1"] }

/-- A stored rule that was enabled in the year 2024. -/
def enabledRecord : CircuitBreakerRule :=
  { CircuitBreakerRule.empty with
    ID := "uu", Name := "r1", Namespace := "default", Enable := true,
    EnableTime := { year := 2024, month := 5, day := 17, hour := 8, minute := 30, second := 0 } }

/-! ## `console_access.go`: the type-URL rewrite -/

/-- Go: the constant `deprecatedRoutingV2TypeUrl`. -/
def deprecatedRoutingV2TypeUrl : String := "type.googleapis.com/v2."

/-- Go: the constant `newRoutingV2TypeUrl`. -/
def newRoutingV2TypeUrl : String := "type.googleapis.com/v1."

/-- The scan of `strings.ReplaceAll` for a non-empty `old`: left to right, every occurrence
of `old` that starts outside the occurrence before it is replaced by `new`; `skip` is the
number of characters of the occurrence just replaced that are still to be passed over. -/
def replaceFrom (old new : List Char) : Nat → List Char → List Char
  | _, [] => []
  | skip + 1, _ :: cs => replaceFrom old new skip cs
  | 0, c :: cs =>
    if old.isPrefixOf (c :: cs) then new ++ replaceFrom old new (old.length - 1) cs
    else c :: replaceFrom old new 0 cs

/-- Go: `strings.ReplaceAll(s, old, new)` of the standard library: the non-overlapping
occurrences of `old` in `s`, found from left to right, are replaced by `new`; an empty
`old` matches before every character and at the end. -/
def ReplaceAll (s old new : String) : String :=
  if old.data = [] then
    String.mk (new.data ++ s.data.flatMap (fun c => c :: new.data))
  else String.mk (replaceFrom old.data new.data 0 s.data)

/-- Go: `HTTPServerV2.replaceV2TypeUrl`; `body` is the result of
`io.ReadAll(req.Request.Body)`, taken as text. -/
def replaceV2TypeUrl (body : Except String String) : Except String String :=
  match body with
  | .error err => .error err
  | .ok requestBytes =>
    .ok (ReplaceAll requestBytes deprecatedRoutingV2TypeUrl newRoutingV2TypeUrl)

/-- The text `pattern` occurs in `text`. -/
def Occurs (pattern text : String) : Prop := pattern.data <:+: text.data

instance (pattern text : String) : Decidable (Occurs pattern text) :=
  inferInstanceAs (Decidable (_ <:+: _))

/-- The sample server on the empty store with its writes counted. -/
def countedState : ServerState (Counted MemStore) :=
  { store := { inner := emptyStore, writes := 0 }, history := [], uuidCount := 0, calls := [] }

/-- A store that holds a rule whose stored payload does not decode, followed by the rule
`r1` of `oneRuleState`. -/
def brokenAndGoodState : ServerState MemStore :=
  { brokenRuleState with
    store := { brokenRuleState.store with
      rules := brokenRuleState.store.rules ++ oneRuleState.store.rules } }

/-! ## Lemmas on the shared loop -/

theorem collectEach_state {σ : Type}
    (step : ServerState σ → Option ApiRule → ServerState σ × Response)
    (request : List (Option ApiRule)) (st : ServerState σ) (b : BatchWriteResponse) :
    (collectEach step st b request).1 = stateAfter step st request := by
  induction request generalizing st b with
  | nil => rfl
  | cons x xs ih => simp [collectEach, stateAfter, ih]

theorem collectEach_responses {σ : Type}
    (step : ServerState σ → Option ApiRule → ServerState σ × Response)
    (request : List (Option ApiRule)) (st : ServerState σ) (b : BatchWriteResponse) :
    (collectEach step st b request).2.responses = b.responses ++ outcomes step st request := by
  induction request generalizing st b with
  | nil => simp [collectEach, outcomes]
  | cons x xs ih => simp [collectEach, outcomes, ih, Collect]

theorem collectEach_size {σ : Type}
    (step : ServerState σ → Option ApiRule → ServerState σ × Response)
    (request : List (Option ApiRule)) (st : ServerState σ) (b : BatchWriteResponse) :
    (collectEach step st b request).2.size = b.size + request.length := by
  induction request generalizing st b with
  | nil => simp [collectEach]
  | cons x xs ih => simp [collectEach, ih, Collect]; omega

theorem collectEach_code {σ : Type}
    (step : ServerState σ → Option ApiRule → ServerState σ × Response)
    (request : List (Option ApiRule)) (st : ServerState σ) (b : BatchWriteResponse) :
    (collectEach step st b request).2.code = b.code := by
  induction request generalizing st b with
  | nil => simp [collectEach]
  | cons x xs ih => simp [collectEach, ih, Collect]

theorem outcomes_length {σ : Type}
    (step : ServerState σ → Option ApiRule → ServerState σ × Response)
    (request : List (Option ApiRule)) (st : ServerState σ) :
    (outcomes step st request).length = request.length := by
  induction request generalizing st with
  | nil => rfl
  | cons x xs ih => simp [outcomes, ih]

theorem outcomes_get? {σ : Type}
    (step : ServerState σ → Option ApiRule → ServerState σ × Response)
    (request : List (Option ApiRule)) (st : ServerState σ) (i : Nat) (h : i < request.length) :
    (outcomes step st request).get? i =
      some (step (stateAfter step st (request.take i)) (request.get ⟨i, h⟩)).2 := by
  induction request generalizing st i with
  | nil => simp at h
  | cons x xs ih =>
    cases i with
    | zero => simp [outcomes, stateAfter]
    | succ j =>
      have hj : j < xs.length := by simpa using h
      have := ih (step st x).1 j hj
      simpa [outcomes, stateAfter] using this

theorem FormatBatchWriteResponse_responses (env : Env) (b : BatchWriteResponse) :
    (FormatBatchWriteResponse env b).responses = b.responses := by
  unfold FormatBatchWriteResponse
  split <;> rfl

theorem FormatBatchWriteResponse_size (env : Env) (b : BatchWriteResponse) :
    (FormatBatchWriteResponse env b).size = b.size := by
  unfold FormatBatchWriteResponse
  split <;> rfl

theorem FormatBatchWriteResponse_aggregates (env : Env) (b : BatchWriteResponse)
    (hb : b.code = Code.ExecuteSuccess) :
    OverallCodeAggregates (FormatBatchWriteResponse env b) := by
  unfold FormatBatchWriteResponse OverallCodeAggregates
  split
  · next r hr =>
    have hmem := List.mem_of_find?_eq_some hr
    have hcode : r.code ≠ Code.ExecuteSuccess := by
      have := List.find?_some hr
      simpa using this
    refine ⟨⟨fun h => absurd h hcode, fun h => absurd (h r hmem) hcode⟩, fun _ => ?_⟩
    exact ⟨r, hmem, hcode, rfl⟩
  · next hnone =>
    have hall : ∀ r ∈ b.responses, r.code = Code.ExecuteSuccess := by
      intro r hr
      have := List.find?_eq_none.mp hnone r hr
      simpa using this
    exact ⟨⟨fun _ => hall, fun _ => hb⟩, fun h => absurd hb h⟩

theorem checkBatch_none_iff (env : Env) (request : List (Option ApiRule)) :
    checkBatchCircuitBreakerRules env request = none ↔ Admissible env request := by
  unfold checkBatchCircuitBreakerRules Admissible
  by_cases h0 : request.length = 0
  · simp [h0]
  · by_cases h1 : request.length > env.MaxBatchSize
    · simp [h0, h1]
    · simp [h0, h1]; omega

theorem runBatch_rejected {σ : Type} (env : Env)
    (step : ServerState σ → Option ApiRule → ServerState σ × Response)
    (st : ServerState σ) (request : List (Option ApiRule))
    (h : request.length = 0 ∨ env.MaxBatchSize < request.length) :
    runBatch env step st request =
      (st, NewBatchWriteResponse env
        (if request.length = 0 then Code.EmptyRequest else Code.BatchSizeOverLimit)) := by
  unfold runBatch checkBatchCircuitBreakerRules
  by_cases h0 : request.length = 0
  · simp [h0]
  · have h1 : request.length > env.MaxBatchSize := by
      rcases h with h | h
      · exact absurd h h0
      · exact h
    simp [h0, h1]

theorem runBatch_admissible {σ : Type} (env : Env)
    (step : ServerState σ → Option ApiRule → ServerState σ × Response)
    (st : ServerState σ) (request : List (Option ApiRule)) (h : Admissible env request) :
    runBatch env step st request =
      ((collectEach step st (NewBatchWriteResponse env Code.ExecuteSuccess) request).1,
        FormatBatchWriteResponse env
          (collectEach step st (NewBatchWriteResponse env Code.ExecuteSuccess) request).2) := by
  unfold runBatch
  rw [(checkBatch_none_iff env request).mpr h]

theorem runBatch_aggregates {σ : Type} (env : Env)
    (step : ServerState σ → Option ApiRule → ServerState σ × Response)
    (st : ServerState σ) (request : List (Option ApiRule)) (h : Admissible env request) :
    OverallCodeAggregates (runBatch env step st request).2 := by
  rw [runBatch_admissible env step st request h]
  apply FormatBatchWriteResponse_aggregates
  rw [collectEach_code]
  rfl

theorem runBatch_perItem {σ : Type} (env : Env)
    (step : ServerState σ → Option ApiRule → ServerState σ × Response)
    (st : ServerState σ) (request : List (Option ApiRule)) (h : Admissible env request) :
    PerItemInOrder step st request (runBatch env step st request) := by
  rw [runBatch_admissible env step st request h]
  refine ⟨?_, ?_, ?_, ?_⟩
  · simp [FormatBatchWriteResponse_responses, collectEach_responses, NewBatchWriteResponse,
      outcomes_length]
  · simp [FormatBatchWriteResponse_size, collectEach_size, NewBatchWriteResponse]
  · intro i hi
    simp only [FormatBatchWriteResponse_responses, collectEach_responses, NewBatchWriteResponse,
      List.nil_append]
    exact outcomes_get? step request st i hi
  · exact collectEach_state step request st _

/-! ## Batch admission (C1, C2) -/

/-- C1: each of the four batch operations answers an empty request list with code
`EmptyRequest` and a list longer than `MaxBatchSize` with code `BatchSizeOverLimit`, and
`checkBatchCircuitBreakerRules` returns nil exactly when `1 <= len(request) <= MaxBatchSize`. -/
theorem batch_size_gate {σ : Type} (env : Env) (S : Storage σ) (ctx : Context)
    (st : ServerState σ) (request : List (Option ApiRule)) :
    (request.length = 0 →
      (CreateCircuitBreakerRules env S ctx st request).2.code = Code.EmptyRequest ∧
      (UpdateCircuitBreakerRules env S ctx st request).2.code = Code.EmptyRequest ∧
      (DeleteCircuitBreakerRules env S ctx st request).2.code = Code.EmptyRequest ∧
      (EnableCircuitBreakerRules env S ctx st request).2.code = Code.EmptyRequest) ∧
    (env.MaxBatchSize < request.length →
      (CreateCircuitBreakerRules env S ctx st request).2.code = Code.BatchSizeOverLimit ∧
      (UpdateCircuitBreakerRules env S ctx st request).2.code = Code.BatchSizeOverLimit ∧
      (DeleteCircuitBreakerRules env S ctx st request).2.code = Code.BatchSizeOverLimit ∧
      (EnableCircuitBreakerRules env S ctx st request).2.code = Code.BatchSizeOverLimit) ∧
    (checkBatchCircuitBreakerRules env request = none ↔
      1 ≤ request.length ∧ request.length ≤ env.MaxBatchSize) := by
  refine ⟨fun h0 => ?_, fun h1 => ?_, checkBatch_none_iff env request⟩
  · simp [CreateCircuitBreakerRules, UpdateCircuitBreakerRules, DeleteCircuitBreakerRules,
      EnableCircuitBreakerRules, runBatch_rejected env _ st request (Or.inl h0), h0,
      NewBatchWriteResponse]
  · have hne : request.length ≠ 0 := by omega
    simp [CreateCircuitBreakerRules, UpdateCircuitBreakerRules, DeleteCircuitBreakerRules,
      EnableCircuitBreakerRules, runBatch_rejected env _ st request (Or.inr h1), hne,
      NewBatchWriteResponse]

/-- Witness of C1: the empty list and a list of three items under a limit of two. -/
theorem batch_size_gate_witness :
    ([] : List (Option ApiRule)).length = 0 ∧
    (CreateCircuitBreakerRules smallBatchEnv memStorage sampleCtx sampleState []).2.code
      = Code.EmptyRequest ∧
    smallBatchEnv.MaxBatchSize < [some sampleItem, none, some sampleItem].length ∧
    (DeleteCircuitBreakerRules smallBatchEnv memStorage sampleCtx sampleState
      [some sampleItem, none, some sampleItem]).2.code = Code.BatchSizeOverLimit :=
  ⟨rfl,
    ((batch_size_gate smallBatchEnv memStorage sampleCtx sampleState []).1 rfl).1,
    by decide,
    ((batch_size_gate smallBatchEnv memStorage sampleCtx sampleState
      [some sampleItem, none, some sampleItem]).2.1 (by decide)).2.2.1⟩

/-- C2: on a request list that is empty or longer than `MaxBatchSize`, each of the four
batch operations returns the server state it was given (store, audit history, id
generator and storage calls all untouched) and a response without per-item results. -/
theorem rejected_batch_has_no_effect {σ : Type} (env : Env) (S : Storage σ) (ctx : Context)
    (st : ServerState σ) (request : List (Option ApiRule))
    (h : request.length = 0 ∨ env.MaxBatchSize < request.length) :
    ((CreateCircuitBreakerRules env S ctx st request).1 = st ∧
      (CreateCircuitBreakerRules env S ctx st request).2.responses = [] ∧
      (CreateCircuitBreakerRules env S ctx st request).2.size = 0) ∧
    ((UpdateCircuitBreakerRules env S ctx st request).1 = st ∧
      (UpdateCircuitBreakerRules env S ctx st request).2.responses = [] ∧
      (UpdateCircuitBreakerRules env S ctx st request).2.size = 0) ∧
    ((DeleteCircuitBreakerRules env S ctx st request).1 = st ∧
      (DeleteCircuitBreakerRules env S ctx st request).2.responses = [] ∧
      (DeleteCircuitBreakerRules env S ctx st request).2.size = 0) ∧
    ((EnableCircuitBreakerRules env S ctx st request).1 = st ∧
      (EnableCircuitBreakerRules env S ctx st request).2.responses = [] ∧
      (EnableCircuitBreakerRules env S ctx st request).2.size = 0) := by
  simp [CreateCircuitBreakerRules, UpdateCircuitBreakerRules, DeleteCircuitBreakerRules,
    EnableCircuitBreakerRules, runBatch_rejected env _ st request h, NewBatchWriteResponse]

/-- Witness of C2: three items under a limit of two. -/
theorem rejected_batch_has_no_effect_witness :
    smallBatchEnv.MaxBatchSize < [some sampleItem, none, some sampleItem].length ∧
    (CreateCircuitBreakerRules smallBatchEnv memStorage sampleCtx sampleState
      [some sampleItem, none, some sampleItem]).1.store = emptyStore :=
  ⟨by decide,
    congrArg ServerState.store
      (rejected_batch_has_no_effect smallBatchEnv memStorage sampleCtx sampleState
        [some sampleItem, none, some sampleItem] (Or.inr (by decide))).1.1⟩

/-! ## Aggregation and order (C3, C4) -/

/-- C3: for a batch of admissible size, the overall code returned by each of the four
batch operations is success if and only if every per-item result has the success code,
and otherwise it is the code of one of the failing per-item results. -/
theorem overall_code_aggregates {σ : Type} (env : Env) (S : Storage σ) (ctx : Context)
    (st : ServerState σ) (request : List (Option ApiRule)) (h : Admissible env request) :
    OverallCodeAggregates (CreateCircuitBreakerRules env S ctx st request).2 ∧
    OverallCodeAggregates (UpdateCircuitBreakerRules env S ctx st request).2 ∧
    OverallCodeAggregates (DeleteCircuitBreakerRules env S ctx st request).2 ∧
    OverallCodeAggregates (EnableCircuitBreakerRules env S ctx st request).2 :=
  ⟨runBatch_aggregates env _ st request h, runBatch_aggregates env _ st request h,
    runBatch_aggregates env _ st request h, runBatch_aggregates env _ st request h⟩

/-- Witness of C3: a batch of one valid item and one nil item. -/
theorem overall_code_aggregates_witness :
    Admissible sampleEnv [some sampleItem, none] ∧
    OverallCodeAggregates
      (CreateCircuitBreakerRules sampleEnv memStorage sampleCtx sampleState
        [some sampleItem, none]).2 :=
  ⟨by decide,
    (overall_code_aggregates sampleEnv memStorage sampleCtx sampleState
      [some sampleItem, none] (by decide)).1⟩

/-- C4: for a batch of admissible size, the response of each of the four batch operations
carries exactly one result per input item, the i-th result being the outcome of the i-th
item run on the state left by the items before it, whatever the outcomes of those items;
the state returned is the one left by the last item. -/
theorem per_item_results_in_order {σ : Type} (env : Env) (S : Storage σ) (ctx : Context)
    (st : ServerState σ) (request : List (Option ApiRule)) (h : Admissible env request) :
    PerItemInOrder (createCircuitBreakerRule env S ctx) st request
      (CreateCircuitBreakerRules env S ctx st request) ∧
    PerItemInOrder (updateCircuitBreakerRule env S ctx) st request
      (UpdateCircuitBreakerRules env S ctx st request) ∧
    PerItemInOrder (deleteCircuitBreakerRule env S ctx) st request
      (DeleteCircuitBreakerRules env S ctx st request) ∧
    PerItemInOrder (enableCircuitBreakerRule env S ctx) st request
      (EnableCircuitBreakerRules env S ctx st request) :=
  ⟨runBatch_perItem env _ st request h, runBatch_perItem env _ st request h,
    runBatch_perItem env _ st request h, runBatch_perItem env _ st request h⟩

/-- Witness of C4: a nil item between two valid items. -/
theorem per_item_results_in_order_witness :
    Admissible sampleEnv [some sampleItem, none, some sampleItem] ∧
    PerItemInOrder (createCircuitBreakerRule sampleEnv memStorage sampleCtx) sampleState
      [some sampleItem, none, some sampleItem]
      (CreateCircuitBreakerRules sampleEnv memStorage sampleCtx sampleState
        [some sampleItem, none, some sampleItem]) :=
  ⟨by decide,
    (per_item_results_in_order sampleEnv memStorage sampleCtx sampleState
      [some sampleItem, none, some sampleItem] (by decide)).1⟩

/-! ## Per-item create (C5) -/

theorem api2CircuitBreakerRule_ok {σ : Type} (env : Env) (st : ServerState σ) (req : ApiRule)
    (payload : String) (h : marshalCircuitBreakerRuleV2 env req = .ok payload) :
    api2CircuitBreakerRule env st req =
      (.ok (convertedRule env req payload (env.uuid st.uuidCount)),
        { st with uuidCount := st.uuidCount + 1 }) := by
  unfold api2CircuitBreakerRule
  rw [h]
  simp only [NewUUID, convertedRule, effectiveNamespace]
  by_cases hns : req.Namespace = "" <;> simp [hns]

theorem api2CircuitBreakerRule_error {σ : Type} (env : Env) (st : ServerState σ) (req : ApiRule)
    (e : String) (h : marshalCircuitBreakerRuleV2 env req = .error e) :
    api2CircuitBreakerRule env st req = (.error e, st) := by
  unfold api2CircuitBreakerRule
  rw [h]

theorem createCircuitBreakerRule_conflict {σ : Type} (env : Env) (S : Storage σ) (ctx : Context)
    (st : ServerState σ) (req : ApiRule) (payload : String)
    (hvalid : checkCircuitBreakerRuleParams env (some req) false true = none)
    (hpayload : marshalCircuitBreakerRuleV2 env req = .ok payload)
    (hexists : S.HasCircuitBreakerRuleByName st.store req.Name (effectiveNamespace env req)
      = .ok true) :
    createCircuitBreakerRule env S ctx st (some req) =
      ({ st with uuidCount := st.uuidCount + 1,
                 calls := st.calls ++
                   [StorageCall.HasByName req.Name (effectiveNamespace env req)] },
        NewResponse env Code.ServiceExistedCircuitBreakers) := by
  unfold createCircuitBreakerRule
  rw [hvalid]
  simp only [api2CircuitBreakerRule_ok env st req payload hpayload]
  simp [ServerState.noteCall, convertedRule, hexists]

theorem createCircuitBreakerRule_created {σ : Type} (env : Env) (S : Storage σ) (ctx : Context)
    (st : ServerState σ) (req : ApiRule) (payload : String) (store1 : σ)
    (hvalid : checkCircuitBreakerRuleParams env (some req) false true = none)
    (hpayload : marshalCircuitBreakerRuleV2 env req = .ok payload)
    (hfree : S.HasCircuitBreakerRuleByName st.store req.Name (effectiveNamespace env req)
      = .ok false)
    (hcreate : S.CreateCircuitBreakerRule st.store
      { convertedRule env req payload (env.uuid st.uuidCount) with
        ID := env.uuid (st.uuidCount + 1) } = (store1, none)) :
    createCircuitBreakerRule env S ctx st (some req) =
      ({ store := store1,
         history := st.history ++
           [circuitBreakerRuleRecordEntry ctx req
             { convertedRule env req payload (env.uuid st.uuidCount) with
               ID := env.uuid (st.uuidCount + 1) } OperationType.OCreate],
         uuidCount := st.uuidCount + 2,
         calls := st.calls ++
           [StorageCall.HasByName req.Name (effectiveNamespace env req),
            StorageCall.Create
              { convertedRule env req payload (env.uuid st.uuidCount) with
                ID := env.uuid (st.uuidCount + 1) }] },
        NewAnyDataResponse env Code.ExecuteSuccess
          { req with Id := env.uuid (st.uuidCount + 1) }) := by
  unfold createCircuitBreakerRule
  rw [hvalid]
  simp only [api2CircuitBreakerRule_ok env st req payload hpayload]
  simp [ServerState.noteCall, convertedRule, hfree, NewUUID] at hcreate ⊢
  rw [hcreate]
  simp [RecordHistory]

/-- C5: a valid create item whose name and namespace (the default namespace standing for an
empty one) the store reports as existing gets the conflict code without payload, the only
storage call made is the existence check, and store and audit history stay as they were.
In particular, when the name is free, the create call succeeds and the store then reports
the name, the same item created a second time gets the conflict code and the second call
leaves store and history as the first call left them. -/
theorem create_existing_name_conflicts {σ : Type} (env : Env) (S : Storage σ) (ctx : Context)
    (st : ServerState σ) (req : ApiRule) (payload : String)
    (hvalid : checkCircuitBreakerRuleParams env (some req) false true = none)
    (hpayload : marshalCircuitBreakerRuleV2 env req = .ok payload) :
    (S.HasCircuitBreakerRuleByName st.store req.Name (effectiveNamespace env req) = .ok true →
      (createCircuitBreakerRule env S ctx st (some req)).2.code
        = Code.ServiceExistedCircuitBreakers ∧
      (createCircuitBreakerRule env S ctx st (some req)).2.data = none ∧
      (createCircuitBreakerRule env S ctx st (some req)).1.store = st.store ∧
      (createCircuitBreakerRule env S ctx st (some req)).1.history = st.history ∧
      (createCircuitBreakerRule env S ctx st (some req)).1.calls =
        st.calls ++ [StorageCall.HasByName req.Name (effectiveNamespace env req)]) ∧
    (S.HasCircuitBreakerRuleByName st.store req.Name (effectiveNamespace env req) = .ok false →
      (∀ d, (S.CreateCircuitBreakerRule st.store d).2 = none) →
      (∀ d, d.Name = req.Name → d.Namespace = effectiveNamespace env req →
        S.HasCircuitBreakerRuleByName (S.CreateCircuitBreakerRule st.store d).1
          req.Name (effectiveNamespace env req) = .ok true) →
      (createCircuitBreakerRule env S ctx st (some req)).2.code = Code.ExecuteSuccess ∧
      (createCircuitBreakerRule env S ctx st (some req)).2.data
        = some { req with Id := env.uuid (st.uuidCount + 1) } ∧
      (createCircuitBreakerRule env S ctx
        (createCircuitBreakerRule env S ctx st (some req)).1 (some req)).2.code
        = Code.ServiceExistedCircuitBreakers ∧
      (createCircuitBreakerRule env S ctx
        (createCircuitBreakerRule env S ctx st (some req)).1 (some req)).2.data = none ∧
      (createCircuitBreakerRule env S ctx
        (createCircuitBreakerRule env S ctx st (some req)).1 (some req)).1.store
        = (createCircuitBreakerRule env S ctx st (some req)).1.store ∧
      (createCircuitBreakerRule env S ctx
        (createCircuitBreakerRule env S ctx st (some req)).1 (some req)).1.history
        = (createCircuitBreakerRule env S ctx st (some req)).1.history) := by
  constructor
  · intro hexists
    rw [createCircuitBreakerRule_conflict env S ctx st req payload hvalid hpayload hexists]
    simp [NewResponse]
  · intro hfree hcreate hthen
    have hc : S.CreateCircuitBreakerRule st.store
        { convertedRule env req payload (env.uuid st.uuidCount) with
          ID := env.uuid (st.uuidCount + 1) } =
        ((S.CreateCircuitBreakerRule st.store
          { convertedRule env req payload (env.uuid st.uuidCount) with
            ID := env.uuid (st.uuidCount + 1) }).1, none) := by
      rw [← hcreate { convertedRule env req payload (env.uuid st.uuidCount) with
        ID := env.uuid (st.uuidCount + 1) }]
    have h2 := hthen { convertedRule env req payload (env.uuid st.uuidCount) with
        ID := env.uuid (st.uuidCount + 1) } rfl rfl
    rw [createCircuitBreakerRule_created env S ctx st req payload _ hvalid hpayload hfree hc]
    rw [createCircuitBreakerRule_conflict env S ctx _ req payload hvalid hpayload h2]
    simp [NewResponse, NewAnyDataResponse]

/-- Witness of C5: `sampleItem` created on the empty store and then created again. -/
theorem create_existing_name_conflicts_witness :
    (createCircuitBreakerRule sampleEnv memStorage sampleCtx oneRuleState
        (some sampleItem)).2.code = Code.ServiceExistedCircuitBreakers ∧
    (createCircuitBreakerRule sampleEnv memStorage sampleCtx sampleState
        (some sampleItem)).2.code = Code.ExecuteSuccess ∧
    (createCircuitBreakerRule sampleEnv memStorage sampleCtx
        (createCircuitBreakerRule sampleEnv memStorage sampleCtx sampleState
          (some sampleItem)).1 (some sampleItem)).2.code
      = Code.ServiceExistedCircuitBreakers :=
  ⟨((create_existing_name_conflicts sampleEnv memStorage sampleCtx oneRuleState sampleItem ""
      (by decide) rfl).1 rfl).1,
    ((create_existing_name_conflicts sampleEnv memStorage sampleCtx sampleState sampleItem ""
      (by decide) rfl).2 rfl (fun _ => rfl)
      (fun d h1 h2 => by
        simp [memStorage, MemStore.CreateCircuitBreakerRule,
          MemStore.HasCircuitBreakerRuleByName, sampleState, emptyStore, h1, h2])).1,
    ((create_existing_name_conflicts sampleEnv memStorage sampleCtx sampleState sampleItem ""
      (by decide) rfl).2 rfl (fun _ => rfl)
      (fun d h1 h2 => by
        simp [memStorage, MemStore.CreateCircuitBreakerRule,
          MemStore.HasCircuitBreakerRuleByName, sampleState, emptyStore, h1, h2])).2.2.1⟩

theorem createCircuitBreakerRule_invalid {σ : Type} (env : Env) (S : Storage σ) (ctx : Context)
    (st : ServerState σ) (request : Option ApiRule) (resp : Response)
    (h : checkCircuitBreakerRuleParams env request false true = some resp) :
    createCircuitBreakerRule env S ctx st request = (st, resp) := by
  unfold createCircuitBreakerRule
  rw [h]

theorem createCircuitBreakerRule_unencodable {σ : Type} (env : Env) (S : Storage σ)
    (ctx : Context) (st : ServerState σ) (req : ApiRule) (e : String)
    (hvalid : checkCircuitBreakerRuleParams env (some req) false true = none)
    (hpayload : marshalCircuitBreakerRuleV2 env req = .error e) :
    createCircuitBreakerRule env S ctx st (some req) =
      (st, NewResponse env Code.ParseCircuitBreakerException) := by
  unfold createCircuitBreakerRule
  rw [hvalid]
  simp only [api2CircuitBreakerRule_error env st req e hpayload]

theorem createCircuitBreakerRule_checkFailed {σ : Type} (env : Env) (S : Storage σ)
    (ctx : Context) (st : ServerState σ) (req : ApiRule) (payload : String) (err : StoreError)
    (hvalid : checkCircuitBreakerRuleParams env (some req) false true = none)
    (hpayload : marshalCircuitBreakerRuleV2 env req = .ok payload)
    (hfail : S.HasCircuitBreakerRuleByName st.store req.Name (effectiveNamespace env req)
      = .error err) :
    createCircuitBreakerRule env S ctx st (some req) =
      ({ st with uuidCount := st.uuidCount + 1,
                 calls := st.calls ++
                   [StorageCall.HasByName req.Name (effectiveNamespace env req)] },
        NewResponseWithMsg env (env.StoreCode2APICode err) err.msg) := by
  unfold createCircuitBreakerRule
  rw [hvalid]
  simp only [api2CircuitBreakerRule_ok env st req payload hpayload]
  simp [ServerState.noteCall, convertedRule, hfail]

theorem createCircuitBreakerRule_storeFailed {σ : Type} (env : Env) (S : Storage σ)
    (ctx : Context) (st : ServerState σ) (req : ApiRule) (payload : String) (store1 : σ)
    (err : StoreError)
    (hvalid : checkCircuitBreakerRuleParams env (some req) false true = none)
    (hpayload : marshalCircuitBreakerRuleV2 env req = .ok payload)
    (hfree : S.HasCircuitBreakerRuleByName st.store req.Name (effectiveNamespace env req)
      = .ok false)
    (hcreate : S.CreateCircuitBreakerRule st.store
      { convertedRule env req payload (env.uuid st.uuidCount) with
        ID := env.uuid (st.uuidCount + 1) } = (store1, some err)) :
    createCircuitBreakerRule env S ctx st (some req) =
      ({ store := store1,
         history := st.history,
         uuidCount := st.uuidCount + 2,
         calls := st.calls ++
           [StorageCall.HasByName req.Name (effectiveNamespace env req),
            StorageCall.Create
              { convertedRule env req payload (env.uuid st.uuidCount) with
                ID := env.uuid (st.uuidCount + 1) }] },
        NewResponseWithMsg env (env.StoreCode2APICode err) err.msg) := by
  unfold createCircuitBreakerRule
  rw [hvalid]
  simp only [api2CircuitBreakerRule_ok env st req payload hpayload]
  simp [ServerState.noteCall, convertedRule, hfree, NewUUID] at hcreate ⊢
  rw [hcreate]

theorem checkCircuitBreakerRuleParams_nil (env : Env) (idRequired nameRequired : Bool) :
    checkCircuitBreakerRuleParams env none idRequired nameRequired
      = some (NewResponse env Code.EmptyRequest) := rfl

theorem create_step_cases (env : Env) (ctx : Context) (st : ServerState MemStore)
    (item : Option ApiRule) :
    ((createCircuitBreakerRule env memStorage ctx st item).1.store.rules = st.store.rules ∧
      st.uuidCount ≤ (createCircuitBreakerRule env memStorage ctx st item).1.uuidCount) ∨
    (∃ r, (createCircuitBreakerRule env memStorage ctx st item).1.store.rules
          = st.store.rules ++ [r] ∧
        r.ID = env.uuid (st.uuidCount + 1) ∧
        (createCircuitBreakerRule env memStorage ctx st item).1.uuidCount = st.uuidCount + 2 ∧
        ∀ x ∈ st.store.rules, ruleKey x ≠ ruleKey r) := by
  cases hv : checkCircuitBreakerRuleParams env item false true with
  | some resp =>
    rw [createCircuitBreakerRule_invalid env _ ctx st item resp hv]
    exact Or.inl ⟨rfl, le_refl _⟩
  | none =>
    cases item with
    | none => simp [checkCircuitBreakerRuleParams_nil] at hv
    | some req =>
      cases hm : marshalCircuitBreakerRuleV2 env req with
      | error e =>
        rw [createCircuitBreakerRule_unencodable env _ ctx st req e hv hm]
        exact Or.inl ⟨rfl, le_refl _⟩
      | ok payload =>
        cases hh : memStorage.HasCircuitBreakerRuleByName st.store req.Name
            (effectiveNamespace env req) with
        | error err =>
          rw [createCircuitBreakerRule_checkFailed env _ ctx st req payload err hv hm hh]
          exact Or.inl ⟨rfl, Nat.le_succ _⟩
        | ok b =>
          cases b with
          | true =>
            rw [createCircuitBreakerRule_conflict env _ ctx st req payload hv hm hh]
            exact Or.inl ⟨rfl, Nat.le_succ _⟩
          | false =>
            cases hc : memStorage.CreateCircuitBreakerRule st.store
                { convertedRule env req payload (env.uuid st.uuidCount) with
                  ID := env.uuid (st.uuidCount + 1) } with
            | mk store1 oerr =>
              cases oerr with
              | some err =>
                rw [createCircuitBreakerRule_storeFailed env _ ctx st req payload store1 err
                  hv hm hh hc]
                simp only [memStorage, MemStore.CreateCircuitBreakerRule] at hc
                cases hw : st.store.writeErr with
                | none => simp [hw] at hc
                | some e =>
                  simp [hw] at hc
                  left
                  simp [← hc.1]
              | none =>
                rw [createCircuitBreakerRule_created env _ ctx st req payload store1 hv hm hh hc]
                simp only [memStorage, MemStore.CreateCircuitBreakerRule] at hc
                cases hw : st.store.writeErr with
                | some e => simp [hw] at hc
                | none =>
                  simp [hw] at hc
                  right
                  refine ⟨_, by rw [← hc], rfl, rfl, ?_⟩
                  intro x hx
                  simp only [memStorage, MemStore.HasCircuitBreakerRuleByName] at hh
                  cases hr : st.store.readErr with
                  | some e => simp [hr] at hh
                  | none =>
                    simp [hr] at hh
                    have := hh x hx
                    simp only [ruleKey, convertedRule, ne_eq, Prod.mk.injEq, not_and]
                    exact this

theorem checkCircuitBreakerRuleExists_found {σ : Type} (env : Env) (S : Storage σ)
    (st : ServerState σ) (id : String) (c : StorageCall)
    (h : S.HasCircuitBreakerRule st.store id = .ok true) :
    checkCircuitBreakerRuleExists env S (st.noteCall c) id = none := by
  simp [checkCircuitBreakerRuleExists, ServerState.noteCall, h]

theorem checkCircuitBreakerRuleExists_missing {σ : Type} (env : Env) (S : Storage σ)
    (st : ServerState σ) (id : String) (c : StorageCall)
    (h : S.HasCircuitBreakerRule st.store id = .ok false) :
    checkCircuitBreakerRuleExists env S (st.noteCall c) id
      = some (NewResponse env Code.NotFoundCircuitBreaker) := by
  simp [checkCircuitBreakerRuleExists, ServerState.noteCall, h]

theorem checkCircuitBreakerRuleExists_failed {σ : Type} (env : Env) (S : Storage σ)
    (st : ServerState σ) (id : String) (c : StorageCall) (err : StoreError)
    (h : S.HasCircuitBreakerRule st.store id = .error err) :
    checkCircuitBreakerRuleExists env S (st.noteCall c) id
      = some (NewResponse env (env.StoreCode2APICode err)) := by
  simp [checkCircuitBreakerRuleExists, ServerState.noteCall, h]

/-! ### Equations of `updateCircuitBreakerRule` -/

theorem updateCircuitBreakerRule_invalid {σ : Type} (env : Env) (S : Storage σ) (ctx : Context)
    (st : ServerState σ) (request : Option ApiRule) (resp : Response)
    (h : checkCircuitBreakerRuleParams env request true true = some resp) :
    updateCircuitBreakerRule env S ctx st request = (st, resp) := by
  unfold updateCircuitBreakerRule
  rw [h]

theorem updateCircuitBreakerRule_existsFailed {σ : Type} (env : Env) (S : Storage σ)
    (ctx : Context) (st : ServerState σ) (req : ApiRule) (err : StoreError)
    (hvalid : checkCircuitBreakerRuleParams env (some req) true true = none)
    (hhas : S.HasCircuitBreakerRule st.store req.Id = .error err) :
    updateCircuitBreakerRule env S ctx st (some req) =
      ({ st with calls := st.calls ++ [StorageCall.Has req.Id] },
        NewResponse env (env.StoreCode2APICode err)) := by
  unfold updateCircuitBreakerRule
  rw [hvalid]
  simp only [checkCircuitBreakerRuleExists_failed env S st req.Id _ err hhas]
  rfl

theorem updateCircuitBreakerRule_notFound {σ : Type} (env : Env) (S : Storage σ)
    (ctx : Context) (st : ServerState σ) (req : ApiRule)
    (hvalid : checkCircuitBreakerRuleParams env (some req) true true = none)
    (hhas : S.HasCircuitBreakerRule st.store req.Id = .ok false) :
    updateCircuitBreakerRule env S ctx st (some req) =
      ({ st with calls := st.calls ++ [StorageCall.Has req.Id] },
        NewResponse env Code.NotFoundCircuitBreaker) := by
  unfold updateCircuitBreakerRule
  rw [hvalid]
  simp only [checkCircuitBreakerRuleExists_missing env S st req.Id _ hhas]
  rfl

theorem updateCircuitBreakerRule_unencodable {σ : Type} (env : Env) (S : Storage σ)
    (ctx : Context) (st : ServerState σ) (req : ApiRule) (e : String)
    (hvalid : checkCircuitBreakerRuleParams env (some req) true true = none)
    (hhas : S.HasCircuitBreakerRule st.store req.Id = .ok true)
    (hpayload : marshalCircuitBreakerRuleV2 env req = .error e) :
    updateCircuitBreakerRule env S ctx st (some req) =
      ({ st with calls := st.calls ++ [StorageCall.Has req.Id] },
        NewAnyDataResponse env Code.ParseCircuitBreakerException
          { ApiRule.empty with Id := req.Id }) := by
  unfold updateCircuitBreakerRule
  rw [hvalid]
  simp only [checkCircuitBreakerRuleExists_found env S st req.Id _ hhas,
    api2CircuitBreakerRule_error env _ req e hpayload]
  rfl

theorem updateCircuitBreakerRule_checkFailed {σ : Type} (env : Env) (S : Storage σ)
    (ctx : Context) (st : ServerState σ) (req : ApiRule) (payload : String) (err : StoreError)
    (hvalid : checkCircuitBreakerRuleParams env (some req) true true = none)
    (hhas : S.HasCircuitBreakerRule st.store req.Id = .ok true)
    (hpayload : marshalCircuitBreakerRuleV2 env req = .ok payload)
    (hother : S.HasCircuitBreakerRuleByNameExcludeId st.store req.Name
      (effectiveNamespace env req) req.Id = .error err) :
    updateCircuitBreakerRule env S ctx st (some req) =
      ({ st with uuidCount := st.uuidCount + 1,
                 calls := st.calls ++ [StorageCall.Has req.Id,
                   StorageCall.HasByNameExcludeId req.Name (effectiveNamespace env req) req.Id] },
        NewResponseWithMsg env (env.StoreCode2APICode err) err.msg) := by
  unfold updateCircuitBreakerRule
  rw [hvalid]
  simp only [checkCircuitBreakerRuleExists_found env S st req.Id _ hhas,
    api2CircuitBreakerRule_ok env _ req payload hpayload]
  simp [ServerState.noteCall, convertedRule, hother]

theorem updateCircuitBreakerRule_conflict {σ : Type} (env : Env) (S : Storage σ)
    (ctx : Context) (st : ServerState σ) (req : ApiRule) (payload : String)
    (hvalid : checkCircuitBreakerRuleParams env (some req) true true = none)
    (hhas : S.HasCircuitBreakerRule st.store req.Id = .ok true)
    (hpayload : marshalCircuitBreakerRuleV2 env req = .ok payload)
    (hother : S.HasCircuitBreakerRuleByNameExcludeId st.store req.Name
      (effectiveNamespace env req) req.Id = .ok true) :
    updateCircuitBreakerRule env S ctx st (some req) =
      ({ st with uuidCount := st.uuidCount + 1,
                 calls := st.calls ++ [StorageCall.Has req.Id,
                   StorageCall.HasByNameExcludeId req.Name (effectiveNamespace env req) req.Id] },
        NewResponse env Code.ServiceExistedCircuitBreakers) := by
  unfold updateCircuitBreakerRule
  rw [hvalid]
  simp only [checkCircuitBreakerRuleExists_found env S st req.Id _ hhas,
    api2CircuitBreakerRule_ok env _ req payload hpayload]
  simp [ServerState.noteCall, convertedRule, hother]

theorem updateCircuitBreakerRule_storeFailed {σ : Type} (env : Env) (S : Storage σ)
    (ctx : Context) (st : ServerState σ) (req : ApiRule) (payload : String) (store1 : σ)
    (err : StoreError)
    (hvalid : checkCircuitBreakerRuleParams env (some req) true true = none)
    (hhas : S.HasCircuitBreakerRule st.store req.Id = .ok true)
    (hpayload : marshalCircuitBreakerRuleV2 env req = .ok payload)
    (hother : S.HasCircuitBreakerRuleByNameExcludeId st.store req.Name
      (effectiveNamespace env req) req.Id = .ok false)
    (hupdate : S.UpdateCircuitBreakerRule st.store
      (updatedRule env req payload (env.uuid st.uuidCount)) = (store1, some err)) :
    updateCircuitBreakerRule env S ctx st (some req) =
      ({ store := store1,
         history := st.history,
         uuidCount := st.uuidCount + 1,
         calls := st.calls ++ [StorageCall.Has req.Id,
           StorageCall.HasByNameExcludeId req.Name (effectiveNamespace env req) req.Id,
           StorageCall.Update (updatedRule env req payload (env.uuid st.uuidCount))] },
        storeError2AnyResponse env err { ApiRule.empty with Id := req.Id }) := by
  unfold updateCircuitBreakerRule
  rw [hvalid]
  simp only [checkCircuitBreakerRuleExists_found env S st req.Id _ hhas,
    api2CircuitBreakerRule_ok env _ req payload hpayload]
  simp [ServerState.noteCall, convertedRule, updatedRule, hother] at hupdate ⊢
  rw [hupdate]

theorem updateCircuitBreakerRule_updated {σ : Type} (env : Env) (S : Storage σ)
    (ctx : Context) (st : ServerState σ) (req : ApiRule) (payload : String) (store1 : σ)
    (hvalid : checkCircuitBreakerRuleParams env (some req) true true = none)
    (hhas : S.HasCircuitBreakerRule st.store req.Id = .ok true)
    (hpayload : marshalCircuitBreakerRuleV2 env req = .ok payload)
    (hother : S.HasCircuitBreakerRuleByNameExcludeId st.store req.Name
      (effectiveNamespace env req) req.Id = .ok false)
    (hupdate : S.UpdateCircuitBreakerRule st.store
      (updatedRule env req payload (env.uuid st.uuidCount)) = (store1, none)) :
    updateCircuitBreakerRule env S ctx st (some req) =
      ({ store := store1,
         history := st.history ++
           [circuitBreakerRuleRecordEntry ctx req
             (updatedRule env req payload (env.uuid st.uuidCount)) OperationType.OUpdate],
         uuidCount := st.uuidCount + 1,
         calls := st.calls ++ [StorageCall.Has req.Id,
           StorageCall.HasByNameExcludeId req.Name (effectiveNamespace env req) req.Id,
           StorageCall.Update (updatedRule env req payload (env.uuid st.uuidCount))] },
        NewAnyDataResponse env Code.ExecuteSuccess { ApiRule.empty with Id := req.Id }) := by
  unfold updateCircuitBreakerRule
  rw [hvalid]
  simp only [checkCircuitBreakerRuleExists_found env S st req.Id _ hhas,
    api2CircuitBreakerRule_ok env _ req payload hpayload]
  simp [ServerState.noteCall, convertedRule, updatedRule, hother] at hupdate ⊢
  rw [hupdate]
  simp [RecordHistory]

/-! ### Uniqueness is preserved by create and update (C6) -/

theorem map_replace_of_absent (l : List CircuitBreakerRule) (id : String)
    (g : CircuitBreakerRule → CircuitBreakerRule) (h : ∀ x ∈ l, x.ID ≠ id) :
    l.map (fun x => if x.ID = id then g x else x) = l := by
  induction l with
  | nil => rfl
  | cons x xs ih =>
    have hx : x.ID ≠ id := h x (List.mem_cons_self _ _)
    have hxs : ∀ y ∈ xs, y.ID ≠ id := fun y hy => h y (List.mem_cons_of_mem _ hy)
    simp [hx, ih hxs]

theorem map_replace_ids (l : List CircuitBreakerRule) (id : String)
    (g : CircuitBreakerRule → CircuitBreakerRule) (hg : ∀ x, (g x).ID = id) :
    (l.map (fun x => if x.ID = id then g x else x)).map (fun r => r.ID)
      = l.map (fun r => r.ID) := by
  induction l with
  | nil => rfl
  | cons x xs ih =>
    by_cases hx : x.ID = id
    · simpa [hx, hg] using ih
    · simpa [hx] using ih

theorem map_replace_keys_nodup (l : List CircuitBreakerRule) (id : String)
    (k : String × String) (g : CircuitBreakerRule → CircuitBreakerRule)
    (hg : ∀ x, ruleKey (g x) = k)
    (hids : (l.map (fun r => r.ID)).Nodup) (hkeys : (l.map ruleKey).Nodup)
    (hother : ∀ x ∈ l, x.ID ≠ id → ruleKey x ≠ k) :
    ((l.map (fun x => if x.ID = id then g x else x)).map ruleKey).Nodup := by
  induction l with
  | nil => simp
  | cons x xs ih =>
    simp only [List.map_cons, List.nodup_cons] at hids hkeys
    have hother2 : ∀ y ∈ xs, y.ID ≠ id → ruleKey y ≠ k :=
      fun y hy => hother y (List.mem_cons_of_mem _ hy)
    by_cases hx : x.ID = id
    · have habs : ∀ y ∈ xs, y.ID ≠ id := by
        intro y hy hyid
        apply hids.1
        rw [hx, ← hyid]
        exact List.mem_map_of_mem (fun r => r.ID) hy
      simp only [List.map_cons, hx, if_true, map_replace_of_absent xs id g habs,
        List.nodup_cons, hg]
      refine ⟨?_, hkeys.2⟩
      intro hmem
      obtain ⟨y, hy, hyk⟩ := List.mem_map.mp hmem
      exact hother2 y hy (habs y hy) hyk
    · simp only [List.map_cons, hx, if_false, List.nodup_cons]
      refine ⟨?_, ih hids.2 hkeys.2 hother2⟩
      intro hmem
      obtain ⟨z, hz, hzk⟩ := List.mem_map.mp hmem
      obtain ⟨y, hy, hyz⟩ := List.mem_map.mp hz
      by_cases hyid : y.ID = id
      · simp only [hyid, if_true] at hyz
        rw [← hyz, hg] at hzk
        exact hother x (List.mem_cons_self _ _) hx hzk.symm
      · simp only [hyid, if_false] at hyz
        rw [← hyz] at hzk
        exact hkeys.1 (hzk ▸ List.mem_map_of_mem ruleKey hy)

theorem update_step_cases (env : Env) (ctx : Context) (st : ServerState MemStore)
    (item : Option ApiRule) :
    ((updateCircuitBreakerRule env memStorage ctx st item).1.store.rules = st.store.rules ∧
      st.uuidCount ≤ (updateCircuitBreakerRule env memStorage ctx st item).1.uuidCount) ∨
    (∃ u, (updateCircuitBreakerRule env memStorage ctx st item).1.store.rules
          = st.store.rules.map (fun x => if x.ID = u.ID then st.store.replaced u x else x) ∧
        st.uuidCount ≤ (updateCircuitBreakerRule env memStorage ctx st item).1.uuidCount ∧
        ∀ x ∈ st.store.rules, x.ID ≠ u.ID → ruleKey x ≠ ruleKey u) := by
  cases hv : checkCircuitBreakerRuleParams env item true true with
  | some resp =>
    rw [updateCircuitBreakerRule_invalid env _ ctx st item resp hv]
    exact Or.inl ⟨rfl, le_refl _⟩
  | none =>
    cases item with
    | none => simp [checkCircuitBreakerRuleParams_nil] at hv
    | some req =>
      cases hh : memStorage.HasCircuitBreakerRule st.store req.Id with
      | error err =>
        rw [updateCircuitBreakerRule_existsFailed env _ ctx st req err hv hh]
        exact Or.inl ⟨rfl, le_refl _⟩
      | ok found =>
        cases found with
        | false =>
          rw [updateCircuitBreakerRule_notFound env _ ctx st req hv hh]
          exact Or.inl ⟨rfl, le_refl _⟩
        | true =>
          cases hm : marshalCircuitBreakerRuleV2 env req with
          | error e =>
            rw [updateCircuitBreakerRule_unencodable env _ ctx st req e hv hh hm]
            exact Or.inl ⟨rfl, le_refl _⟩
          | ok payload =>
            cases ho : memStorage.HasCircuitBreakerRuleByNameExcludeId st.store req.Name
                (effectiveNamespace env req) req.Id with
            | error err =>
              rw [updateCircuitBreakerRule_checkFailed env _ ctx st req payload err hv hh hm ho]
              exact Or.inl ⟨rfl, Nat.le_succ _⟩
            | ok b =>
              cases b with
              | true =>
                rw [updateCircuitBreakerRule_conflict env _ ctx st req payload hv hh hm ho]
                exact Or.inl ⟨rfl, Nat.le_succ _⟩
              | false =>
                cases hu : memStorage.UpdateCircuitBreakerRule st.store
                    (updatedRule env req payload (env.uuid st.uuidCount)) with
                | mk store1 oerr =>
                  cases oerr with
                  | some err =>
                    rw [updateCircuitBreakerRule_storeFailed env _ ctx st req payload store1 err
                      hv hh hm ho hu]
                    simp only [memStorage, MemStore.UpdateCircuitBreakerRule] at hu
                    cases hw : st.store.writeErr with
                    | none => simp [hw] at hu
                    | some e =>
                      simp [hw] at hu
                      left
                      simp [← hu.1]
                  | none =>
                    rw [updateCircuitBreakerRule_updated env _ ctx st req payload store1
                      hv hh hm ho hu]
                    simp only [memStorage, MemStore.UpdateCircuitBreakerRule] at hu
                    cases hw : st.store.writeErr with
                    | some e => simp [hw] at hu
                    | none =>
                      simp [hw] at hu
                      right
                      refine ⟨updatedRule env req payload (env.uuid st.uuidCount), ?_,
                        Nat.le_succ _, ?_⟩
                      · rw [← hu]
                        rfl
                      · intro x hx hxid
                        simp only [memStorage, MemStore.HasCircuitBreakerRuleByNameExcludeId]
                          at ho
                        cases hr : st.store.readErr with
                        | some e => simp [hr] at ho
                        | none =>
                          simp [hr] at ho
                          have := ho x hx
                          simp only [ruleKey, updatedRule, convertedRule, ne_eq, Prod.mk.injEq,
                            not_and]
                          intro h1 h2
                          exact hxid (this h1 h2)

theorem freshIds_mono (env : Env) (st st1 : ServerState MemStore)
    (hrules : st1.store.rules.map (fun r => r.ID) = st.store.rules.map (fun r => r.ID))
    (hcount : st.uuidCount ≤ st1.uuidCount) (h : FreshIds env st) : FreshIds env st1 := by
  intro n hn
  rw [hrules]
  exact h n (le_trans hcount hn)

theorem create_step_inv (env : Env) (ctx : Context) (hinj : Function.Injective env.uuid)
    (st : ServerState MemStore) (item : Option ApiRule) (h : StoreInv env st) :
    StoreInv env (createCircuitBreakerRule env memStorage ctx st item).1 := by
  obtain ⟨hids, hnames, hfresh⟩ := h
  rcases create_step_cases env ctx st item with ⟨hr, hc⟩ | ⟨r, hr, hid, hc, hkey⟩
  · refine ⟨?_, ?_, freshIds_mono env st _ (by rw [hr]) hc hfresh⟩
    · unfold UniqueIds; rw [hr]; exact hids
    · unfold UniqueNames; rw [hr]; exact hnames
  · refine ⟨?_, ?_, ?_⟩
    · unfold UniqueIds
      rw [hr, List.map_append, List.nodup_append]
      refine ⟨hids, by simp, ?_⟩
      intro a ha hb
      simp only [List.map_cons, List.map_nil, List.mem_singleton] at hb
      rw [hb, hid] at ha
      exact hfresh _ (Nat.le_succ _) ha
    · unfold UniqueNames
      rw [hr, List.map_append, List.nodup_append]
      refine ⟨hnames, by simp, ?_⟩
      intro a ha hb
      simp only [List.map_cons, List.map_nil, List.mem_singleton] at hb
      obtain ⟨x, hx, hxa⟩ := List.mem_map.mp ha
      exact hkey x hx (hxa.trans hb)
    · intro n hn
      rw [hr, List.map_append, List.mem_append]
      rw [hc] at hn
      rintro (hmem | hmem)
      · exact hfresh n (by omega) hmem
      · simp only [List.map_cons, List.map_nil, List.mem_singleton] at hmem
        rw [hid] at hmem
        have := hinj hmem
        omega

theorem update_step_inv (env : Env) (ctx : Context)
    (st : ServerState MemStore) (item : Option ApiRule) (h : StoreInv env st) :
    StoreInv env (updateCircuitBreakerRule env memStorage ctx st item).1 := by
  obtain ⟨hids, hnames, hfresh⟩ := h
  rcases update_step_cases env ctx st item with ⟨hr, hc⟩ | ⟨u, hr, hc, hkey⟩
  · refine ⟨?_, ?_, freshIds_mono env st _ (by rw [hr]) hc hfresh⟩
    · unfold UniqueIds; rw [hr]; exact hids
    · unfold UniqueNames; rw [hr]; exact hnames
  · have hidmap := map_replace_ids st.store.rules u.ID (st.store.replaced u) (fun _ => rfl)
    refine ⟨?_, ?_, freshIds_mono env st _ (by rw [hr, hidmap]) hc hfresh⟩
    · unfold UniqueIds; rw [hr, hidmap]; exact hids
    · unfold UniqueNames
      rw [hr]
      exact map_replace_keys_nodup st.store.rules u.ID (ruleKey u) (st.store.replaced u)
        (fun _ => rfl) hids hnames hkey

theorem stateAfter_inv {σ : Type} (P : ServerState σ → Prop)
    (step : ServerState σ → Option ApiRule → ServerState σ × Response)
    (hstep : ∀ st item, P st → P (step st item).1)
    (items : List (Option ApiRule)) (st : ServerState σ) (h : P st) :
    P (stateAfter step st items) := by
  induction items generalizing st with
  | nil => exact h
  | cons x xs ih => exact ih _ (hstep st x h)

theorem runBatch_inv {σ : Type} (P : ServerState σ → Prop) (env : Env)
    (step : ServerState σ → Option ApiRule → ServerState σ × Response)
    (hstep : ∀ st item, P st → P (step st item).1)
    (request : List (Option ApiRule)) (st : ServerState σ) (h : P st) :
    P (runBatch env step st request).1 := by
  by_cases hadm : Admissible env request
  · rw [runBatch_admissible env step st request hadm]
    simp only [collectEach_state]
    exact stateAfter_inv P step hstep request st h
  · have hrej : request.length = 0 ∨ env.MaxBatchSize < request.length := by
      unfold Admissible at hadm
      omega
    rw [runBatch_rejected env step st request hrej]
    exact h

theorem runCalls_inv (env : Env) (ctx : Context) (hinj : Function.Injective env.uuid)
    (calls : List BatchCall) (st : ServerState MemStore) (h : StoreInv env st) :
    StoreInv env (runCalls env ctx st calls) := by
  induction calls generalizing st with
  | nil => exact h
  | cons c cs ih =>
    apply ih
    cases c with
    | create request =>
      exact runBatch_inv (StoreInv env) env _ (create_step_inv env ctx hinj) request st h
    | update request =>
      exact runBatch_inv (StoreInv env) env _ (update_step_inv env ctx) request st h

theorem sampleEnv_uuid_injective : Function.Injective sampleEnv.uuid := by
  intro a b h
  have := congrArg String.length h
  simpa [sampleEnv, String.length] using this

/-- C6: on the in-memory store, whose existence answers are computed from the live rules,
every sequence of create batches and update batches executed one after the other
preserves the uniqueness of (name, namespace) among live rules (together with the
uniqueness of identifiers), whatever the batches contain and whichever storage calls
fail; the id generator is injective and returns no identifier already in the store. -/
theorem unique_names_preserved (env : Env) (ctx : Context) (st : ServerState MemStore)
    (calls : List BatchCall) (hinj : Function.Injective env.uuid) (hfresh : FreshIds env st)
    (hids : UniqueIds st.store) (hnames : UniqueNames st.store) :
    UniqueNames (runCalls env ctx st calls).store ∧
    UniqueIds (runCalls env ctx st calls).store :=
  ⟨(runCalls_inv env ctx hinj calls st ⟨hids, hnames, hfresh⟩).2.1,
    (runCalls_inv env ctx hinj calls st ⟨hids, hnames, hfresh⟩).1⟩

/-- Witness of C6: a create batch that names the same rule twice, then an update batch. -/
theorem unique_names_preserved_witness :
    UniqueNames (runCalls sampleEnv sampleCtx sampleState
      [BatchCall.create [some sampleItem, some sampleItem],
       BatchCall.update [some { sampleItem with Id := "uu", Name := "r2" }]]).store ∧
    UniqueIds (runCalls sampleEnv sampleCtx sampleState
      [BatchCall.create [some sampleItem, some sampleItem],
       BatchCall.update [some { sampleItem with Id := "uu", Name := "r2" }]]).store :=
  unique_names_preserved sampleEnv sampleCtx sampleState
    [BatchCall.create [some sampleItem, some sampleItem],
     BatchCall.update [some { sampleItem with Id := "uu", Name := "r2" }]]
    sampleEnv_uuid_injective
    (fun n _ h => by simp [sampleState, emptyStore] at h)
    (by simp [UniqueIds, sampleState, emptyStore])
    (by simp [UniqueNames, sampleState, emptyStore])

/-! ### Create batches of fresh names (C7) -/

theorem memStorage_hasByName_free (s : MemStore) (name ns : String)
    (hread : s.readErr = none) (hfree : ∀ x ∈ s.rules, ruleKey x ≠ (name, ns)) :
    memStorage.HasCircuitBreakerRuleByName s name ns = .ok false := by
  simp only [memStorage, MemStore.HasCircuitBreakerRuleByName, hread]
  congr 1
  rw [List.any_eq_false]
  intro x hx
  have := hfree x hx
  simpa [ruleKey] using this

theorem createCircuitBreakerRule_mem_created (env : Env) (ctx : Context)
    (st : ServerState MemStore) (req : ApiRule) (payload : String)
    (hvalid : checkCircuitBreakerRuleParams env (some req) false true = none)
    (hpayload : marshalCircuitBreakerRuleV2 env req = .ok payload)
    (hread : st.store.readErr = none) (hwrite : st.store.writeErr = none)
    (hfree : ∀ x ∈ st.store.rules, ruleKey x ≠ storedName env req) :
    createCircuitBreakerRule env memStorage ctx st (some req) =
      (createdState env ctx st req payload,
        NewAnyDataResponse env Code.ExecuteSuccess
          { req with Id := env.uuid (st.uuidCount + 1) }) := by
  have hh := memStorage_hasByName_free st.store req.Name (effectiveNamespace env req) hread hfree
  rw [createCircuitBreakerRule_created env memStorage ctx st req payload
    { st.store with rules := st.store.rules ++
      [{ convertedRule env req payload (env.uuid st.uuidCount) with
         ID := env.uuid (st.uuidCount + 1),
         CreateTime := st.store.now, ModifyTime := st.store.now }] } hvalid hpayload hh
    (by simp [memStorage, MemStore.CreateCircuitBreakerRule, hwrite])]
  rfl

theorem create_all_fresh (env : Env) (ctx : Context) (items : List ApiRule) :
    ∀ (st : ServerState MemStore),
      (∀ r ∈ items, checkCircuitBreakerRuleParams env (some r) false true = none) →
      (∀ r ∈ items, ∃ p, marshalCircuitBreakerRuleV2 env r = .ok p) →
      (items.map (storedName env)).Nodup →
      (∀ r ∈ items, ∀ x ∈ st.store.rules, ruleKey x ≠ storedName env r) →
      st.store.readErr = none → st.store.writeErr = none →
      outcomes (createCircuitBreakerRule env memStorage ctx) st (items.map some)
        = createdResponses env st.uuidCount items ∧
      (stateAfter (createCircuitBreakerRule env memStorage ctx) st (items.map some)).uuidCount
        = st.uuidCount + 2 * items.length := by
  induction items with
  | nil => intro st _ _ _ _ _ _; exact ⟨rfl, rfl⟩
  | cons r rs ih =>
    intro st hvalid hpayload hnodup hfree hread hwrite
    obtain ⟨p, hp⟩ := hpayload r (List.mem_cons_self _ _)
    have hstep := createCircuitBreakerRule_mem_created env ctx st r p
      (hvalid r (List.mem_cons_self _ _)) hp hread hwrite (hfree r (List.mem_cons_self _ _))
    simp only [List.map_cons, List.nodup_cons] at hnodup
    have hrest := ih (createdState env ctx st r p)
      (fun x hx => hvalid x (List.mem_cons_of_mem _ hx))
      (fun x hx => hpayload x (List.mem_cons_of_mem _ hx))
      hnodup.2
      (by
        intro r2 hr2 x hx
        simp only [createdState, List.mem_append, List.mem_singleton] at hx
        rcases hx with hx | hx
        · exact hfree r2 (List.mem_cons_of_mem _ hr2) x hx
        · intro hkey
          apply hnodup.1
          have : storedName env r = storedName env r2 := by
            rw [← hkey, hx]
            rfl
          rw [this]
          exact List.mem_map_of_mem _ hr2)
      hread hwrite
    constructor
    · simp only [List.map_cons, outcomes, hstep, createdResponses]
      rw [hrest.1]
      rfl
    · simp only [List.map_cons, stateAfter, List.foldl_cons, hstep]
      have := hrest.2
      simp only [stateAfter, createdState] at this
      simp only [createdState, this, List.length_cons]
      omega

theorem createdResponses_success (env : Env) (items : List ApiRule) (c : Nat) :
    ∀ r ∈ createdResponses env c items, r.code = Code.ExecuteSuccess := by
  induction items generalizing c with
  | nil => simp [createdResponses]
  | cons x xs ih =>
    intro r hr
    simp only [createdResponses, List.mem_cons] at hr
    rcases hr with hr | hr
    · rw [hr]; rfl
    · exact ih _ r hr

theorem createdResponses_length (env : Env) (items : List ApiRule) (c : Nat) :
    (createdResponses env c items).length = items.length := by
  induction items generalizing c with
  | nil => rfl
  | cons x xs ih => simp [createdResponses, ih]

theorem createdResponses_ids (env : Env) (items : List ApiRule) (c : Nat) :
    (createdResponses env c items).filterMap (fun r => r.data.map (fun m => m.Id))
      = (List.range items.length).map (fun i => env.uuid (c + 2 * i + 1)) := by
  induction items generalizing c with
  | nil => rfl
  | cons x xs ih =>
    have hhead : (createdResponses env c (x :: xs)).filterMap
        (fun r => r.data.map (fun m => m.Id))
        = env.uuid (c + 1) :: (createdResponses env (c + 2) xs).filterMap
            (fun r => r.data.map (fun m => m.Id)) := rfl
    rw [hhead, ih, List.length_cons, List.range_succ_eq_map, List.map_cons, List.map_map]
    simp only [Nat.mul_zero, Nat.add_zero, List.cons.injEq, true_and]
    apply List.map_congr_left
    intro i _
    simp only [Function.comp]
    congr 1
    omega

/-- Counterexample to C7 as stated: a create batch of admissible size with a single valid item,
hence with pairwise-unique (name, namespace), whose name the store already holds: the
item gets the conflict code and the batch is not a success. -/
theorem create_unique_batch_conflicts :
    Admissible sampleEnv [some sampleItem] ∧
    (requestNames [some sampleItem]).Nodup ∧
    checkCircuitBreakerRuleParams sampleEnv (some sampleItem) false true = none ∧
    (CreateCircuitBreakerRules sampleEnv memStorage sampleCtx oneRuleState
      [some sampleItem]).2.responses.map (fun r => r.code)
        = [Code.ServiceExistedCircuitBreakers] ∧
    (CreateCircuitBreakerRules sampleEnv memStorage sampleCtx oneRuleState
      [some sampleItem]).2.code ≠ Code.ExecuteSuccess := by
  refine ⟨by decide, by decide, by decide, by decide, by decide⟩

/-- C7 (amended): on the in-memory store without storage faults, a create batch of
admissible size whose items all pass validation and encode, whose stored (name,
namespace) pairs are pairwise distinct and none of which the store holds, succeeds on
every item; each item is echoed with the identifier drawn for it; with an injective
generator the identifiers of the batch are pairwise distinct and differ from every
identifier the generator returned before the batch or returns after it. -/
theorem create_fresh_batch_succeeds (env : Env) (ctx : Context) (st : ServerState MemStore)
    (items : List ApiRule)
    (hadm : Admissible env (items.map some))
    (hinj : Function.Injective env.uuid)
    (hvalid : ∀ r ∈ items, checkCircuitBreakerRuleParams env (some r) false true = none)
    (hpayload : ∀ r ∈ items, ∃ p, marshalCircuitBreakerRuleV2 env r = .ok p)
    (hnodup : (items.map (storedName env)).Nodup)
    (hfree : ∀ r ∈ items, ∀ x ∈ st.store.rules, ruleKey x ≠ storedName env r)
    (hread : st.store.readErr = none) (hwrite : st.store.writeErr = none) :
    (CreateCircuitBreakerRules env memStorage ctx st (items.map some)).2.code
      = Code.ExecuteSuccess ∧
    (CreateCircuitBreakerRules env memStorage ctx st (items.map some)).2.responses
      = createdResponses env st.uuidCount items ∧
    (assignedIds (CreateCircuitBreakerRules env memStorage ctx st (items.map some)).2).length
      = items.length ∧
    (assignedIds (CreateCircuitBreakerRules env memStorage ctx st (items.map some)).2).Nodup ∧
    (CreateCircuitBreakerRules env memStorage ctx st (items.map some)).1.uuidCount
      = st.uuidCount + 2 * items.length ∧
    (∀ k, k < st.uuidCount ∨
        (CreateCircuitBreakerRules env memStorage ctx st (items.map some)).1.uuidCount ≤ k →
      env.uuid k ∉
        assignedIds (CreateCircuitBreakerRules env memStorage ctx st (items.map some)).2) := by
  have hall := create_all_fresh env ctx items st hvalid hpayload hnodup hfree hread hwrite
  have hresp : (CreateCircuitBreakerRules env memStorage ctx st (items.map some)).2.responses
      = createdResponses env st.uuidCount items := by
    unfold CreateCircuitBreakerRules
    rw [runBatch_admissible env _ st _ hadm]
    simp only [FormatBatchWriteResponse_responses, collectEach_responses,
      NewBatchWriteResponse, List.nil_append]
    exact hall.1
  have hcount : (CreateCircuitBreakerRules env memStorage ctx st (items.map some)).1.uuidCount
      = st.uuidCount + 2 * items.length := by
    unfold CreateCircuitBreakerRules
    rw [runBatch_admissible env _ st _ hadm]
    simp only [collectEach_state]
    exact hall.2
  have hids : assignedIds (CreateCircuitBreakerRules env memStorage ctx st (items.map some)).2
      = (List.range items.length).map (fun i => env.uuid (st.uuidCount + 2 * i + 1)) := by
    unfold assignedIds
    rw [hresp]
    exact createdResponses_ids env items st.uuidCount
  refine ⟨?_, hresp, ?_, ?_, hcount, ?_⟩
  · have hagg : OverallCodeAggregates
        (CreateCircuitBreakerRules env memStorage ctx st (items.map some)).2 :=
      runBatch_aggregates env (createCircuitBreakerRule env memStorage ctx) st
        (items.map some) hadm
    apply hagg.1.mpr
    rw [hresp]
    exact createdResponses_success env items st.uuidCount
  · rw [hids]; simp
  · rw [hids]
    apply List.Nodup.map _ (List.nodup_range _)
    intro i j hij
    have := hinj hij
    omega
  · intro k hk hmem
    rw [hids] at hmem
    obtain ⟨i, hi, hik⟩ := List.mem_map.mp hmem
    have := hinj hik
    rw [hcount] at hk
    have hlt := List.mem_range.mp hi
    omega

/-- Witness of C7 (amended): two items of distinct names on the empty store. -/
theorem create_fresh_batch_succeeds_witness :
    (CreateCircuitBreakerRules sampleEnv memStorage sampleCtx sampleState
      ([sampleItem, { sampleItem with Name := "r2" }].map some)).2.code
        = Code.ExecuteSuccess ∧
    assignedIds (CreateCircuitBreakerRules sampleEnv memStorage sampleCtx sampleState
      ([sampleItem, { sampleItem with Name := "r2" }].map some)).2 = ["uu", "uuuu"] :=
  ⟨(create_fresh_batch_succeeds sampleEnv sampleCtx sampleState
      [sampleItem, { sampleItem with Name := "r2" }] (by decide) sampleEnv_uuid_injective
      (by decide) (by simp [marshalCircuitBreakerRuleV2, sampleEnv])
      (by decide) (by simp [sampleState, emptyStore]) rfl rfl).1,
    by decide⟩

/-! ### Equations of `deleteCircuitBreakerRule` -/

theorem deleteCircuitBreakerRule_invalid {σ : Type} (env : Env) (S : Storage σ) (ctx : Context)
    (st : ServerState σ) (request : Option ApiRule) (resp : Response)
    (h : checkCircuitBreakerRuleParams env request true false = some resp) :
    deleteCircuitBreakerRule env S ctx st request = (st, resp) := by
  unfold deleteCircuitBreakerRule
  rw [h]

theorem deleteCircuitBreakerRule_existsFailed {σ : Type} (env : Env) (S : Storage σ)
    (ctx : Context) (st : ServerState σ) (req : ApiRule) (err : StoreError)
    (hvalid : checkCircuitBreakerRuleParams env (some req) true false = none)
    (hhas : S.HasCircuitBreakerRule st.store req.Id = .error err) :
    deleteCircuitBreakerRule env S ctx st (some req) =
      ({ st with calls := st.calls ++ [StorageCall.Has req.Id] },
        remapNotFound (NewResponse env (env.StoreCode2APICode err))) := by
  unfold deleteCircuitBreakerRule
  rw [hvalid]
  simp only [checkCircuitBreakerRuleExists_failed env S st req.Id _ err hhas]
  rfl

theorem deleteCircuitBreakerRule_notFound {σ : Type} (env : Env) (S : Storage σ)
    (ctx : Context) (st : ServerState σ) (req : ApiRule)
    (hvalid : checkCircuitBreakerRuleParams env (some req) true false = none)
    (hhas : S.HasCircuitBreakerRule st.store req.Id = .ok false) :
    deleteCircuitBreakerRule env S ctx st (some req) =
      ({ st with calls := st.calls ++ [StorageCall.Has req.Id] },
        { NewResponse env Code.NotFoundCircuitBreaker with code := Code.ExecuteSuccess }) := by
  unfold deleteCircuitBreakerRule
  rw [hvalid]
  simp only [checkCircuitBreakerRuleExists_missing env S st req.Id _ hhas]
  rfl

theorem deleteCircuitBreakerRule_storeFailed {σ : Type} (env : Env) (S : Storage σ)
    (ctx : Context) (st : ServerState σ) (req : ApiRule) (store1 : σ) (err : StoreError)
    (hvalid : checkCircuitBreakerRuleParams env (some req) true false = none)
    (hhas : S.HasCircuitBreakerRule st.store req.Id = .ok true)
    (hdelete : S.DeleteCircuitBreakerRule st.store req.Id = (store1, some err)) :
    deleteCircuitBreakerRule env S ctx st (some req) =
      ({ store := store1,
         history := st.history,
         uuidCount := st.uuidCount,
         calls := st.calls ++ [StorageCall.Has req.Id, StorageCall.Delete req.Id] },
        NewAnyDataResponse env Code.ParseCircuitBreakerException (idOnly req)) := by
  unfold deleteCircuitBreakerRule
  rw [hvalid]
  simp only [checkCircuitBreakerRuleExists_found env S st req.Id _ hhas]
  simp [ServerState.noteCall, idOnly] at hdelete ⊢
  rw [hdelete]

theorem deleteCircuitBreakerRule_deleted {σ : Type} (env : Env) (S : Storage σ)
    (ctx : Context) (st : ServerState σ) (req : ApiRule) (store1 : σ)
    (hvalid : checkCircuitBreakerRuleParams env (some req) true false = none)
    (hhas : S.HasCircuitBreakerRule st.store req.Id = .ok true)
    (hdelete : S.DeleteCircuitBreakerRule st.store req.Id = (store1, none)) :
    deleteCircuitBreakerRule env S ctx st (some req) =
      ({ store := store1,
         history := st.history ++
           [circuitBreakerRuleRecordEntry ctx req (deletedRule req) OperationType.ODelete],
         uuidCount := st.uuidCount,
         calls := st.calls ++ [StorageCall.Has req.Id, StorageCall.Delete req.Id] },
        NewAnyDataResponse env Code.ExecuteSuccess (idOnly req)) := by
  unfold deleteCircuitBreakerRule
  rw [hvalid]
  simp only [checkCircuitBreakerRuleExists_found env S st req.Id _ hhas]
  simp [ServerState.noteCall, idOnly, deletedRule] at hdelete ⊢
  rw [hdelete]
  simp [RecordHistory]

/-! ### Equations of `enableCircuitBreakerRule` -/

theorem enableCircuitBreakerRule_invalid {σ : Type} (env : Env) (S : Storage σ) (ctx : Context)
    (st : ServerState σ) (request : Option ApiRule) (resp : Response)
    (h : checkCircuitBreakerRuleParams env request true false = some resp) :
    enableCircuitBreakerRule env S ctx st request = (st, resp) := by
  unfold enableCircuitBreakerRule
  rw [h]

theorem enableCircuitBreakerRule_existsFailed {σ : Type} (env : Env) (S : Storage σ)
    (ctx : Context) (st : ServerState σ) (req : ApiRule) (err : StoreError)
    (hvalid : checkCircuitBreakerRuleParams env (some req) true false = none)
    (hhas : S.HasCircuitBreakerRule st.store req.Id = .error err) :
    enableCircuitBreakerRule env S ctx st (some req) =
      ({ st with calls := st.calls ++ [StorageCall.Has req.Id] },
        NewResponse env (env.StoreCode2APICode err)) := by
  unfold enableCircuitBreakerRule
  rw [hvalid]
  simp only [checkCircuitBreakerRuleExists_failed env S st req.Id _ err hhas]
  rfl

theorem enableCircuitBreakerRule_notFound {σ : Type} (env : Env) (S : Storage σ)
    (ctx : Context) (st : ServerState σ) (req : ApiRule)
    (hvalid : checkCircuitBreakerRuleParams env (some req) true false = none)
    (hhas : S.HasCircuitBreakerRule st.store req.Id = .ok false) :
    enableCircuitBreakerRule env S ctx st (some req) =
      ({ st with calls := st.calls ++ [StorageCall.Has req.Id] },
        NewResponse env Code.NotFoundCircuitBreaker) := by
  unfold enableCircuitBreakerRule
  rw [hvalid]
  simp only [checkCircuitBreakerRuleExists_missing env S st req.Id _ hhas]
  rfl

theorem enableCircuitBreakerRule_storeFailed {σ : Type} (env : Env) (S : Storage σ)
    (ctx : Context) (st : ServerState σ) (req : ApiRule) (store1 : σ) (err : StoreError)
    (hvalid : checkCircuitBreakerRuleParams env (some req) true false = none)
    (hhas : S.HasCircuitBreakerRule st.store req.Id = .ok true)
    (henable : S.EnableCircuitBreakerRule st.store
      (enabledRule req (env.uuid st.uuidCount)) = (store1, some err)) :
    enableCircuitBreakerRule env S ctx st (some req) =
      ({ store := store1,
         history := st.history,
         uuidCount := st.uuidCount + 1,
         calls := st.calls ++ [StorageCall.Has req.Id,
           StorageCall.Enable (enabledRule req (env.uuid st.uuidCount))] },
        storeError2AnyResponse env err (idOnly req)) := by
  unfold enableCircuitBreakerRule
  rw [hvalid]
  simp only [checkCircuitBreakerRuleExists_found env S st req.Id _ hhas]
  simp [ServerState.noteCall, idOnly, enabledRule, NewUUID] at henable ⊢
  rw [henable]

theorem enableCircuitBreakerRule_enabled {σ : Type} (env : Env) (S : Storage σ)
    (ctx : Context) (st : ServerState σ) (req : ApiRule) (store1 : σ)
    (hvalid : checkCircuitBreakerRuleParams env (some req) true false = none)
    (hhas : S.HasCircuitBreakerRule st.store req.Id = .ok true)
    (henable : S.EnableCircuitBreakerRule st.store
      (enabledRule req (env.uuid st.uuidCount)) = (store1, none)) :
    enableCircuitBreakerRule env S ctx st (some req) =
      ({ store := store1,
         history := st.history ++
           [circuitBreakerRuleRecordEntry ctx req (enabledRule req (env.uuid st.uuidCount))
             OperationType.OUpdate],
         uuidCount := st.uuidCount + 1,
         calls := st.calls ++ [StorageCall.Has req.Id,
           StorageCall.Enable (enabledRule req (env.uuid st.uuidCount))] },
        NewAnyDataResponse env Code.ExecuteSuccess (idOnly req)) := by
  unfold enableCircuitBreakerRule
  rw [hvalid]
  simp only [checkCircuitBreakerRuleExists_found env S st req.Id _ hhas]
  simp [ServerState.noteCall, idOnly, enabledRule, NewUUID] at henable ⊢
  rw [henable]
  simp [RecordHistory]

/-! ### Delete, update and enable of one item (C8, C9, C10) -/

theorem length_ne_zero_of_ne_empty (s : String) (h : s ≠ "") : s.length ≠ 0 := by
  intro h0
  apply h
  cases s with
  | mk data =>
    have : data = [] := List.length_eq_zero.mp h0
    rw [this]

theorem checkCircuitBreakerRuleParams_idOnly (env : Env) (req : ApiRule) (hid : req.Id ≠ "")
    (hlen : checkCircuitBreakerRuleParamsDbLen env req = none) :
    checkCircuitBreakerRuleParams env (some req) true false = none := by
  have := length_ne_zero_of_ne_empty req.Id hid
  simp [checkCircuitBreakerRuleParams, hlen, this]

theorem checkCircuitBreakerRuleParams_idAndName (env : Env) (req : ApiRule)
    (hid : req.Id ≠ "") (hname : req.Name ≠ "")
    (hlen : checkCircuitBreakerRuleParamsDbLen env req = none) :
    checkCircuitBreakerRuleParams env (some req) true true = none := by
  have h1 := length_ne_zero_of_ne_empty req.Id hid
  have h2 := length_ne_zero_of_ne_empty req.Name hname
  simp [checkCircuitBreakerRuleParams, hlen, h1, h2]

/-- C8: delete is idempotent.  For an item with a non-empty id (and fields within the
length limits): when the store answers that it does not hold the id, delete returns the
success code and leaves store and audit history unchanged; when the store holds the id,
the storage delete succeeds and the store then no longer reports the id, the delete and
its repetition both return the success code and the store after the second delete is the
store after the first. -/
theorem delete_idempotent {σ : Type} (env : Env) (S : Storage σ) (ctx : Context)
    (st : ServerState σ) (req : ApiRule) (hid : req.Id ≠ "")
    (hlen : checkCircuitBreakerRuleParamsDbLen env req = none) :
    (S.HasCircuitBreakerRule st.store req.Id = .ok false →
      (deleteCircuitBreakerRule env S ctx st (some req)).2.code = Code.ExecuteSuccess ∧
      (deleteCircuitBreakerRule env S ctx st (some req)).1.store = st.store ∧
      (deleteCircuitBreakerRule env S ctx st (some req)).1.history = st.history) ∧
    (S.HasCircuitBreakerRule st.store req.Id = .ok true →
      (S.DeleteCircuitBreakerRule st.store req.Id).2 = none →
      S.HasCircuitBreakerRule (S.DeleteCircuitBreakerRule st.store req.Id).1 req.Id
        = .ok false →
      (deleteCircuitBreakerRule env S ctx st (some req)).2.code = Code.ExecuteSuccess ∧
      (deleteCircuitBreakerRule env S ctx st (some req)).1.store
        = (S.DeleteCircuitBreakerRule st.store req.Id).1 ∧
      (deleteCircuitBreakerRule env S ctx
        (deleteCircuitBreakerRule env S ctx st (some req)).1 (some req)).2.code
        = Code.ExecuteSuccess ∧
      (deleteCircuitBreakerRule env S ctx
        (deleteCircuitBreakerRule env S ctx st (some req)).1 (some req)).1.store
        = (deleteCircuitBreakerRule env S ctx st (some req)).1.store) := by
  have hvalid := checkCircuitBreakerRuleParams_idOnly env req hid hlen
  constructor
  · intro hmissing
    rw [deleteCircuitBreakerRule_notFound env S ctx st req hvalid hmissing]
    exact ⟨rfl, rfl, rfl⟩
  · intro hfound hok hgone
    have hdel : S.DeleteCircuitBreakerRule st.store req.Id
        = ((S.DeleteCircuitBreakerRule st.store req.Id).1, none) := by
      rw [← hok]
    rw [deleteCircuitBreakerRule_deleted env S ctx st req _ hvalid hfound hdel]
    rw [deleteCircuitBreakerRule_notFound env S ctx _ req hvalid hgone]
    exact ⟨rfl, rfl, rfl, rfl⟩

/-- Witness of C8: deleting an unknown id, then a known id twice. -/
theorem delete_idempotent_witness :
    (deleteCircuitBreakerRule sampleEnv memStorage sampleCtx oneRuleState
      (some { ApiRule.empty with Id := "zz" })).2.code = Code.ExecuteSuccess ∧
    (deleteCircuitBreakerRule sampleEnv memStorage sampleCtx
      (deleteCircuitBreakerRule sampleEnv memStorage sampleCtx oneRuleState
        (some { ApiRule.empty with Id := "uu" })).1
      (some { ApiRule.empty with Id := "uu" })).2.code = Code.ExecuteSuccess :=
  ⟨((delete_idempotent sampleEnv memStorage sampleCtx oneRuleState
      { ApiRule.empty with Id := "zz" } (by decide) (by decide)).1 rfl).1,
    ((delete_idempotent sampleEnv memStorage sampleCtx oneRuleState
      { ApiRule.empty with Id := "uu" } (by decide) (by decide)).2 rfl rfl rfl).2.2.1⟩

/-- C9: an update item with an id and a name (fields within the length limits) whose
payload encodes.  If the store answers that the id is unknown the result is
`NotFoundCircuitBreaker` and nothing is written.  If the store answers that another id
holds the item's name and namespace the result is the conflict code and nothing is
written.  Otherwise, when the storage update succeeds, the record handed to the storage
carries the item's own id and a newly drawn revision, the store is the one the storage
returned and the result is success. -/
theorem update_outcomes {σ : Type} (env : Env) (S : Storage σ) (ctx : Context)
    (st : ServerState σ) (req : ApiRule) (payload : String)
    (hid : req.Id ≠ "") (hname : req.Name ≠ "")
    (hlen : checkCircuitBreakerRuleParamsDbLen env req = none)
    (hpayload : marshalCircuitBreakerRuleV2 env req = .ok payload) :
    (S.HasCircuitBreakerRule st.store req.Id = .ok false →
      (updateCircuitBreakerRule env S ctx st (some req)).2.code = Code.NotFoundCircuitBreaker ∧
      (updateCircuitBreakerRule env S ctx st (some req)).1.store = st.store ∧
      (updateCircuitBreakerRule env S ctx st (some req)).1.history = st.history ∧
      (updateCircuitBreakerRule env S ctx st (some req)).1.calls
        = st.calls ++ [StorageCall.Has req.Id]) ∧
    (S.HasCircuitBreakerRule st.store req.Id = .ok true →
      S.HasCircuitBreakerRuleByNameExcludeId st.store req.Name (effectiveNamespace env req)
        req.Id = .ok true →
      (updateCircuitBreakerRule env S ctx st (some req)).2.code
        = Code.ServiceExistedCircuitBreakers ∧
      (updateCircuitBreakerRule env S ctx st (some req)).1.store = st.store ∧
      (updateCircuitBreakerRule env S ctx st (some req)).1.history = st.history ∧
      (updateCircuitBreakerRule env S ctx st (some req)).1.calls
        = st.calls ++ [StorageCall.Has req.Id,
            StorageCall.HasByNameExcludeId req.Name (effectiveNamespace env req) req.Id]) ∧
    (S.HasCircuitBreakerRule st.store req.Id = .ok true →
      S.HasCircuitBreakerRuleByNameExcludeId st.store req.Name (effectiveNamespace env req)
        req.Id = .ok false →
      (S.UpdateCircuitBreakerRule st.store
        (updatedRule env req payload (env.uuid st.uuidCount))).2 = none →
      (updateCircuitBreakerRule env S ctx st (some req)).2.code = Code.ExecuteSuccess ∧
      (updateCircuitBreakerRule env S ctx st (some req)).2.data = some (idOnly req) ∧
      (updateCircuitBreakerRule env S ctx st (some req)).1.store
        = (S.UpdateCircuitBreakerRule st.store
            (updatedRule env req payload (env.uuid st.uuidCount))).1 ∧
      (updateCircuitBreakerRule env S ctx st (some req)).1.calls
        = st.calls ++ [StorageCall.Has req.Id,
            StorageCall.HasByNameExcludeId req.Name (effectiveNamespace env req) req.Id,
            StorageCall.Update (updatedRule env req payload (env.uuid st.uuidCount))] ∧
      (updatedRule env req payload (env.uuid st.uuidCount)).ID = req.Id ∧
      (updatedRule env req payload (env.uuid st.uuidCount)).Revision
        = env.uuid st.uuidCount ∧
      (updateCircuitBreakerRule env S ctx st (some req)).1.uuidCount = st.uuidCount + 1) := by
  have hvalid := checkCircuitBreakerRuleParams_idAndName env req hid hname hlen
  refine ⟨?_, ?_, ?_⟩
  · intro hmissing
    rw [updateCircuitBreakerRule_notFound env S ctx st req hvalid hmissing]
    exact ⟨rfl, rfl, rfl, rfl⟩
  · intro hfound hother
    rw [updateCircuitBreakerRule_conflict env S ctx st req payload hvalid hfound hpayload hother]
    exact ⟨rfl, rfl, rfl, rfl⟩
  · intro hfound hother hok
    have hupd : S.UpdateCircuitBreakerRule st.store
        (updatedRule env req payload (env.uuid st.uuidCount))
        = ((S.UpdateCircuitBreakerRule st.store
            (updatedRule env req payload (env.uuid st.uuidCount))).1, none) := by
      rw [← hok]
    rw [updateCircuitBreakerRule_updated env S ctx st req payload _ hvalid hfound hpayload
      hother hupd]
    exact ⟨rfl, rfl, rfl, rfl, rfl, rfl, rfl⟩

/-- Witness of C9: renaming the stored rule `uu`, and updating the unknown id `zz`. -/
theorem update_outcomes_witness :
    (updateCircuitBreakerRule sampleEnv memStorage sampleCtx oneRuleState
      (some { sampleItem with Id := "zz" })).2.code = Code.NotFoundCircuitBreaker ∧
    (updateCircuitBreakerRule sampleEnv memStorage sampleCtx oneRuleState
      (some { sampleItem with Id := "uu", Name := "r1-renamed" })).2.code
        = Code.ExecuteSuccess :=
  ⟨((update_outcomes sampleEnv memStorage sampleCtx oneRuleState
      { sampleItem with Id := "zz" } "" (by decide) (by decide) (by decide) rfl).1 rfl).1,
    ((update_outcomes sampleEnv memStorage sampleCtx oneRuleState
      { sampleItem with Id := "uu", Name := "r1-renamed" } "" (by decide) (by decide)
        (by decide) rfl).2.2
        rfl rfl rfl).1⟩

theorem memStorage_has_found (s : MemStore) (id : String) (hread : s.readErr = none)
    (h : ∃ x ∈ s.rules, x.ID = id) : memStorage.HasCircuitBreakerRule s id = .ok true := by
  simp only [memStorage, MemStore.HasCircuitBreakerRule, hread]
  congr 1
  rw [List.any_eq_true]
  obtain ⟨x, hx, hxid⟩ := h
  exact ⟨x, hx, by simpa using hxid⟩

theorem memStorage_has_missing (s : MemStore) (id : String) (hread : s.readErr = none)
    (h : ∀ x ∈ s.rules, x.ID ≠ id) : memStorage.HasCircuitBreakerRule s id = .ok false := by
  simp only [memStorage, MemStore.HasCircuitBreakerRule, hread]
  congr 1
  rw [List.any_eq_false]
  intro x hx
  simpa using h x hx

/-- C10: on the in-memory store without storage faults, an enable item (non-empty id,
fields within the length limits) whose id the store holds gets the success code; the stored rule of that id
takes the requested enable flag, a newly drawn revision and the enable timestamp (the
clock of the store when switched on, cleared when switched off), and every other field of
every stored rule, the policy payload included, stays as it was.  For an id the store
does not hold the result is `NotFoundCircuitBreaker` and store and audit history are
unchanged. -/
theorem enable_outcomes (env : Env) (ctx : Context) (st : ServerState MemStore)
    (req : ApiRule) (hid : req.Id ≠ "")
    (hlen : checkCircuitBreakerRuleParamsDbLen env req = none)
    (hread : st.store.readErr = none) (hwrite : st.store.writeErr = none) :
    ((∃ x ∈ st.store.rules, x.ID = req.Id) →
      (enableCircuitBreakerRule env memStorage ctx st (some req)).2.code
        = Code.ExecuteSuccess ∧
      (enableCircuitBreakerRule env memStorage ctx st (some req)).1.store.rules
        = st.store.rules.map (fun x =>
            if x.ID = req.Id then
              { x with Enable := req.Enable, Revision := env.uuid st.uuidCount,
                       EnableTime := if req.Enable then st.store.now else Time.zero }
            else x) ∧
      (enableCircuitBreakerRule env memStorage ctx st (some req)).1.store.rules.map
          (fun x => x.Rule) = st.store.rules.map (fun x => x.Rule)) ∧
    ((∀ x ∈ st.store.rules, x.ID ≠ req.Id) →
      (enableCircuitBreakerRule env memStorage ctx st (some req)).2.code
        = Code.NotFoundCircuitBreaker ∧
      (enableCircuitBreakerRule env memStorage ctx st (some req)).1.store = st.store ∧
      (enableCircuitBreakerRule env memStorage ctx st (some req)).1.history = st.history) := by
  have hvalid := checkCircuitBreakerRuleParams_idOnly env req hid hlen
  constructor
  · intro hfound
    have hhas := memStorage_has_found st.store req.Id hread hfound
    rw [enableCircuitBreakerRule_enabled env memStorage ctx st req
      { st.store with rules := st.store.rules.map (fun x =>
          if x.ID = req.Id then
            { x with Enable := req.Enable, Revision := env.uuid st.uuidCount,
                     EnableTime := if req.Enable then st.store.now else Time.zero }
          else x) } hvalid hhas
      (by simp [memStorage, MemStore.EnableCircuitBreakerRule, hwrite, enabledRule])]
    refine ⟨rfl, rfl, ?_⟩
    simp only [List.map_map]
    apply List.map_congr_left
    intro x _
    simp only [Function.comp]
    split <;> rfl
  · intro hmissing
    have hhas := memStorage_has_missing st.store req.Id hread hmissing
    rw [enableCircuitBreakerRule_notFound env memStorage ctx st req hvalid hhas]
    exact ⟨rfl, rfl, rfl⟩

/-- Witness of C10: switching on the stored rule `uu`, and enabling the unknown id `zz`. -/
theorem enable_outcomes_witness :
    (enableCircuitBreakerRule sampleEnv memStorage sampleCtx oneRuleState
      (some { ApiRule.empty with Id := "uu", Enable := true })).2.code
        = Code.ExecuteSuccess ∧
    (enableCircuitBreakerRule sampleEnv memStorage sampleCtx oneRuleState
      (some { ApiRule.empty with Id := "zz", Enable := true })).2.code
        = Code.NotFoundCircuitBreaker :=
  ⟨((enable_outcomes sampleEnv sampleCtx oneRuleState
      { ApiRule.empty with Id := "uu", Enable := true } (by decide) (by decide) rfl rfl).1
        (by decide)).1,
    ((enable_outcomes sampleEnv sampleCtx oneRuleState
      { ApiRule.empty with Id := "zz", Enable := true } (by decide) (by decide) rfl rfl).2
        (by decide)).1⟩

/-! ## The sample codec reads back what it writes -/

theorem beforeSep_append (sep : Char) (l r : List Char) (h : sep ∉ l) :
    beforeSep sep (l ++ sep :: r) = l := by
  induction l with
  | nil => simp [beforeSep]
  | cons c cs ih =>
    have hc : c ≠ sep := fun hcs => h (hcs ▸ List.mem_cons_self _ _)
    have hcs : sep ∉ cs := fun hm => h (List.mem_cons_of_mem _ hm)
    simp [beforeSep, hc, ih hcs]

theorem afterSep_append (sep : Char) (l r : List Char) (h : sep ∉ l) :
    afterSep sep (l ++ sep :: r) = r := by
  induction l with
  | nil => simp [afterSep]
  | cons c cs ih =>
    have hc : c ≠ sep := fun hcs => h (hcs ▸ List.mem_cons_self _ _)
    have hcs : sep ∉ cs := fun hm => h (List.mem_cons_of_mem _ hm)
    simp [afterSep, hc, ih hcs]

theorem sampleRead_sampleText (m : ApiRule) (h : sampleWritable m = true) :
    (sampleRead (sampleText m)).Id = m.Id ∧ (sampleRead (sampleText m)).Name = m.Name := by
  have hsep : Char.ofNat 47 ∉ m.Id.data := by
    simpa [sampleWritable] using h
  simp only [sampleRead, sampleText]
  rw [beforeSep_append _ _ _ hsep, afterSep_append _ _ _ hsep]
  exact ⟨rfl, rfl⟩

theorem sampleCodec_any (m : ApiRule) (a : AnyData) (m1 : ApiRule)
    (hp : sampleCodec.packAny m = .ok a) (hu : sampleCodec.unpackAny a = .ok m1) :
    m1.Id = m.Id ∧ m1.Name = m.Name := by
  simp only [sampleCodec] at hp hu
  by_cases hw : sampleWritable m = true
  · simp only [hw, if_true, Except.ok.injEq] at hp hu
    subst hp
    subst hu
    exact sampleRead_sampleText m hw
  · simp [hw] at hp

theorem sampleCodec_yaml (m : ApiRule) (y : String) (m1 : ApiRule)
    (hp : sampleCodec.yamlMarshal m = .ok y) (hu : sampleCodec.yamlUnmarshal y = .ok m1) :
    m1.Id = m.Id ∧ m1.Name = m.Name := by
  simp only [sampleCodec] at hp hu
  by_cases hw : sampleWritable m = true
  · simp only [hw, if_true, Except.ok.injEq] at hp
    subst hp
    by_cases hbad : sampleText m = "bad"
    · simp [hbad] at hu
    · simp only [hbad, if_false, Except.ok.injEq] at hu
      subst hu
      exact sampleRead_sampleText m hw
  · simp [hw] at hp

/-! ## Queries (C11, C12) -/

theorem buildSearchFilter_rejects (query : List (String × String))
    (h : ∃ kv ∈ query, kv.1 ∉ CircuitBreakerRuleFilters) (acc : List (String × String)) :
    buildSearchFilter query acc = none := by
  induction query generalizing acc with
  | nil => obtain ⟨kv, hkv, _⟩ := h; simp at hkv
  | cons x xs ih =>
    obtain ⟨key, value⟩ := x
    by_cases hk : key ∈ CircuitBreakerRuleFilters
    · have hrest : ∃ kv ∈ xs, kv.1 ∉ CircuitBreakerRuleFilters := by
        obtain ⟨kv, hkv, hbad⟩ := h
        rcases List.mem_cons.mp hkv with hkv | hkv
        · subst hkv; exact absurd hk hbad
        · exact ⟨kv, hkv, hbad⟩
      have hc : CircuitBreakerRuleFilters.contains key = true := by simpa using hk
      unfold buildSearchFilter
      by_cases hv : value = ""
      · simp [hc, hv, ih hrest]
      · simp [hc, hv, ih hrest]
    · unfold buildSearchFilter
      simp [hk]

theorem GetCircuitBreakerRules_parseFailed {σ : Type} (env : Env) (codec : Codec)
    (S : Storage σ) (ctx : Context) (st : ServerState σ) (query : List (String × String))
    (err : String) (hparse : codec.ParseOffsetAndLimit query = .error err) :
    GetCircuitBreakerRules env codec S ctx st query
      = (st, NewBatchQueryResponse env Code.InvalidParameter) := by
  unfold GetCircuitBreakerRules
  rw [hparse]

theorem GetCircuitBreakerRules_rejected {σ : Type} (env : Env) (codec : Codec)
    (S : Storage σ) (ctx : Context) (st : ServerState σ) (query : List (String × String))
    (paging : Paging) (hparse : codec.ParseOffsetAndLimit query = .ok paging)
    (hfilter : buildSearchFilter paging.query [] = none) :
    GetCircuitBreakerRules env codec S ctx st query
      = (st, NewBatchQueryResponse env Code.InvalidParameter) := by
  unfold GetCircuitBreakerRules
  rw [hparse]
  simp only [hfilter]

theorem GetCircuitBreakerRules_listFailed {σ : Type} (env : Env) (codec : Codec)
    (S : Storage σ) (ctx : Context) (st : ServerState σ) (query : List (String × String))
    (paging : Paging) (searchFilter : List (String × String)) (err : StoreError)
    (hparse : codec.ParseOffsetAndLimit query = .ok paging)
    (hfilter : buildSearchFilter paging.query [] = some searchFilter)
    (hlist : S.GetCircuitBreakerRules st.store searchFilter paging.offset paging.limit
      = .error err) :
    GetCircuitBreakerRules env codec S ctx st query
      = ({ st with calls := st.calls ++
            [StorageCall.Get searchFilter paging.offset paging.limit] },
          NewBatchQueryResponse env (env.StoreCode2APICode err)) := by
  unfold GetCircuitBreakerRules
  rw [hparse]
  simp only [hfilter, ServerState.noteCall, hlist]

theorem GetCircuitBreakerRules_listed {σ : Type} (env : Env) (codec : Codec)
    (S : Storage σ) (ctx : Context) (st : ServerState σ) (query : List (String × String))
    (paging : Paging) (searchFilter : List (String × String)) (total : Nat)
    (page : List CircuitBreakerRule)
    (hparse : codec.ParseOffsetAndLimit query = .ok paging)
    (hfilter : buildSearchFilter paging.query [] = some searchFilter)
    (hlist : S.GetCircuitBreakerRules st.store searchFilter paging.offset paging.limit
      = .ok (total, page)) :
    GetCircuitBreakerRules env codec S ctx st query
      = ({ st with calls := st.calls ++
            [StorageCall.Get searchFilter paging.offset paging.limit] },
          collectRules codec page
            { NewBatchQueryResponse env Code.ExecuteSuccess with
              amount := total, size := page.length }) := by
  unfold GetCircuitBreakerRules
  rw [hparse]
  simp only [hfilter, ServerState.noteCall, hlist]

theorem collectRules_spec (codec : Codec) (page : List CircuitBreakerRule)
    (out : BatchQueryResponse) :
    collectRules codec page out
      = { out with data := out.data ++ page.filterMap (payloadOf codec) } := by
  induction page generalizing out with
  | nil => simp [collectRules]
  | cons r rs ih =>
    unfold collectRules
    cases hc : circuitBreakerRule2api codec (some r) with
    | error e => simp [ih, payloadOf, hc]
    | ok o =>
      cases o with
      | none => simp [ih, payloadOf, hc]
      | some m =>
        cases hp : codec.packAny m with
        | error e => simp [ih, payloadOf, hc, hp, AddAnyDataIntoBatchQuery]
        | ok a => simp [ih, payloadOf, hc, hp, AddAnyDataIntoBatchQuery]

/-- C11: a query map whose offset and limit parse and that holds a key outside
`CircuitBreakerRuleFilters` is answered with `InvalidParameter` and nothing else, and the
server state, the trace of storage calls included, is returned unchanged: the storage
listing is not called.  The map the loop visits is the one `ParseOffsetAndLimit` leaves,
in any order; the parser may drop the offset and limit entries only. -/
theorem query_rejects_unknown_key {σ : Type} (env : Env) (codec : Codec) (S : Storage σ)
    (ctx : Context) (st : ServerState σ) (query : List (String × String)) (paging : Paging)
    (hparse : codec.ParseOffsetAndLimit query = .ok paging)
    (hkeep : ∀ kv ∈ query, kv.1 ≠ "offset" → kv.1 ≠ "limit" → kv ∈ paging.query)
    (hbad : ∃ kv ∈ query, kv.1 ∉ CircuitBreakerRuleFilters) :
    (GetCircuitBreakerRules env codec S ctx st query).2
      = NewBatchQueryResponse env Code.InvalidParameter ∧
    (GetCircuitBreakerRules env codec S ctx st query).2.code = Code.InvalidParameter ∧
    (GetCircuitBreakerRules env codec S ctx st query).1 = st := by
  have hfilter : buildSearchFilter paging.query [] = none := by
    apply buildSearchFilter_rejects
    obtain ⟨kv, hkv, hk⟩ := hbad
    refine ⟨kv, hkeep kv hkv ?_ ?_, hk⟩
    · intro h; apply hk; rw [h]; decide
    · intro h; apply hk; rw [h]; decide
  rw [GetCircuitBreakerRules_rejected env codec S ctx st query paging hparse hfilter]
  exact ⟨rfl, rfl, rfl⟩

/-- Witness of C11: a valid id filter and a valid offset next to the key `bogus`. -/
theorem query_rejects_unknown_key_witness :
    (GetCircuitBreakerRules sampleEnv sampleCodec memStorage sampleCtx twoRuleState
      [("id", "uu"), ("bogus", "1"), ("offset", "3")]).2.code = Code.InvalidParameter ∧
    (GetCircuitBreakerRules sampleEnv sampleCodec memStorage sampleCtx twoRuleState
      [("id", "uu"), ("bogus", "1"), ("offset", "3")]).1 = twoRuleState :=
  ⟨(query_rejects_unknown_key sampleEnv sampleCodec memStorage sampleCtx twoRuleState
      [("id", "uu"), ("bogus", "1"), ("offset", "3")]
      { offset := 3, limit := 100, query := [("id", "uu"), ("bogus", "1")] }
      rfl (by decide) (by decide)).2.1,
    (query_rejects_unknown_key sampleEnv sampleCodec memStorage sampleCtx twoRuleState
      [("id", "uu"), ("bogus", "1"), ("offset", "3")]
      { offset := 3, limit := 100, query := [("id", "uu"), ("bogus", "1")] }
      rfl (by decide) (by decide)).2.2⟩

theorem payloadOf_some_iff (codec : Codec) (r : CircuitBreakerRule) (a : AnyData) :
    payloadOf codec r = some a ↔
      ∃ m, circuitBreakerRule2api codec (some r) = .ok (some m) ∧ codec.packAny m = .ok a := by
  unfold payloadOf
  cases hc : circuitBreakerRule2api codec (some r) with
  | error e => simp
  | ok o =>
    cases o with
    | none => simp
    | some m =>
      cases hp : codec.packAny m with
      | error e => simp [hp]
      | ok b => simp [hp]

theorem filterMap_payloadOf_forall₂ (codec : Codec) (page : List CircuitBreakerRule)
    (hall : ∀ r ∈ page, (payloadOf codec r).isSome) :
    List.Forall₂ (fun r a => payloadOf codec r = some a)
      page (page.filterMap (payloadOf codec)) := by
  induction page with
  | nil => exact List.Forall₂.nil
  | cons r rs ih =>
    obtain ⟨a, ha⟩ := Option.isSome_iff_exists.mp (hall r (List.mem_cons_self _ _))
    rw [List.filterMap_cons_some ha]
    exact List.Forall₂.cons ha (ih (fun x hx => hall x (List.mem_cons_of_mem _ hx)))

/-- C12 (amended): for an accepted query on which the storage listing succeeds with
`(total, page)`, every rule of the page having an external representation that packs, the
response is a success whose total match count is `total`, whose page size is the number of
its payloads, and whose payloads are the packed external representations of the rules of
the page, one per rule and in the order of the page.  The listing is the one storage call
made and the store is not changed. -/
theorem query_returns_page {σ : Type} (env : Env) (codec : Codec) (S : Storage σ)
    (ctx : Context) (st : ServerState σ) (query : List (String × String)) (paging : Paging)
    (searchFilter : List (String × String)) (total : Nat) (page : List CircuitBreakerRule)
    (hparse : codec.ParseOffsetAndLimit query = .ok paging)
    (hfilter : buildSearchFilter paging.query [] = some searchFilter)
    (hlist : S.GetCircuitBreakerRules st.store searchFilter paging.offset paging.limit
      = .ok (total, page))
    (hall : ∀ r ∈ page, (payloadOf codec r).isSome) :
    (GetCircuitBreakerRules env codec S ctx st query).2.code = Code.ExecuteSuccess ∧
    (GetCircuitBreakerRules env codec S ctx st query).2.amount = total ∧
    (GetCircuitBreakerRules env codec S ctx st query).2.size
      = (GetCircuitBreakerRules env codec S ctx st query).2.data.length ∧
    List.Forall₂
      (fun r a => ∃ m, circuitBreakerRule2api codec (some r) = .ok (some m) ∧
        codec.packAny m = .ok a)
      page (GetCircuitBreakerRules env codec S ctx st query).2.data ∧
    (GetCircuitBreakerRules env codec S ctx st query).1.calls
      = st.calls ++ [StorageCall.Get searchFilter paging.offset paging.limit] ∧
    (GetCircuitBreakerRules env codec S ctx st query).1.store = st.store := by
  have hforall := filterMap_payloadOf_forall₂ codec page hall
  rw [GetCircuitBreakerRules_listed env codec S ctx st query paging searchFilter total page
    hparse hfilter hlist, collectRules_spec]
  refine ⟨rfl, rfl, ?_, ?_, rfl, rfl⟩
  · simp only [NewBatchQueryResponse, List.nil_append]
    exact hforall.length_eq
  · simp only [NewBatchQueryResponse, List.nil_append]
    exact hforall.imp (fun r a h => (payloadOf_some_iff codec r a).mp h)

/-- Witness of C12: the rule `uu` queried by id on a store of two rules. -/
theorem query_returns_page_witness :
    (GetCircuitBreakerRules sampleEnv sampleCodec memStorage sampleCtx twoRuleState
      [("id", "uu")]).2.amount = 1 ∧
    (GetCircuitBreakerRules sampleEnv sampleCodec memStorage sampleCtx twoRuleState
      [("id", "uu")]).2.size = 1 ∧
    (GetCircuitBreakerRules sampleEnv sampleCodec memStorage sampleCtx twoRuleState
      [("id", "uu")]).2.data
        = [{ TypeUrl := "type.googleapis.com/v1.CircuitBreakerRule", Value := "uu/r1" }] :=
  ⟨(query_returns_page sampleEnv sampleCodec memStorage sampleCtx twoRuleState
      [("id", "uu")] { offset := 0, limit := 100, query := [("id", "uu")] }
      [("id", "uu")] 1 (twoRuleState.store.rules.take 1) rfl rfl rfl
      (by decide)).2.1,
    by decide, by decide⟩

/-! ## Export (C13, C14) -/

theorem exportEntries_error_code (env : Env) (codec : Codec) (data : List AnyData)
    (w : List ZipEntry) (resp : BatchQueryResponse)
    (h : exportEntries env codec data w = .error resp) :
    resp.code = Code.ParseException ∧ resp.data = [] := by
  induction data generalizing w with
  | nil => simp [exportEntries] at h
  | cons a rest ih =>
    unfold exportEntries at h
    cases hu : codec.unpackAny a with
    | error e =>
      simp only [hu] at h
      cases h
      exact ⟨rfl, rfl⟩
    | ok msg =>
      simp only [hu] at h
      cases hy : codec.yamlMarshal msg with
      | error e =>
        simp only [hy] at h
        cases h
        exact ⟨rfl, rfl⟩
      | ok byMsg =>
        simp only [hy] at h
        cases hc : codec.zipCreate (entryName msg.Name) with
        | some e =>
          simp only [hc] at h
          cases h
          exact ⟨rfl, rfl⟩
        | none =>
          simp only [hc] at h
          cases hw : codec.zipWrite byMsg with
          | some e =>
            simp only [hw] at h
            cases h
            exact ⟨rfl, rfl⟩
          | none =>
            simp only [hw] at h
            exact ih _ h

theorem exportEntries_ok (env : Env) (codec : Codec) (data : List AnyData)
    (w w1 : List ZipEntry) (h : exportEntries env codec data w = .ok w1) :
    ∃ es, w1 = w ++ es ∧ List.Forall₂ (EntryOf codec) data es := by
  induction data generalizing w with
  | nil =>
    simp only [exportEntries, Except.ok.injEq] at h
    exact ⟨[], by simp [h], List.Forall₂.nil⟩
  | cons a rest ih =>
    unfold exportEntries at h
    cases hu : codec.unpackAny a with
    | error e => simp [hu] at h
    | ok msg =>
      simp only [hu] at h
      cases hy : codec.yamlMarshal msg with
      | error e => simp [hy] at h
      | ok byMsg =>
        simp only [hy] at h
        cases hc : codec.zipCreate (entryName msg.Name) with
        | some e => simp [hc] at h
        | none =>
          simp only [hc] at h
          cases hw : codec.zipWrite byMsg with
          | some e => simp [hw] at h
          | none =>
            simp only [hw] at h
            obtain ⟨es, hes, hall⟩ := ih _ h
            refine ⟨{ Name := entryName msg.Name, content := byMsg } :: es, ?_, ?_⟩
            · rw [hes]; simp
            · exact List.Forall₂.cons ⟨msg, hu, hy, rfl, hc, hw⟩ hall

theorem ExportCircuitBreakerRules_state {σ : Type} (env : Env) (codec : Codec)
    (S : Storage σ) (ctx : Context) (st : ServerState σ) (query : List (String × String)) :
    (ExportCircuitBreakerRules env codec S ctx st query).1
      = (GetCircuitBreakerRules env codec S ctx st query).1 := by
  unfold ExportCircuitBreakerRules
  simp only
  split
  · rfl
  · split
    · rfl
    · split <;> rfl

/-- C13: with `ret` the response of the underlying `GetCircuitBreakerRules` call.  When
`ret` is not a success the export returns a non-success response (`InvalidParameter` with
the info text of `ret`) and writes no archive; when `ret` is a success without payload
the export returns `NotFoundCircuitBreaker`; and the export returns success only when
`ret` is a success with at least one payload, its info text then being the archive of
the entries written. -/
theorem export_outcomes {σ : Type} (env : Env) (codec : Codec) (S : Storage σ)
    (ctx : Context) (st : ServerState σ) (query : List (String × String)) :
    ((GetCircuitBreakerRules env codec S ctx st query).2.code ≠ Code.ExecuteSuccess →
      (ExportCircuitBreakerRules env codec S ctx st query).2.code ≠ Code.ExecuteSuccess ∧
      (ExportCircuitBreakerRules env codec S ctx st query).2
        = NewBatchQueryResponseWithMsg env Code.InvalidParameter
            (GetCircuitBreakerRules env codec S ctx st query).2.info) ∧
    ((GetCircuitBreakerRules env codec S ctx st query).2.code = Code.ExecuteSuccess →
      (GetCircuitBreakerRules env codec S ctx st query).2.data = [] →
      (ExportCircuitBreakerRules env codec S ctx st query).2
        = NewBatchQueryResponse env Code.NotFoundCircuitBreaker) ∧
    ((ExportCircuitBreakerRules env codec S ctx st query).2.code = Code.ExecuteSuccess →
      (GetCircuitBreakerRules env codec S ctx st query).2.code = Code.ExecuteSuccess ∧
      (GetCircuitBreakerRules env codec S ctx st query).2.data ≠ [] ∧
      ∃ w, exportEntries env codec
            (GetCircuitBreakerRules env codec S ctx st query).2.data [] = .ok w ∧
        (ExportCircuitBreakerRules env codec S ctx st query).2.info = codec.zipBytes w) := by
  refine ⟨?_, ?_, ?_⟩
  · intro hfail
    unfold ExportCircuitBreakerRules
    simp [hfail, NewBatchQueryResponseWithMsg]
  · intro hok hempty
    unfold ExportCircuitBreakerRules
    simp [hok, hempty]
  · intro hsucc
    unfold ExportCircuitBreakerRules at hsucc ⊢
    simp only at hsucc ⊢
    by_cases hcode : (GetCircuitBreakerRules env codec S ctx st query).2.code
        = Code.ExecuteSuccess
    · by_cases hlen : (GetCircuitBreakerRules env codec S ctx st query).2.data.length = 0
      · simp [hcode, hlen, NewBatchQueryResponse] at hsucc
      · have hne : (GetCircuitBreakerRules env codec S ctx st query).2.data ≠ [] := by
          intro h; apply hlen; rw [h]; rfl
        simp only [hcode, ne_eq, not_true_eq_false, if_false, hlen] at hsucc ⊢
        cases hw : exportEntries env codec
            (GetCircuitBreakerRules env codec S ctx st query).2.data [] with
        | error resp =>
          simp only [hw] at hsucc
          have := (exportEntries_error_code env codec _ _ resp hw).1
          rw [this] at hsucc
          exact absurd hsucc (by decide)
        | ok w => exact ⟨trivial, hne, w, rfl, rfl⟩
    · simp [hcode, NewBatchQueryResponseWithMsg] at hsucc

/-- Witness of C13: a rejected query, a query without match and a query with two matches. -/
theorem export_outcomes_witness :
    (ExportCircuitBreakerRules sampleEnv sampleCodec memStorage sampleCtx twoRuleState
      [("bogus", "1")]).2.code = Code.InvalidParameter ∧
    (ExportCircuitBreakerRules sampleEnv sampleCodec memStorage sampleCtx twoRuleState
      [("id", "zz")]).2.code = Code.NotFoundCircuitBreaker ∧
    (GetCircuitBreakerRules sampleEnv sampleCodec memStorage sampleCtx twoRuleState
      []).2.data ≠ [] :=
  ⟨congrArg BatchQueryResponse.code
      ((export_outcomes sampleEnv sampleCodec memStorage sampleCtx twoRuleState
        [("bogus", "1")]).1 (by decide)).2,
    congrArg BatchQueryResponse.code
      ((export_outcomes sampleEnv sampleCodec memStorage sampleCtx twoRuleState
        [("id", "zz")]).2.1 (by decide) (by decide)),
    ((export_outcomes sampleEnv sampleCodec memStorage sampleCtx twoRuleState
        []).2.2 (by decide)).2.1⟩

theorem circuitBreakerRule2api_identity (codec : Codec) (r : CircuitBreakerRule) (m : ApiRule)
    (h : circuitBreakerRule2api codec (some r) = .ok (some m)) :
    m.Id = r.ID ∧ m.Name = r.Name ∧ m.Namespace = r.Namespace ∧ m.Revision = r.Revision := by
  unfold circuitBreakerRule2api at h
  simp only at h
  split at h
  · simp at h
  · simp only [Except.ok.injEq, Option.some.injEq] at h
    rw [← h]
    exact ⟨rfl, rfl, rfl, rfl⟩

theorem forall₂_names (codec : Codec)
    (hname : ∀ m a m1, codec.packAny m = .ok a → codec.unpackAny a = .ok m1 →
      m1.Name = m.Name)
    (page : List CircuitBreakerRule) (data : List AnyData) (w : List ZipEntry)
    (h1 : List.Forall₂ (fun r a => payloadOf codec r = some a) page data)
    (h2 : List.Forall₂ (EntryOf codec) data w) :
    w.map (fun e => e.Name) = page.map (fun r => entryName r.Name) := by
  induction h1 generalizing w with
  | nil => cases h2; rfl
  | cons hra _ ih =>
    cases h2 with
    | cons hae hrest =>
      obtain ⟨m0, hm0, hpack⟩ := (payloadOf_some_iff codec _ _).mp hra
      obtain ⟨msg, hunpack, _, hen, _, _⟩ := hae
      have h3 := hname m0 _ msg hpack hunpack
      have h4 := (circuitBreakerRule2api_identity codec _ m0 hm0).2.1
      simp only [List.map_cons, List.cons.injEq]
      exact ⟨by rw [hen, h3, h4], ih _ hrest⟩

theorem ExportCircuitBreakerRules_success_inv {σ : Type} (env : Env) (codec : Codec)
    (S : Storage σ) (ctx : Context) (st : ServerState σ) (query : List (String × String))
    (hsucc : (ExportCircuitBreakerRules env codec S ctx st query).2.code
      = Code.ExecuteSuccess) :
    ∃ w, (GetCircuitBreakerRules env codec S ctx st query).2.data ≠ [] ∧
      exportEntries env codec (GetCircuitBreakerRules env codec S ctx st query).2.data []
        = .ok w ∧
      (ExportCircuitBreakerRules env codec S ctx st query).2.info = codec.zipBytes w := by
  unfold ExportCircuitBreakerRules at hsucc ⊢
  simp only at hsucc ⊢
  by_cases hc : (GetCircuitBreakerRules env codec S ctx st query).2.code
      ≠ Code.ExecuteSuccess
  · simp [hc, NewBatchQueryResponseWithMsg] at hsucc
  · simp only [hc, if_false] at hsucc ⊢
    by_cases hd : (GetCircuitBreakerRules env codec S ctx st query).2.data.length = 0
    · simp [hd, NewBatchQueryResponse] at hsucc
    · simp only [hd, if_false] at hsucc ⊢
      cases he : exportEntries env codec
          (GetCircuitBreakerRules env codec S ctx st query).2.data [] with
      | error resp =>
        simp only [he] at hsucc
        have := (exportEntries_error_code env codec _ _ resp he).1
        rw [this] at hsucc
        exact absurd hsucc (by decide)
      | ok w =>
        refine ⟨w, ?_, rfl, ?_⟩
        · intro hnil
          exact hd (by rw [hnil]; rfl)
        · simp [NewBatchQueryResponseWithMsg]

theorem filterMap_payloadOf_filter (codec : Codec) (page : List CircuitBreakerRule) :
    List.Forall₂ (fun r a => payloadOf codec r = some a)
      (page.filter (fun r => (payloadOf codec r).isSome))
      (page.filterMap (payloadOf codec)) := by
  induction page with
  | nil => exact List.Forall₂.nil
  | cons r rs ih =>
    cases hp : payloadOf codec r with
    | none =>
      rw [List.filterMap_cons_none hp]
      simpa [List.filter_cons, hp] using ih
    | some a =>
      rw [List.filterMap_cons_some hp]
      simp only [List.filter_cons, hp, Option.isSome_some, if_true]
      exact List.Forall₂.cons hp ih

/-- C14 (amended): a successful export returns as its archive the entries written for the
payloads of the underlying query, exactly one entry per payload and in their order, each
entry holding the transfer form of the rule and named `entryName` of the rule's name, a
function of the name alone.  The payloads are those of the rules of the returned page that
convert and pack: when unpacking a packed message gives back its name, the entry names are
the names of those rules, each followed by `.yaml`, in the order of the page; a rule of the
page that does not convert or pack, and a matched rule outside the page, has no entry. -/
theorem export_entries_named_by_rule_name {σ : Type} (env : Env) (codec : Codec)
    (S : Storage σ) (ctx : Context) (st : ServerState σ) (query : List (String × String))
    (hsucc : (ExportCircuitBreakerRules env codec S ctx st query).2.code
      = Code.ExecuteSuccess) :
    ∃ w, (ExportCircuitBreakerRules env codec S ctx st query).2.info = codec.zipBytes w ∧
      List.Forall₂ (EntryOf codec)
        (GetCircuitBreakerRules env codec S ctx st query).2.data w ∧
      w.length = (GetCircuitBreakerRules env codec S ctx st query).2.data.length ∧
      (∀ (paging : Paging) (searchFilter : List (String × String)) (total : Nat)
          (page : List CircuitBreakerRule),
        codec.ParseOffsetAndLimit query = .ok paging →
        buildSearchFilter paging.query [] = some searchFilter →
        S.GetCircuitBreakerRules st.store searchFilter paging.offset paging.limit
          = .ok (total, page) →
        (∀ m a m1, codec.packAny m = .ok a → codec.unpackAny a = .ok m1 →
          m1.Name = m.Name) →
        w.map (fun e => e.Name)
          = (page.filter (fun r => (payloadOf codec r).isSome)).map
              (fun r => entryName r.Name)) := by
  obtain ⟨w, _, hw, hinfo⟩ :=
    ExportCircuitBreakerRules_success_inv env codec S ctx st query hsucc
  obtain ⟨es, hes, hall⟩ := exportEntries_ok env codec _ [] w hw
  simp only [List.nil_append] at hes
  subst hes
  refine ⟨w, hinfo, hall, hall.length_eq.symm, ?_⟩
  intro paging searchFilter total page hparse hfilter hlist hname
  have hdata : (GetCircuitBreakerRules env codec S ctx st query).2.data
      = page.filterMap (payloadOf codec) := by
    rw [GetCircuitBreakerRules_listed env codec S ctx st query paging searchFilter total page
      hparse hfilter hlist, collectRules_spec]
    simp [NewBatchQueryResponse]
  have h1 := filterMap_payloadOf_filter codec page
  rw [← hdata] at h1
  exact forall₂_names codec hname _ _ w h1 hall

/-- Witness of C14: the export of the two rules `r1` and `r2`. -/
theorem export_entries_named_by_rule_name_witness :
    (ExportCircuitBreakerRules sampleEnv sampleCodec memStorage sampleCtx twoRuleState
      []).2.code = Code.ExecuteSuccess ∧
    ∃ w, (ExportCircuitBreakerRules sampleEnv sampleCodec memStorage sampleCtx twoRuleState
        []).2.info = sampleCodec.zipBytes w ∧
      w.map (fun e => e.Name) = ["r1.yaml", "r2.yaml"] :=
  ⟨by decide,
    (export_entries_named_by_rule_name sampleEnv sampleCodec memStorage sampleCtx
      twoRuleState [] (by decide)).elim (fun w h =>
        ⟨w, h.1, h.2.2.2 { offset := 0, limit := 100, query := [] } [] 2
          twoRuleState.store.rules rfl rfl rfl
          (fun m a m1 hp hu => (sampleCodec_any m a m1 hp hu).2)⟩)⟩

/-- Counterexample to C14 as stated: on a store holding a rule whose payload does not decode
and the rule `r1`, the empty query matches two rules and the export succeeds with an
archive of one entry, that of `r1`; and on a store of two rules the query with limit 1
matches two rules and the export succeeds with an archive of one entry. -/
theorem export_omits_matched_rules :
    memStorage.GetCircuitBreakerRules brokenAndGoodState.store [] 0 100
      = .ok (2, brokenAndGoodState.store.rules) ∧
    brokenAndGoodState.store.rules.length = 2 ∧
    (GetCircuitBreakerRules sampleEnv sampleCodec memStorage sampleCtx brokenAndGoodState
      []).2.amount = 2 ∧
    (ExportCircuitBreakerRules sampleEnv sampleCodec memStorage sampleCtx brokenAndGoodState
      []).2.code = Code.ExecuteSuccess ∧
    (ExportCircuitBreakerRules sampleEnv sampleCodec memStorage sampleCtx brokenAndGoodState
      []).2.info = sampleCodec.zipBytes [{ Name := "r1.yaml", content := "uu/r1" }] ∧
    (GetCircuitBreakerRules sampleEnv sampleCodec memStorage sampleCtx twoRuleState
      [("limit", "1")]).2.amount = 2 ∧
    (ExportCircuitBreakerRules sampleEnv sampleCodec memStorage sampleCtx twoRuleState
      [("limit", "1")]).2.code = Code.ExecuteSuccess ∧
    (ExportCircuitBreakerRules sampleEnv sampleCodec memStorage sampleCtx twoRuleState
      [("limit", "1")]).2.info
      = sampleCodec.zipBytes [{ Name := "r1.yaml", content := "uu/r1" }] := by
  refine ⟨rfl, rfl, by decide, by decide, by decide, by decide, by decide, by decide⟩

/-! ## Import (C15, C16, C17) -/

theorem GetCircuitBreakerRules_frame {σ : Type} (env : Env) (codec : Codec) (S : Storage σ)
    (ctx : Context) (st : ServerState σ) (query : List (String × String)) :
    SameButCalls st (GetCircuitBreakerRules env codec S ctx st query).1 := by
  unfold GetCircuitBreakerRules SameButCalls
  cases codec.ParseOffsetAndLimit query with
  | error e => exact ⟨rfl, rfl, rfl⟩
  | ok paging =>
    simp only
    cases buildSearchFilter paging.query [] with
    | none => exact ⟨rfl, rfl, rfl⟩
    | some f =>
      simp only [ServerState.noteCall]
      cases S.GetCircuitBreakerRules st.store f paging.offset paging.limit with
      | error e => exact ⟨rfl, rfl, rfl⟩
      | ok p => exact ⟨rfl, rfl, rfl⟩

theorem GetCircuitBreakerRules_response_congr {σ : Type} (env : Env) (codec : Codec)
    (S : Storage σ) (ctx : Context) (st st1 : ServerState σ)
    (query : List (String × String)) (h : st1.store = st.store) :
    (GetCircuitBreakerRules env codec S ctx st1 query).2
      = (GetCircuitBreakerRules env codec S ctx st query).2 := by
  unfold GetCircuitBreakerRules
  cases codec.ParseOffsetAndLimit query with
  | error e => rfl
  | ok paging =>
    simp only
    cases buildSearchFilter paging.query [] with
    | none => rfl
    | some f =>
      simp only [ServerState.noteCall, h]
      cases S.GetCircuitBreakerRules st.store f paging.offset paging.limit with
      | error e => rfl
      | ok p => rfl

theorem SameButCalls.trans {σ : Type} {a b c : ServerState σ} (h1 : SameButCalls a b)
    (h2 : SameButCalls b c) : SameButCalls a c :=
  ⟨h2.1.trans h1.1, h2.2.1.trans h1.2.1, h2.2.2.trans h1.2.2⟩

theorem probedNew_congr {σ : Type} (env : Env) (codec : Codec) (S : Storage σ)
    (ctx : Context) (st st1 : ServerState σ) (h : st1.store = st.store) (rule : ApiRule) :
    probedNew env codec S ctx st1 rule = probedNew env codec S ctx st rule := by
  unfold probedNew probeAmount
  rw [GetCircuitBreakerRules_response_congr env codec S ctx st st1 _ h]

theorem importEntries_spec {σ : Type} (env : Env) (codec : Codec) (S : Storage σ)
    (ctx : Context) (files : List ZipFile) (vars : ImportVars σ) :
    SameButCalls vars.state (importEntries env codec S ctx files vars).state ∧
    (importEntries env codec S ctx files vars).news
      = vars.news ++ (files.filterMap (readable codec)).filter
          (fun r => probedNew env codec S ctx vars.state r) ∧
    (importEntries env codec S ctx files vars).existing
      = vars.existing ++ (files.filterMap (readable codec)).filter
          (fun r => !probedNew env codec S ctx vars.state r) := by
  induction files generalizing vars with
  | nil => simp [importEntries, SameButCalls]
  | cons file rest ih =>
    unfold importEntries
    cases ho : file.openErr with
    | some e =>
      simp only
      have := ih vars
      simpa [readable, ho] using this
    | none =>
      simp only
      cases hb : file.body with
      | error e =>
        simp only
        have := ih vars
        simpa [readable, ho, hb] using this
      | ok byData =>
        simp only
        cases hy : codec.yamlUnmarshal byData with
        | error e =>
          simp only
          have := ih vars
          simpa [readable, ho, hb, hy] using this
        | ok rule =>
          simp only
          have hframe := GetCircuitBreakerRules_frame env codec S ctx vars.state
            [("id", rule.Id)]
          have hr : readable codec file = some rule := by simp [readable, ho, hb, hy]
          rw [List.filterMap_cons_some hr]
          by_cases hnew : (GetCircuitBreakerRules env codec S ctx vars.state
              [("id", rule.Id)]).2.amount = 0
          · have hp : probedNew env codec S ctx vars.state rule = true := by
              simp [probedNew, probeAmount, hnew]
            simp only [hnew, if_true]
            obtain ⟨h1, h2, h3⟩ := ih
              { vars with
                state := (GetCircuitBreakerRules env codec S ctx vars.state
                  [("id", rule.Id)]).1,
                news := vars.news ++ [rule] }
            refine ⟨hframe.trans h1, ?_, ?_⟩
            · rw [h2]
              simp only [List.filter_cons, hp, if_true, List.append_assoc,
                List.singleton_append]
              congr 2
              apply List.filter_congr
              intro r _
              exact probedNew_congr env codec S ctx vars.state _ hframe.1 r
            · rw [h3]
              simp only [List.filter_cons, hp, Bool.not_true, Bool.false_eq_true, if_false]
              congr 1
              apply List.filter_congr
              intro r _
              rw [probedNew_congr env codec S ctx vars.state _ hframe.1 r]
          · have hp : probedNew env codec S ctx vars.state rule = false := by
              simp [probedNew, probeAmount, hnew]
            simp only [hnew, if_false]
            obtain ⟨h1, h2, h3⟩ := ih
              { vars with
                state := (GetCircuitBreakerRules env codec S ctx vars.state
                  [("id", rule.Id)]).1,
                existing := vars.existing ++ [rule] }
            refine ⟨hframe.trans h1, ?_, ?_⟩
            · rw [h2]
              simp only [List.filter_cons, hp, Bool.false_eq_true, if_false]
              congr 1
              apply List.filter_congr
              intro r _
              exact probedNew_congr env codec S ctx vars.state _ hframe.1 r
            · rw [h3]
              simp only [List.filter_cons, hp, Bool.not_false, if_true, List.append_assoc,
                List.singleton_append]
              congr 2
              apply List.filter_congr
              intro r _
              rw [probedNew_congr env codec S ctx vars.state _ hframe.1 r]

theorem importFiles_spec {σ : Type} (env : Env) (codec : Codec) (S : Storage σ)
    (ctx : Context) (configFiles : List (Option ConfigFile)) (vars : ImportVars σ) :
    SameButCalls vars.state (importFiles env codec S ctx configFiles vars).state ∧
    (importFiles env codec S ctx configFiles vars).news
      = vars.news ++ (wellFormedEntries codec configFiles).filter
          (fun r => probedNew env codec S ctx vars.state r) ∧
    (importFiles env codec S ctx configFiles vars).existing
      = vars.existing ++ (wellFormedEntries codec configFiles).filter
          (fun r => !probedNew env codec S ctx vars.state r) := by
  induction configFiles generalizing vars with
  | nil => simp [importFiles, wellFormedEntries, SameButCalls]
  | cons file rest ih =>
    unfold importFiles
    cases hz : codec.zipNewReader (ConfigFile.contentValue file) with
    | error e =>
      simp only
      have := ih vars
      simpa [wellFormedEntries, sourceEntries, hz] using this
    | ok zr =>
      simp only
      obtain ⟨e1, e2, e3⟩ := importEntries_spec env codec S ctx zr vars
      obtain ⟨h1, h2, h3⟩ := ih (importEntries env codec S ctx zr vars)
      refine ⟨e1.trans h1, ?_, ?_⟩
      · rw [h2, e2]
        simp only [wellFormedEntries, sourceEntries, hz, List.filter_append,
          List.append_assoc]
        congr 2
        apply List.filter_congr
        intro r _
        exact probedNew_congr env codec S ctx vars.state _ e1.1 r
      · rw [h3, e3]
        simp only [wellFormedEntries, sourceEntries, hz, List.filter_append,
          List.append_assoc]
        congr 2
        apply List.filter_congr
        intro r _
        rw [probedNew_congr env codec S ctx vars.state _ e1.1 r]

theorem importEntries_append {σ : Type} (env : Env) (codec : Codec) (S : Storage σ)
    (ctx : Context) (pre post : List ZipFile) (vars : ImportVars σ) :
    importEntries env codec S ctx (pre ++ post) vars
      = importEntries env codec S ctx post (importEntries env codec S ctx pre vars) := by
  induction pre generalizing vars with
  | nil => rfl
  | cons file rest ih =>
    simp only [List.cons_append]
    conv_lhs => unfold importEntries
    conv_rhs => arg 6; unfold importEntries
    cases ho : file.openErr with
    | some e => exact ih vars
    | none =>
      simp only []
      cases hb : file.body with
      | error e => exact ih vars
      | ok byData =>
        simp only []
        cases hy : codec.yamlUnmarshal byData with
        | error e => exact ih vars
        | ok rule =>
          simp only []
          by_cases hnew : (GetCircuitBreakerRules env codec S ctx vars.state
              [("id", rule.Id)]).2.amount = 0
          · simp only [hnew, if_true]
            exact ih _
          · simp only [hnew, if_false]
            exact ih _

theorem importEntries_unreadable {σ : Type} (env : Env) (codec : Codec) (S : Storage σ)
    (ctx : Context) (bad : ZipFile) (rest : List ZipFile) (vars : ImportVars σ)
    (hbad : Unreadable codec bad) :
    importEntries env codec S ctx (bad :: rest) vars
      = importEntries env codec S ctx rest vars := by
  rw [importEntries]
  rcases hbad with h | ⟨e, h⟩ | ⟨byData, e, h1, h2⟩
  · cases ho : bad.openErr with
    | some e => rfl
    | none => exact absurd ho h
  · cases bad.openErr with
    | some e1 => rfl
    | none => simp only [h]
  · cases bad.openErr with
    | some e1 => rfl
    | none => simp only [h1, h2]

theorem importFiles_append {σ : Type} (env : Env) (codec : Codec) (S : Storage σ)
    (ctx : Context) (pre post : List (Option ConfigFile)) (vars : ImportVars σ) :
    importFiles env codec S ctx (pre ++ post) vars
      = importFiles env codec S ctx post (importFiles env codec S ctx pre vars) := by
  induction pre generalizing vars with
  | nil => rfl
  | cons file rest ih =>
    simp only [List.cons_append]
    conv_lhs => unfold importFiles
    conv_rhs => arg 6; unfold importFiles
    cases codec.zipNewReader (ConfigFile.contentValue file) with
    | error e => exact ih vars
    | ok zr => exact ih _

theorem filter_probe_perm (p : ApiRule → Bool) (l : List ApiRule) :
    List.Perm (l.filter p ++ l.filter (fun r => !p r)) l := by
  induction l with
  | nil => simp
  | cons a rest ih =>
    cases h : p a with
    | true => simpa [List.filter_cons, h] using ih
    | false =>
      simp only [List.filter_cons, h, Bool.false_eq_true, if_false, Bool.not_false, if_true]
      exact List.perm_middle.trans (List.Perm.cons a ih)

theorem importSubmit_cases {σ : Type} (env : Env) (S : Storage σ) (ctx : Context)
    (vars : ImportVars σ) :
    (vars.news ≠ [] → vars.existing = [] →
      importSubmit env S ctx vars
        = ((CreateCircuitBreakerRules env S ctx vars.state (vars.news.map some)).1,
            FormatBatchWriteResponse env
              (CreateCircuitBreakerRules env S ctx vars.state (vars.news.map some)).2)) ∧
    (vars.news = [] → vars.existing ≠ [] →
      importSubmit env S ctx vars
        = ((UpdateCircuitBreakerRules env S ctx vars.state (vars.existing.map some)).1,
            FormatBatchWriteResponse env
              (UpdateCircuitBreakerRules env S ctx vars.state
                (vars.existing.map some)).2)) ∧
    (vars.news ≠ [] → vars.existing ≠ [] →
      importSubmit env S ctx vars
        = ((UpdateCircuitBreakerRules env S ctx
              (CreateCircuitBreakerRules env S ctx vars.state (vars.news.map some)).1
              (vars.existing.map some)).1,
            FormatBatchWriteResponse env
              (UpdateCircuitBreakerRules env S ctx
                (CreateCircuitBreakerRules env S ctx vars.state (vars.news.map some)).1
                (vars.existing.map some)).2)) ∧
    (vars.news = [] → vars.existing = [] →
      importSubmit env S ctx vars = (vars.state, BatchWriteResponse.zero)) := by
  have hpos : ∀ l : List ApiRule, l ≠ [] → l.length > 0 :=
    fun l h => List.length_pos.mpr h
  refine ⟨?_, ?_, ?_, ?_⟩
  · intro hn he
    unfold importSubmit
    simp only [hpos _ hn, he, List.length_nil, gt_iff_lt, lt_self_iff_false, if_true,
      if_false]
  · intro hn he
    unfold importSubmit
    simp only [hpos _ he, hn, List.length_nil, gt_iff_lt, lt_self_iff_false, if_true,
      if_false]
  · intro hn he
    unfold importSubmit
    simp only [hpos _ hn, hpos _ he, gt_iff_lt, if_true]
  · intro hn he
    unfold importSubmit
    simp only [hn, he, List.length_nil, gt_iff_lt, lt_self_iff_false, if_false]

/-- C17: `ImportCircuitBreakerRules` never aborts on a bad input. A source that does not open
as an archive is skipped as a whole, and an archive member that cannot be opened, read or
deserialized is skipped alone: the import answers as if the source, or the member, were
absent. Every well-formed entry of every source is classified, as new when its probe
reports no match and as existing otherwise, in the order of the archives; the new and the
existing entries are, up to order, exactly the well-formed entries; reading the archives
changes neither the store, nor the history, nor the id counter.  The entries are then
submitted: when there are new entries, `CreateCircuitBreakerRules` runs on exactly the new
entries, on the state left by reading; when there are existing entries,
`UpdateCircuitBreakerRules` runs on exactly the existing entries, on the state left by the
create batch, or by reading when there is no new entry; the state the import returns is the
state left by the last batch run, and with no entry at all no batch runs. -/
theorem import_skips_bad_input {σ : Type} (env : Env) (codec : Codec) (S : Storage σ)
    (ctx : Context) (st : ServerState σ) (configFiles : List (Option ConfigFile)) :
    (classified env codec S ctx st configFiles).news
      = (wellFormedEntries codec configFiles).filter
          (fun r => probedNew env codec S ctx st r) ∧
    (classified env codec S ctx st configFiles).existing
      = (wellFormedEntries codec configFiles).filter
          (fun r => !probedNew env codec S ctx st r) ∧
    List.Perm ((classified env codec S ctx st configFiles).news
        ++ (classified env codec S ctx st configFiles).existing)
      (wellFormedEntries codec configFiles) ∧
    SameButCalls st (classified env codec S ctx st configFiles).state ∧
    ((classified env codec S ctx st configFiles).news ≠ [] →
      (classified env codec S ctx st configFiles).existing = [] →
      ImportCircuitBreakerRules env codec S ctx st configFiles
        = ((CreateCircuitBreakerRules env S ctx
              (classified env codec S ctx st configFiles).state
              ((classified env codec S ctx st configFiles).news.map some)).1,
            FormatBatchWriteResponse env
              (CreateCircuitBreakerRules env S ctx
                (classified env codec S ctx st configFiles).state
                ((classified env codec S ctx st configFiles).news.map some)).2)) ∧
    ((classified env codec S ctx st configFiles).news = [] →
      (classified env codec S ctx st configFiles).existing ≠ [] →
      ImportCircuitBreakerRules env codec S ctx st configFiles
        = ((UpdateCircuitBreakerRules env S ctx
              (classified env codec S ctx st configFiles).state
              ((classified env codec S ctx st configFiles).existing.map some)).1,
            FormatBatchWriteResponse env
              (UpdateCircuitBreakerRules env S ctx
                (classified env codec S ctx st configFiles).state
                ((classified env codec S ctx st configFiles).existing.map some)).2)) ∧
    ((classified env codec S ctx st configFiles).news ≠ [] →
      (classified env codec S ctx st configFiles).existing ≠ [] →
      ImportCircuitBreakerRules env codec S ctx st configFiles
        = ((UpdateCircuitBreakerRules env S ctx
              (CreateCircuitBreakerRules env S ctx
                (classified env codec S ctx st configFiles).state
                ((classified env codec S ctx st configFiles).news.map some)).1
              ((classified env codec S ctx st configFiles).existing.map some)).1,
            FormatBatchWriteResponse env
              (UpdateCircuitBreakerRules env S ctx
                (CreateCircuitBreakerRules env S ctx
                  (classified env codec S ctx st configFiles).state
                  ((classified env codec S ctx st configFiles).news.map some)).1
                ((classified env codec S ctx st configFiles).existing.map some)).2)) ∧
    ((classified env codec S ctx st configFiles).news = [] →
      (classified env codec S ctx st configFiles).existing = [] →
      ImportCircuitBreakerRules env codec S ctx st configFiles
        = ((classified env codec S ctx st configFiles).state, BatchWriteResponse.zero)) ∧
    (∀ (pre post : List (Option ConfigFile)) (bad : Option ConfigFile) (e : String),
      configFiles = pre ++ bad :: post →
      codec.zipNewReader (ConfigFile.contentValue bad) = .error e →
      ImportCircuitBreakerRules env codec S ctx st configFiles
        = ImportCircuitBreakerRules env codec S ctx st (pre ++ post)) ∧
    (∀ (pre post : List (Option ConfigFile)) (source : Option ConfigFile)
      (front back : List ZipFile) (bad : ZipFile),
      configFiles = pre ++ source :: post →
      codec.zipNewReader (ConfigFile.contentValue source) = .ok (front ++ bad :: back) →
      Unreadable codec bad →
      (classified env codec S ctx st configFiles)
        = importFiles env codec S ctx post
            (importEntries env codec S ctx (front ++ back)
              (classified env codec S ctx st pre))) := by
  obtain ⟨h1, h2, h3⟩ := importFiles_spec env codec S ctx configFiles
    { state := st, news := [], existing := [] }
  simp only [List.nil_append] at h2 h3
  obtain ⟨s1, s2, s3, s4⟩ := importSubmit_cases env S ctx
    (classified env codec S ctx st configFiles)
  refine ⟨h2, h3, ?_, h1, s1, s2, s3, s4, ?_, ?_⟩
  · unfold classified
    rw [h2, h3]
    exact filter_probe_perm _ _
  · intro pre post bad e hcf hbad
    subst hcf
    unfold ImportCircuitBreakerRules
    rw [importFiles_append, importFiles_append]
    congr 1
    rw [importFiles]
    simp only [hbad]
  · intro pre post source front back bad hcf hsrc hbad
    subst hcf
    unfold classified
    rw [importFiles_append, importFiles]
    simp only [hsrc]
    rw [importEntries_append, importEntries_unreadable env codec S ctx bad back _ hbad,
      ← importEntries_append]

/-- Witness of C17: an import whose third of four sources is not an archive and whose first
archive holds a member that does not deserialize; the entry `r9` is new, the entry `r1`
exists, and the update batch runs on `r1` on the state left by the create batch on `r9`. -/
theorem import_skips_bad_input_witness :
    roughSources = [archiveSource "a\nbad\nb.yaml\nzz/r9\n", none] ++ archiveSource "q"
      :: [archiveSource "r1.yaml\nuu/r1\n"] ∧
    sampleCodec.zipNewReader (ConfigFile.contentValue (archiveSource "q"))
      = .error "zip: not a valid zip file" ∧
    ImportCircuitBreakerRules sampleEnv sampleCodec memStorage sampleCtx oneRuleState
        roughSources
      = ImportCircuitBreakerRules sampleEnv sampleCodec memStorage sampleCtx oneRuleState
          ([archiveSource "a\nbad\nb.yaml\nzz/r9\n", none]
            ++ [archiveSource "r1.yaml\nuu/r1\n"]) ∧
    ((classified sampleEnv sampleCodec memStorage sampleCtx oneRuleState
      roughSources).news.map (fun r => r.Name)) = ["r9"] ∧
    ((classified sampleEnv sampleCodec memStorage sampleCtx oneRuleState
      roughSources).existing.map (fun r => r.Name)) = ["r1"] ∧
    ImportCircuitBreakerRules sampleEnv sampleCodec memStorage sampleCtx oneRuleState
        roughSources
      = ((UpdateCircuitBreakerRules sampleEnv memStorage sampleCtx
            (CreateCircuitBreakerRules sampleEnv memStorage sampleCtx
              (classified sampleEnv sampleCodec memStorage sampleCtx oneRuleState
                roughSources).state
              ((classified sampleEnv sampleCodec memStorage sampleCtx oneRuleState
                roughSources).news.map some)).1
            ((classified sampleEnv sampleCodec memStorage sampleCtx oneRuleState
              roughSources).existing.map some)).1,
          FormatBatchWriteResponse sampleEnv
            (UpdateCircuitBreakerRules sampleEnv memStorage sampleCtx
              (CreateCircuitBreakerRules sampleEnv memStorage sampleCtx
                (classified sampleEnv sampleCodec memStorage sampleCtx oneRuleState
                  roughSources).state
                ((classified sampleEnv sampleCodec memStorage sampleCtx oneRuleState
                  roughSources).news.map some)).1
              ((classified sampleEnv sampleCodec memStorage sampleCtx oneRuleState
                roughSources).existing.map some)).2) ∧
    ((ImportCircuitBreakerRules sampleEnv sampleCodec memStorage sampleCtx oneRuleState
      roughSources).1.store.rules.map (fun r => r.Name)) = ["r1", "r9"] :=
  ⟨rfl, rfl,
    (import_skips_bad_input sampleEnv sampleCodec memStorage sampleCtx oneRuleState
      roughSources).2.2.2.2.2.2.2.2.1 _ _ _ _ rfl rfl,
    by decide, by decide,
    (import_skips_bad_input sampleEnv sampleCodec memStorage sampleCtx oneRuleState
      roughSources).2.2.2.2.2.2.1 (by decide) (by decide),
    by decide⟩

/-- C15: evaluation at an archive entry without an id. No stored rule has the empty id, yet
the probe `id = ""` is answered with every stored rule, so the import takes the entry as
existing; the update batch refuses it for its missing id and the rule is not created. On
an empty store the same entry is created. -/
theorem import_routes_idless_entry_to_update :
    (wellFormedEntries sampleCodec idlessArchive).map (fun r => (r.Id, r.Name))
      = [("", "new1")] ∧
    (∀ r ∈ oneRuleState.store.rules, r.ID ≠ "") ∧
    probeAmount sampleEnv sampleCodec memStorage sampleCtx oneRuleState
      { ApiRule.empty with Id := "" } = 1 ∧
    (classified sampleEnv sampleCodec memStorage sampleCtx oneRuleState idlessArchive).news
      = [] ∧
    ((classified sampleEnv sampleCodec memStorage sampleCtx oneRuleState
      idlessArchive).existing.map (fun r => (r.Id, r.Name))) = [("", "new1")] ∧
    ((ImportCircuitBreakerRules sampleEnv sampleCodec memStorage sampleCtx oneRuleState
      idlessArchive).2.responses.map (fun r => r.code)) = [Code.InvalidCircuitBreakerID] ∧
    (ImportCircuitBreakerRules sampleEnv sampleCodec memStorage sampleCtx oneRuleState
      idlessArchive).1.store.rules = oneRuleState.store.rules ∧
    ((ImportCircuitBreakerRules sampleEnv sampleCodec memStorage sampleCtx sampleState
      idlessArchive).1.store.rules.map (fun r => r.Name)) = ["new1"] := by
  refine ⟨by decide, by decide, by decide, by decide, by decide, by decide, by decide,
    by decide⟩

/-- C16: evaluation at an archive with one new and one existing entry. The create phase
runs and stores the new rule, and has a per-item result of its own, but the response of
the import holds the one per-item result of the update phase only. -/
theorem import_response_drops_create_phase :
    ((classified sampleEnv sampleCodec memStorage sampleCtx oneRuleState
      mixedArchive).news.map (fun r => r.Name)) = ["r9"] ∧
    ((classified sampleEnv sampleCodec memStorage sampleCtx oneRuleState
      mixedArchive).existing.map (fun r => r.Name)) = ["r1"] ∧
    (CreateCircuitBreakerRules sampleEnv memStorage sampleCtx
      (classified sampleEnv sampleCodec memStorage sampleCtx oneRuleState mixedArchive).state
      ((classified sampleEnv sampleCodec memStorage sampleCtx oneRuleState
        mixedArchive).news.map some)).2.responses.length = 1 ∧
    ((ImportCircuitBreakerRules sampleEnv sampleCodec memStorage sampleCtx oneRuleState
      mixedArchive).1.store.rules.map (fun r => r.Name)) = ["r1", "r9"] ∧
    (ImportCircuitBreakerRules sampleEnv sampleCodec memStorage sampleCtx oneRuleState
      mixedArchive).2.size = 1 ∧
    (ImportCircuitBreakerRules sampleEnv sampleCodec memStorage sampleCtx oneRuleState
      mixedArchive).2.responses.length = 1 := by
  refine ⟨by decide, by decide, by decide, by decide, by decide, by decide⟩

/-! ## Round trip of export and import (C18) -/

theorem GetCircuitBreakerRules_data_inv {σ : Type} (env : Env) (codec : Codec)
    (S : Storage σ) (ctx : Context) (st : ServerState σ) (query : List (String × String))
    (h : (GetCircuitBreakerRules env codec S ctx st query).2.data ≠ []) :
    ∃ (paging : Paging) (searchFilter : List (String × String)) (total : Nat)
        (page : List CircuitBreakerRule),
      S.GetCircuitBreakerRules st.store searchFilter paging.offset paging.limit
        = .ok (total, page) ∧
      (GetCircuitBreakerRules env codec S ctx st query).2.data
        = page.filterMap (payloadOf codec) := by
  cases hparse : codec.ParseOffsetAndLimit query with
  | error e =>
    rw [GetCircuitBreakerRules_parseFailed env codec S ctx st query e hparse] at h
    exact absurd rfl h
  | ok paging =>
    cases hfilter : buildSearchFilter paging.query [] with
    | none =>
      rw [GetCircuitBreakerRules_rejected env codec S ctx st query paging hparse hfilter] at h
      exact absurd rfl h
    | some searchFilter =>
      cases hlist : S.GetCircuitBreakerRules st.store searchFilter paging.offset
          paging.limit with
      | error err =>
        rw [GetCircuitBreakerRules_listFailed env codec S ctx st query paging searchFilter
          err hparse hfilter hlist] at h
        exact absurd rfl h
      | ok p =>
        obtain ⟨total, page⟩ := p
        refine ⟨paging, searchFilter, total, page, hlist, ?_⟩
        rw [GetCircuitBreakerRules_listed env codec S ctx st query paging searchFilter
          total page hparse hfilter hlist, collectRules_spec]
        simp [NewBatchQueryResponse]

theorem memStorage_listing (s : MemStore) (filter : List (String × String))
    (offset limit total : Nat) (page : List CircuitBreakerRule)
    (h : memStorage.GetCircuitBreakerRules s filter offset limit = .ok (total, page)) :
    s.readErr = none ∧ ∀ r ∈ page, r ∈ s.rules := by
  simp only [memStorage, MemStore.GetCircuitBreakerRules] at h
  cases hr : s.readErr with
  | some e => simp [hr] at h
  | none =>
    simp only [hr, Except.ok.injEq, Prod.mk.injEq] at h
    refine ⟨rfl, ?_⟩
    intro r hrp
    rw [← h.2] at hrp
    exact (List.mem_filter.mp (List.mem_of_mem_drop (List.mem_of_mem_take hrp))).1

theorem probe_finds_stored (env : Env) (codec : Codec) (ctx : Context)
    (st : ServerState MemStore) (hlaws : ReadsBack codec) (hread : st.store.readErr = none)
    (m : ApiRule) (r : CircuitBreakerRule) (hr : r ∈ st.store.rules) (hid : r.ID = m.Id) :
    probedNew env codec memStorage ctx st m = false := by
  obtain ⟨p, hparse, hq⟩ := hlaws.probe m.Id
  have hfilter : buildSearchFilter p.query [] = some (if m.Id = "" then [] else [("id", m.Id)]) := by
    rw [hq]
    by_cases hv : m.Id = ""
    · simp [buildSearchFilter, CircuitBreakerRuleFilters, hv]
    · simp [buildSearchFilter, CircuitBreakerRuleFilters, hv, mapSet]
  have hlist : memStorage.GetCircuitBreakerRules st.store
      (if m.Id = "" then [] else [("id", m.Id)]) p.offset p.limit
      = .ok ((st.store.rules.filter (fun x =>
            (if m.Id = "" then [] else [("id", m.Id)]).all (MemStore.matchesEntry x))).length,
          ((st.store.rules.filter (fun x =>
            (if m.Id = "" then [] else [("id", m.Id)]).all
              (MemStore.matchesEntry x))).drop p.offset).take p.limit) := by
    simp only [memStorage, MemStore.GetCircuitBreakerRules, hread]
  have hmem : r ∈ st.store.rules.filter (fun x =>
      (if m.Id = "" then [] else [("id", m.Id)]).all (MemStore.matchesEntry x)) := by
    rw [List.mem_filter]
    refine ⟨hr, ?_⟩
    by_cases hv : m.Id = ""
    · simp [hv]
    · simp [hv, MemStore.matchesEntry, hid]
  unfold probedNew probeAmount
  rw [GetCircuitBreakerRules_listed env codec memStorage ctx st _ p _ _ _ hparse hfilter hlist,
    collectRules_spec]
  simp only [decide_eq_false_iff_not]
  intro h0
  rw [List.length_eq_zero] at h0
  rw [h0] at hmem
  exact absurd hmem (List.not_mem_nil _)

theorem entries_read_back (codec : Codec) (hlaws : ReadsBack codec)
    (data : List AnyData) (w : List ZipEntry)
    (h : List.Forall₂ (EntryOf codec) data w) :
    List.Forall₂ (fun a m => ∃ msg, codec.unpackAny a = .ok msg ∧ m.Id = msg.Id)
      data ((w.map memberOf).filterMap (readable codec)) := by
  induction h with
  | nil => exact List.Forall₂.nil
  | @cons a e _ _ hae _ ih =>
    obtain ⟨msg, hu, hy, _, _, _⟩ := hae
    obtain ⟨m1, hm1, hid⟩ := hlaws.yaml_back msg _ hy
    have hr : readable codec (memberOf e) = some m1 := by
      simp only [readable, memberOf, hm1]
    rw [List.map_cons, List.filterMap_cons_some hr]
    exact List.Forall₂.cons ⟨msg, hu, hid⟩ ih

theorem forall₂_right_mem {α β : Type} (R : α → β → Prop) (l1 : List α) (l2 : List β)
    (h : List.Forall₂ R l1 l2) (b : β) (hb : b ∈ l2) : ∃ a ∈ l1, R a b := by
  induction h with
  | nil => exact absurd hb (List.not_mem_nil _)
  | cons hab _ ih =>
    rcases List.mem_cons.mp hb with rfl | hb1
    · exact ⟨_, List.mem_cons_self _ _, hab⟩
    · obtain ⟨a, ha, hr⟩ := ih hb1
      exact ⟨a, List.mem_cons_of_mem _ ha, hr⟩

theorem updateCircuitBreakerRule_ids (env : Env) (ctx : Context)
    (st : ServerState MemStore) (item : Option ApiRule) :
    (updateCircuitBreakerRule env memStorage ctx st item).1.store.rules.map (fun r => r.ID)
      = st.store.rules.map (fun r => r.ID) := by
  rcases update_step_cases env ctx st item with h | ⟨u, h, _, _⟩
  · rw [h.1]
  · rw [h]
    exact map_replace_ids _ u.ID (st.store.replaced u) (fun _ => rfl)

theorem UpdateCircuitBreakerRules_ids (env : Env) (ctx : Context)
    (st : ServerState MemStore) (request : List (Option ApiRule)) :
    (UpdateCircuitBreakerRules env memStorage ctx st request).1.store.rules.map
        (fun r => r.ID)
      = st.store.rules.map (fun r => r.ID) := by
  unfold UpdateCircuitBreakerRules
  exact runBatch_inv
    (fun s => s.store.rules.map (fun r => r.ID) = st.store.rules.map (fun r => r.ID)) env
    (updateCircuitBreakerRule env memStorage ctx)
    (fun s item hs => (updateCircuitBreakerRule_ids env ctx s item).trans hs) request st rfl

theorem importSubmit_updates_only (env : Env) (ctx : Context)
    (vars : ImportVars MemStore) (hnews : vars.news = []) :
    (importSubmit env memStorage ctx vars).1.store.rules.map (fun r => r.ID)
      = vars.state.store.rules.map (fun r => r.ID) := by
  unfold importSubmit
  simp only [hnews, List.length_nil, gt_iff_lt, lt_self_iff_false, if_false]
  split
  · exact UpdateCircuitBreakerRules_ids env ctx _ _
  · rfl

/-- C18: round trip on the in-memory store, the codec reading back what it writes. When
`ExportCircuitBreakerRules` succeeds on a query, importing the archive it returns into the
same store finds one entry for every exported payload, classifies every entry as existing
and none as new, each entry carrying the id of a stored rule, and leaves the store with the
list of rule ids it had: no rule is added. -/
theorem export_import_round_trip (env : Env) (codec : Codec) (ctx : Context)
    (st : ServerState MemStore) (query : List (String × String))
    (hlaws : ReadsBack codec)
    (hsucc : (ExportCircuitBreakerRules env codec memStorage ctx st query).2.code
      = Code.ExecuteSuccess) :
    (classified env codec memStorage ctx
      (ExportCircuitBreakerRules env codec memStorage ctx st query).1
      [archiveSource (ExportCircuitBreakerRules env codec memStorage ctx st query).2.info]).news
      = [] ∧
    (classified env codec memStorage ctx
      (ExportCircuitBreakerRules env codec memStorage ctx st query).1
      [archiveSource
        (ExportCircuitBreakerRules env codec memStorage ctx st query).2.info]).existing
      = wellFormedEntries codec
          [archiveSource (ExportCircuitBreakerRules env codec memStorage ctx st query).2.info] ∧
    (wellFormedEntries codec
      [archiveSource
        (ExportCircuitBreakerRules env codec memStorage ctx st query).2.info]).length
      = (GetCircuitBreakerRules env codec memStorage ctx st query).2.data.length ∧
    (∀ m ∈ wellFormedEntries codec
        [archiveSource (ExportCircuitBreakerRules env codec memStorage ctx st query).2.info],
      ∃ r ∈ st.store.rules, r.ID = m.Id) ∧
    (ImportCircuitBreakerRules env codec memStorage ctx
      (ExportCircuitBreakerRules env codec memStorage ctx st query).1
      [archiveSource
        (ExportCircuitBreakerRules env codec memStorage ctx st query).2.info]).1.store.rules.map
        (fun r => r.ID)
      = st.store.rules.map (fun r => r.ID) := by
  obtain ⟨w, hdata, hw, hinfo⟩ :=
    ExportCircuitBreakerRules_success_inv env codec memStorage ctx st query hsucc
  obtain ⟨es, hes, hentries⟩ := exportEntries_ok env codec _ [] w hw
  simp only [List.nil_append] at hes
  subst hes
  obtain ⟨paging, searchFilter, total, page, hlist, hpage⟩ :=
    GetCircuitBreakerRules_data_inv env codec memStorage ctx st query hdata
  obtain ⟨hread, hsub⟩ := memStorage_listing _ _ _ _ _ _ hlist
  have hstore : (ExportCircuitBreakerRules env codec memStorage ctx st query).1.store
      = st.store := by
    rw [ExportCircuitBreakerRules_state]
    exact (GetCircuitBreakerRules_frame env codec memStorage ctx st query).1
  have hwne : w ≠ [] := by
    intro hnil
    rw [hnil] at hentries
    exact hdata (List.forall₂_nil_right_iff.mp hentries)
  have hcreated : ∀ e ∈ w, codec.zipCreate e.Name = none ∧ codec.zipWrite e.content = none := by
    intro e he
    obtain ⟨a, _, msg, _, _, _, h1, h2⟩ := forall₂_right_mem _ _ _ hentries e he
    exact ⟨h1, h2⟩
  have hwf : wellFormedEntries codec
      [archiveSource (ExportCircuitBreakerRules env codec memStorage ctx st query).2.info]
      = (w.map memberOf).filterMap (readable codec) := by
    simp only [wellFormedEntries, sourceEntries, archiveSource, ConfigFile.contentValue,
      Option.getD_some, hinfo, hlaws.zip_back w hwne hcreated, List.append_nil]
  have hback := entries_read_back codec hlaws _ _ hentries
  have hfound : ∀ m ∈ (w.map memberOf).filterMap (readable codec),
      ∃ r ∈ st.store.rules, r.ID = m.Id := by
    intro m hm
    obtain ⟨a, ha, msg, hu, hid⟩ := forall₂_right_mem _ _ _ hback m hm
    rw [hpage] at ha
    obtain ⟨r, hr, hpay⟩ := List.mem_filterMap.mp ha
    obtain ⟨m0, hm0, hpack⟩ := (payloadOf_some_iff codec r a).mp hpay
    refine ⟨r, hsub r hr, ?_⟩
    rw [hid, hlaws.any_id m0 a msg hpack hu]
    exact (circuitBreakerRule2api_identity codec r m0 hm0).1.symm
  have hnone : ∀ m ∈ (w.map memberOf).filterMap (readable codec),
      probedNew env codec memStorage ctx
        (ExportCircuitBreakerRules env codec memStorage ctx st query).1 m = false := by
    intro m hm
    obtain ⟨r, hr, hid⟩ := hfound m hm
    exact probe_finds_stored env codec ctx _ hlaws (by rw [hstore]; exact hread) m r
      (by rw [hstore]; exact hr) hid
  obtain ⟨_, hnews, hexisting⟩ := importFiles_spec env codec memStorage ctx
    [archiveSource (ExportCircuitBreakerRules env codec memStorage ctx st query).2.info]
    { state := (ExportCircuitBreakerRules env codec memStorage ctx st query).1,
      news := [], existing := [] }
  simp only [List.nil_append] at hnews hexisting
  have hnews1 : (classified env codec memStorage ctx
      (ExportCircuitBreakerRules env codec memStorage ctx st query).1
      [archiveSource
        (ExportCircuitBreakerRules env codec memStorage ctx st query).2.info]).news = [] := by
    unfold classified
    rw [hnews, hwf, List.filter_eq_nil_iff]
    intro m hm
    rw [hnone m hm]
    exact Bool.false_ne_true
  refine ⟨hnews1, ?_, ?_, ?_, ?_⟩
  · unfold classified
    rw [hexisting, hwf, List.filter_eq_self]
    intro m hm
    rw [hnone m hm]
    rfl
  · rw [hwf]
    exact (List.Forall₂.length_eq hback).symm
  · rw [hwf]
    exact hfound
  · have h1 := importSubmit_updates_only env ctx _ hnews1
    have h2 := (importFiles_spec env codec memStorage ctx
      [archiveSource (ExportCircuitBreakerRules env codec memStorage ctx st query).2.info]
      { state := (ExportCircuitBreakerRules env codec memStorage ctx st query).1,
        news := [], existing := [] }).1.1
    unfold ImportCircuitBreakerRules
    unfold classified at h1
    rw [h1, h2, hstore]

theorem linesOf_line (line : List Char) (cur rest : List Char)
    (h : Char.ofNat 10 ∉ line) :
    linesOf (line ++ Char.ofNat 10 :: rest) cur
      = String.mk (cur.reverse ++ line) :: linesOf rest [] := by
  induction line generalizing cur with
  | nil => simp [linesOf]
  | cons c cs ih =>
    have hc : c ≠ Char.ofNat 10 := fun hcc => h (by simp [hcc])
    have hcs : Char.ofNat 10 ∉ cs := fun hx => h (List.mem_cons_of_mem _ hx)
    rw [List.cons_append, linesOf]
    simp only [hc, if_false]
    rw [ih (c :: cur) hcs]
    simp

theorem membersOf_archiveChars (w : List ZipEntry)
    (h : ∀ e ∈ w, oneLine e.Name = true ∧ oneLine e.content = true) :
    membersOf (linesOf (archiveChars w) []) = some (w.map memberOf) := by
  induction w with
  | nil => simp [archiveChars, linesOf, membersOf]
  | cons e es ih =>
    obtain ⟨hn, hc⟩ := h e (List.mem_cons_self _ _)
    have hn1 : Char.ofNat 10 ∉ e.Name.data := by simpa [oneLine] using hn
    have hc1 : Char.ofNat 10 ∉ e.content.data := by simpa [oneLine] using hc
    simp only [archiveChars]
    rw [linesOf_line _ _ _ hn1, linesOf_line _ _ _ hc1]
    simp only [List.reverse_nil, List.nil_append, membersOf,
      ih (fun x hx => h x (List.mem_cons_of_mem _ hx)), Option.map_some', List.map_cons,
      memberOf]

theorem sampleText_ne_bad (m : ApiRule) : sampleText m ≠ "bad" := by
  intro h
  have h1 : Char.ofNat 47 ∈ (sampleText m).data := by simp [sampleText]
  rw [h] at h1
  revert h1
  decide

theorem sampleCodec_readsBack : ReadsBack sampleCodec where
  any_id := fun m a m1 hp hu => (sampleCodec_any m a m1 hp hu).1
  yaml_back := by
    intro m t hp
    have hne := sampleText_ne_bad m
    simp only [sampleCodec] at hp ⊢
    by_cases hw : sampleWritable m = true
    · simp only [hw, if_true, Except.ok.injEq] at hp
      subst hp
      exact ⟨sampleRead (sampleText m), by simp [hne], (sampleRead_sampleText m hw).1⟩
    · simp [hw] at hp
  zip_back := by
    intro w hw hacc
    have hlines : ∀ e ∈ w, oneLine e.Name = true ∧ oneLine e.content = true := by
      intro e he
      obtain ⟨h1, h2⟩ := hacc e he
      simp only [sampleCodec] at h1 h2
      constructor
      · by_cases hn : oneLine e.Name = true
        · exact hn
        · simp [hn] at h1
      · by_cases hn : oneLine e.content = true
        · exact hn
        · simp [hn] at h2
    have hne : archiveChars w ≠ [] := by
      cases w with
      | nil => exact absurd rfl hw
      | cons e es => simp [archiveChars]
    simp only [sampleCodec, hne, if_false, membersOf_archiveChars w hlines]
  probe := by
    intro v
    exact ⟨{ offset := 0, limit := 100, query := [("id", v)] }, by
      simp [sampleCodec, sampleParseOffsetAndLimit, lookupKey], rfl⟩

/-- Witness of C18: the export of the rule `r2` of a store of two rules, imported back. -/
theorem export_import_round_trip_witness :
    (ExportCircuitBreakerRules sampleEnv sampleCodec memStorage sampleCtx twoRuleState
      [("name", "r2")]).2.code = Code.ExecuteSuccess ∧
    (classified sampleEnv sampleCodec memStorage sampleCtx
      (ExportCircuitBreakerRules sampleEnv sampleCodec memStorage sampleCtx twoRuleState
        [("name", "r2")]).1
      [archiveSource (ExportCircuitBreakerRules sampleEnv sampleCodec memStorage sampleCtx
        twoRuleState [("name", "r2")]).2.info]).news = [] :=
  ⟨by decide,
    (export_import_round_trip sampleEnv sampleCodec sampleCtx twoRuleState [("name", "r2")]
      sampleCodec_readsBack (by decide)).1⟩

/-! ## Authorization decorators (C19, C20) -/

theorem decorators_refuse_on_denial {M : Messages} {α ω : Type}
    (svr : ServerAuthAbility M α ω) (s : serverAuthability M α ω) :
    RefusesOnDenial svr.CheckConsolePermission
      (fun ctx (request : List (Option ApiRule)) =>
        svr.collectCircuitBreakerRuleV2AuthContext ctx (some request)
          ResourceOperation.Read "CreateCircuitBreakerRules")
      svr.CreateCircuitBreakerRules
      (fun err => NewBatchWriteResponse svr.env (svr.convertToErrCode err)) ∧
    RefusesOnDenial svr.CheckConsolePermission
      (fun ctx (request : List (Option ApiRule)) =>
        svr.collectCircuitBreakerRuleV2AuthContext ctx (some request)
          ResourceOperation.Read "DeleteCircuitBreakerRules")
      svr.DeleteCircuitBreakerRules
      (fun err => NewBatchWriteResponse svr.env (svr.convertToErrCode err)) ∧
    RefusesOnDenial svr.CheckConsolePermission
      (fun ctx (request : List (Option ApiRule)) =>
        svr.collectCircuitBreakerRuleV2AuthContext ctx (some request)
          ResourceOperation.Read "EnableCircuitBreakerRules")
      svr.EnableCircuitBreakerRules
      (fun err => NewBatchWriteResponse svr.env (svr.convertToErrCode err)) ∧
    RefusesOnDenial svr.CheckConsolePermission
      (fun ctx (request : List (Option ApiRule)) =>
        svr.collectCircuitBreakerRuleV2AuthContext ctx (some request)
          ResourceOperation.Read "UpdateCircuitBreakerRules")
      svr.UpdateCircuitBreakerRules
      (fun err => NewBatchWriteResponse svr.env (svr.convertToErrCode err)) ∧
    RefusesOnDenial svr.CheckConsolePermission
      (fun ctx (_request : List (String × String)) =>
        svr.collectCircuitBreakerRuleV2AuthContext ctx none
          ResourceOperation.Read "GetCircuitBreakerRules")
      svr.GetCircuitBreakerRules
      (fun err => NewBatchQueryResponse svr.env (svr.convertToErrCode err)) ∧
    RefusesOnDenial svr.CheckConsolePermission
      (fun ctx (_request : List (String × String)) =>
        svr.collectCircuitBreakerRuleV2AuthContext ctx none
          ResourceOperation.Read "ExportCircuitBreakerRules")
      svr.ExportCircuitBreakerRules
      (fun err => NewBatchQueryResponse svr.env (svr.convertToErrCode err)) ∧
    RefusesOnDenial svr.CheckConsolePermission
      (fun ctx (_request : List (Option ConfigFile)) =>
        svr.collectCircuitBreakerRuleV2AuthContext ctx none
          ResourceOperation.Read "ImportCircuitBreakerRules")
      svr.ImportCircuitBreakerRules
      (fun err => NewBatchWriteResponse svr.env (svr.convertToErrCode err)) ∧
    RefusesOnDenial svr.CheckConsolePermission
      (fun ctx (request : List M.Rule) =>
        svr.collectRateLimitAuthContext ctx (some request)
          ResourceOperation.Create "CreateRateLimits")
      svr.CreateRateLimits
      (fun err => NewBatchWriteResponseWithMsg svr.env Code.NotAllowedAccess err.message) ∧
    RefusesOnDenial svr.CheckConsolePermission
      (fun ctx (request : List M.Rule) =>
        svr.collectRateLimitAuthContext ctx (some request)
          ResourceOperation.Delete "DeleteRateLimits")
      svr.DeleteRateLimits
      (fun err => NewBatchWriteResponseWithMsg svr.env Code.NotAllowedAccess err.message) ∧
    RefusesOnDenial svr.CheckConsolePermission
      (fun ctx (request : List M.Rule) =>
        svr.collectRateLimitAuthContext ctx (some request)
          ResourceOperation.Modify "UpdateRateLimits")
      svr.UpdateRateLimits
      (fun err => NewBatchWriteResponseWithMsg svr.env Code.NotAllowedAccess err.message) ∧
    RefusesOnDenial svr.CheckConsolePermission
      (fun ctx (_request : List M.Rule) =>
        svr.collectRateLimitAuthContext ctx none
          ResourceOperation.Read "EnableRateLimits")
      svr.EnableRateLimits
      (fun err => NewBatchWriteResponseWithMsg svr.env Code.NotAllowedAccess err.message) ∧
    RefusesOnDenial svr.CheckConsolePermission
      (fun ctx (_request : List (String × String)) =>
        svr.collectRateLimitAuthContext ctx none
          ResourceOperation.Read "GetRateLimits")
      svr.GetRateLimits
      (fun err => NewBatchQueryResponseWithMsg svr.env Code.NotAllowedAccess err.message) ∧
    RefusesOnDenial svr.CheckConsolePermission
      (fun ctx (_request : List (String × String)) =>
        svr.collectRateLimitAuthContext ctx none
          ResourceOperation.Read "ExportRateLimits")
      svr.ExportRateLimits
      (fun err => NewBatchQueryResponseWithMsg svr.env Code.NotAllowedAccess err.message) ∧
    RefusesOnDenial svr.CheckConsolePermission
      (fun ctx (_request : List (Option ConfigFile)) =>
        svr.collectRateLimitAuthContext ctx none
          ResourceOperation.Read "ImportRateLimits")
      svr.ImportRateLimits
      (fun err => NewBatchWriteResponseWithMsg svr.env Code.NotAllowedAccess err.message) ∧
    RefusesOnDenial svr.CheckConsolePermission
      (fun ctx (request : List M.Routing) =>
        svr.collectRouteRuleAuthContext ctx (some request)
          ResourceOperation.Create "CreateRoutingConfigs")
      svr.CreateRoutingConfigs
      (fun err => NewBatchWriteResponseWithMsg svr.env Code.NotAllowedAccess err.message) ∧
    RefusesOnDenial svr.CheckConsolePermission
      (fun ctx (request : List M.Routing) =>
        svr.collectRouteRuleAuthContext ctx (some request)
          ResourceOperation.Delete "DeleteRoutingConfigs")
      svr.DeleteRoutingConfigs
      (fun err => NewBatchWriteResponseWithMsg svr.env Code.NotAllowedAccess err.message) ∧
    RefusesOnDenial svr.CheckConsolePermission
      (fun ctx (request : List M.Routing) =>
        svr.collectRouteRuleAuthContext ctx (some request)
          ResourceOperation.Modify "UpdateRoutingConfigs")
      svr.UpdateRoutingConfigs
      (fun err => NewBatchWriteResponseWithMsg svr.env Code.NotAllowedAccess err.message) ∧
    RefusesOnDenial svr.CheckConsolePermission
      (fun ctx (_request : List (String × String)) =>
        svr.collectRouteRuleAuthContext ctx none
          ResourceOperation.Read "GetRoutingConfigs")
      svr.GetRoutingConfigs
      (fun err => NewBatchQueryResponseWithMsg svr.env Code.NotAllowedAccess err.message) ∧
    RefusesOnDenial svr.CheckConsolePermission
      (fun ctx (request : List M.RouteRule) =>
        svr.collectRouteRuleV2AuthContext ctx (some request)
          ResourceOperation.Read "CreateRoutingConfigsV2")
      svr.CreateRoutingConfigsV2
      (fun err => NewBatchWriteResponse svr.env (svr.convertToErrCode err)) ∧
    RefusesOnDenial svr.CheckConsolePermission
      (fun ctx (request : List M.RouteRule) =>
        svr.collectRouteRuleV2AuthContext ctx (some request)
          ResourceOperation.Read "DeleteRoutingConfigsV2")
      svr.DeleteRoutingConfigsV2
      (fun err => NewBatchWriteResponse svr.env (svr.convertToErrCode err)) ∧
    RefusesOnDenial svr.CheckConsolePermission
      (fun ctx (request : List M.RouteRule) =>
        svr.collectRouteRuleV2AuthContext ctx (some request)
          ResourceOperation.Read "UpdateRoutingConfigsV2")
      svr.UpdateRoutingConfigsV2
      (fun err => NewBatchWriteResponse svr.env (svr.convertToErrCode err)) ∧
    RefusesOnDenial svr.CheckConsolePermission
      (fun ctx (request : List M.RouteRule) =>
        svr.collectRouteRuleV2AuthContext ctx (some request)
          ResourceOperation.Read "EnableRoutings")
      svr.EnableRoutings
      (fun err => NewBatchWriteResponse svr.env (svr.convertToErrCode err)) ∧
    RefusesOnDenial svr.CheckConsolePermission
      (fun ctx (_request : List (String × String)) =>
        svr.collectRouteRuleV2AuthContext ctx none
          ResourceOperation.Read "ExportRoutings")
      svr.ExportRoutings
      (fun err => NewBatchQueryResponse svr.env (svr.convertToErrCode err)) ∧
    RefusesOnDenial svr.CheckConsolePermission
      (fun ctx (_request : List (Option ConfigFile)) =>
        svr.collectCircuitBreakerRuleV2AuthContext ctx none
          ResourceOperation.Read "ImportRoutings")
      svr.ImportRoutings
      (fun err => NewBatchWriteResponse svr.env (svr.convertToErrCode err)) ∧
    RefusesOnDenial s.CheckConsolePermission
      (fun ctx (request : Option ConfigFile) =>
        s.collectConfigFileAuthContext ctx [request]
          ResourceOperation.Create "CreateConfigFile")
      (fun st ctx (request : Option ConfigFile) =>
        s.CreateConfigFile st ctx request)
      (fun err => NewConfigFileResponseWithMessage (s.convertToErrCode err) err.message) ∧
    RefusesOnDenial s.CheckConsolePermission
      (fun ctx (request : Option ConfigFile) =>
        s.collectConfigFileAuthContext ctx [request]
          ResourceOperation.Modify "UpdateConfigFile")
      (fun st ctx (request : Option ConfigFile) =>
        s.UpdateConfigFile st ctx request)
      (fun err => NewConfigFileResponseWithMessage (s.convertToErrCode err) err.message) ∧
    RefusesOnDenial s.CheckConsolePermission
      (fun ctx (request : String × String × String × String) =>
        s.collectConfigFileAuthContext ctx 
          [some { Content := none, Namespace := some request.fst,
                  Name := some request.snd.snd.fst, Group := some request.snd.fst }]
          ResourceOperation.Delete "DeleteConfigFile")
      (fun st ctx (request : String × String × String × String) =>
        s.DeleteConfigFile st ctx request.fst request.snd.fst
          request.snd.snd.fst request.snd.snd.snd)
      (fun err => NewConfigFileResponseWithMessage (s.convertToErrCode err) err.message) ∧
    RefusesOnDenial s.CheckConsolePermission
      (fun ctx (request : List (Option ConfigFile) × String) =>
        s.collectConfigFileAuthContext ctx request.fst
          ResourceOperation.Delete "BatchDeleteConfigFile")
      (fun st ctx (request : List (Option ConfigFile) × String) =>
        s.BatchDeleteConfigFile st ctx request.fst request.snd)
      (fun err => NewConfigFileResponseWithMessage (s.convertToErrCode err) err.message) ∧
    RefusesOnDenial s.CheckConsolePermission
      (fun ctx (request : List (Option ConfigFile) × String) =>
        s.collectConfigFileAuthContext ctx request.fst
          ResourceOperation.Create "ImportConfigFile")
      (fun st ctx (request : List (Option ConfigFile) × String) =>
        s.ImportConfigFile st ctx request.fst request.snd)
      (fun err => NewConfigFileImportResponseWithMessage (s.convertToErrCode err) err.message) := by
  refine ⟨?_, ?_, ?_, ?_, ?_, ?_, ?_, ?_, ?_, ?_,
    ?_, ?_, ?_, ?_, ?_, ?_, ?_, ?_, ?_, ?_,
    ?_, ?_, ?_, ?_, ?_, ?_, ?_, ?_, ?_⟩
  all_goals
    intro st ctx request authCtx err h
    simp only [ServerAuthAbility.CreateCircuitBreakerRules,
      ServerAuthAbility.DeleteCircuitBreakerRules,
      ServerAuthAbility.EnableCircuitBreakerRules,
      ServerAuthAbility.UpdateCircuitBreakerRules,
      ServerAuthAbility.GetCircuitBreakerRules,
      ServerAuthAbility.ExportCircuitBreakerRules,
      ServerAuthAbility.ImportCircuitBreakerRules,
      ServerAuthAbility.CreateRateLimits,
      ServerAuthAbility.DeleteRateLimits,
      ServerAuthAbility.UpdateRateLimits,
      ServerAuthAbility.EnableRateLimits,
      ServerAuthAbility.GetRateLimits,
      ServerAuthAbility.ExportRateLimits,
      ServerAuthAbility.ImportRateLimits,
      ServerAuthAbility.CreateRoutingConfigs,
      ServerAuthAbility.DeleteRoutingConfigs,
      ServerAuthAbility.UpdateRoutingConfigs,
      ServerAuthAbility.GetRoutingConfigs,
      ServerAuthAbility.CreateRoutingConfigsV2,
      ServerAuthAbility.DeleteRoutingConfigsV2,
      ServerAuthAbility.UpdateRoutingConfigsV2,
      ServerAuthAbility.EnableRoutings,
      ServerAuthAbility.ExportRoutings,
      ServerAuthAbility.ImportRoutings,
      serverAuthability.CreateConfigFile,
      serverAuthability.UpdateConfigFile,
      serverAuthability.DeleteConfigFile,
      serverAuthability.BatchDeleteConfigFile,
      serverAuthability.ImportConfigFile, h]

/-- C20: every gated operation of the authorization decorators (circuit-breaker, rate-limit,
routing v1, routing v2, config file), when the policy checker approves the authorization
context collected for the call, calls the operation of the same name of the wrapped server
once, with the request of the caller as it came and with the context that the authorization
context returns, extended with the authorization context under
`utils.ContextAuthContextKey`, and returns the state and the response of the wrapped server
as they are. -/
theorem decorators_forward_on_approval {M : Messages} {α ω : Type}
    (svr : ServerAuthAbility M α ω) (s : serverAuthability M α ω) :
    ForwardsOnApproval svr.CheckConsolePermission svr.GetRequestContext
      "CreateCircuitBreakerRules"
      (fun ctx (request : List (Option ApiRule)) =>
        svr.collectCircuitBreakerRuleV2AuthContext ctx (some request)
          ResourceOperation.Read "CreateCircuitBreakerRules")
      svr.CreateCircuitBreakerRules svr.targetServer.CreateCircuitBreakerRules ∧
    ForwardsOnApproval svr.CheckConsolePermission svr.GetRequestContext
      "DeleteCircuitBreakerRules"
      (fun ctx (request : List (Option ApiRule)) =>
        svr.collectCircuitBreakerRuleV2AuthContext ctx (some request)
          ResourceOperation.Read "DeleteCircuitBreakerRules")
      svr.DeleteCircuitBreakerRules svr.targetServer.DeleteCircuitBreakerRules ∧
    ForwardsOnApproval svr.CheckConsolePermission svr.GetRequestContext
      "EnableCircuitBreakerRules"
      (fun ctx (request : List (Option ApiRule)) =>
        svr.collectCircuitBreakerRuleV2AuthContext ctx (some request)
          ResourceOperation.Read "EnableCircuitBreakerRules")
      svr.EnableCircuitBreakerRules svr.targetServer.EnableCircuitBreakerRules ∧
    ForwardsOnApproval svr.CheckConsolePermission svr.GetRequestContext
      "UpdateCircuitBreakerRules"
      (fun ctx (request : List (Option ApiRule)) =>
        svr.collectCircuitBreakerRuleV2AuthContext ctx (some request)
          ResourceOperation.Read "UpdateCircuitBreakerRules")
      svr.UpdateCircuitBreakerRules svr.targetServer.UpdateCircuitBreakerRules ∧
    ForwardsOnApproval svr.CheckConsolePermission svr.GetRequestContext
      "GetCircuitBreakerRules"
      (fun ctx (_request : List (String × String)) =>
        svr.collectCircuitBreakerRuleV2AuthContext ctx none
          ResourceOperation.Read "GetCircuitBreakerRules")
      svr.GetCircuitBreakerRules svr.targetServer.GetCircuitBreakerRules ∧
    ForwardsOnApproval svr.CheckConsolePermission svr.GetRequestContext
      "ExportCircuitBreakerRules"
      (fun ctx (_request : List (String × String)) =>
        svr.collectCircuitBreakerRuleV2AuthContext ctx none
          ResourceOperation.Read "ExportCircuitBreakerRules")
      svr.ExportCircuitBreakerRules svr.targetServer.ExportCircuitBreakerRules ∧
    ForwardsOnApproval svr.CheckConsolePermission svr.GetRequestContext
      "ImportCircuitBreakerRules"
      (fun ctx (_request : List (Option ConfigFile)) =>
        svr.collectCircuitBreakerRuleV2AuthContext ctx none
          ResourceOperation.Read "ImportCircuitBreakerRules")
      svr.ImportCircuitBreakerRules svr.targetServer.ImportCircuitBreakerRules ∧
    ForwardsOnApproval svr.CheckConsolePermission svr.GetRequestContext
      "CreateRateLimits"
      (fun ctx (request : List M.Rule) =>
        svr.collectRateLimitAuthContext ctx (some request)
          ResourceOperation.Create "CreateRateLimits")
      svr.CreateRateLimits svr.targetServer.CreateRateLimits ∧
    ForwardsOnApproval svr.CheckConsolePermission svr.GetRequestContext
      "DeleteRateLimits"
      (fun ctx (request : List M.Rule) =>
        svr.collectRateLimitAuthContext ctx (some request)
          ResourceOperation.Delete "DeleteRateLimits")
      svr.DeleteRateLimits svr.targetServer.DeleteRateLimits ∧
    ForwardsOnApproval svr.CheckConsolePermission svr.GetRequestContext
      "UpdateRateLimits"
      (fun ctx (request : List M.Rule) =>
        svr.collectRateLimitAuthContext ctx (some request)
          ResourceOperation.Modify "UpdateRateLimits")
      svr.UpdateRateLimits svr.targetServer.UpdateRateLimits ∧
    ForwardsOnApproval svr.CheckConsolePermission svr.GetRequestContext
      "EnableRateLimits"
      (fun ctx (_request : List M.Rule) =>
        svr.collectRateLimitAuthContext ctx none
          ResourceOperation.Read "EnableRateLimits")
      svr.EnableRateLimits svr.targetServer.EnableRateLimits ∧
    ForwardsOnApproval svr.CheckConsolePermission svr.GetRequestContext
      "GetRateLimits"
      (fun ctx (_request : List (String × String)) =>
        svr.collectRateLimitAuthContext ctx none
          ResourceOperation.Read "GetRateLimits")
      svr.GetRateLimits svr.targetServer.GetRateLimits ∧
    ForwardsOnApproval svr.CheckConsolePermission svr.GetRequestContext
      "ExportRateLimits"
      (fun ctx (_request : List (String × String)) =>
        svr.collectRateLimitAuthContext ctx none
          ResourceOperation.Read "ExportRateLimits")
      svr.ExportRateLimits svr.targetServer.ExportRateLimits ∧
    ForwardsOnApproval svr.CheckConsolePermission svr.GetRequestContext
      "ImportRateLimits"
      (fun ctx (_request : List (Option ConfigFile)) =>
        svr.collectRateLimitAuthContext ctx none
          ResourceOperation.Read "ImportRateLimits")
      svr.ImportRateLimits svr.targetServer.ImportRateLimits ∧
    ForwardsOnApproval svr.CheckConsolePermission svr.GetRequestContext
      "CreateRoutingConfigs"
      (fun ctx (request : List M.Routing) =>
        svr.collectRouteRuleAuthContext ctx (some request)
          ResourceOperation.Create "CreateRoutingConfigs")
      svr.CreateRoutingConfigs svr.targetServer.CreateRoutingConfigs ∧
    ForwardsOnApproval svr.CheckConsolePermission svr.GetRequestContext
      "DeleteRoutingConfigs"
      (fun ctx (request : List M.Routing) =>
        svr.collectRouteRuleAuthContext ctx (some request)
          ResourceOperation.Delete "DeleteRoutingConfigs")
      svr.DeleteRoutingConfigs svr.targetServer.DeleteRoutingConfigs ∧
    ForwardsOnApproval svr.CheckConsolePermission svr.GetRequestContext
      "UpdateRoutingConfigs"
      (fun ctx (request : List M.Routing) =>
        svr.collectRouteRuleAuthContext ctx (some request)
          ResourceOperation.Modify "UpdateRoutingConfigs")
      svr.UpdateRoutingConfigs svr.targetServer.UpdateRoutingConfigs ∧
    ForwardsOnApproval svr.CheckConsolePermission svr.GetRequestContext
      "GetRoutingConfigs"
      (fun ctx (_request : List (String × String)) =>
        svr.collectRouteRuleAuthContext ctx none
          ResourceOperation.Read "GetRoutingConfigs")
      svr.GetRoutingConfigs svr.targetServer.GetRoutingConfigs ∧
    ForwardsOnApproval svr.CheckConsolePermission svr.GetRequestContext
      "CreateRoutingConfigsV2"
      (fun ctx (request : List M.RouteRule) =>
        svr.collectRouteRuleV2AuthContext ctx (some request)
          ResourceOperation.Read "CreateRoutingConfigsV2")
      svr.CreateRoutingConfigsV2 svr.targetServer.CreateRoutingConfigsV2 ∧
    ForwardsOnApproval svr.CheckConsolePermission svr.GetRequestContext
      "DeleteRoutingConfigsV2"
      (fun ctx (request : List M.RouteRule) =>
        svr.collectRouteRuleV2AuthContext ctx (some request)
          ResourceOperation.Read "DeleteRoutingConfigsV2")
      svr.DeleteRoutingConfigsV2 svr.targetServer.DeleteRoutingConfigsV2 ∧
    ForwardsOnApproval svr.CheckConsolePermission svr.GetRequestContext
      "UpdateRoutingConfigsV2"
      (fun ctx (request : List M.RouteRule) =>
        svr.collectRouteRuleV2AuthContext ctx (some request)
          ResourceOperation.Read "UpdateRoutingConfigsV2")
      svr.UpdateRoutingConfigsV2 svr.targetServer.UpdateRoutingConfigsV2 ∧
    ForwardsOnApproval svr.CheckConsolePermission svr.GetRequestContext
      "EnableRoutings"
      (fun ctx (request : List M.RouteRule) =>
        svr.collectRouteRuleV2AuthContext ctx (some request)
          ResourceOperation.Read "EnableRoutings")
      svr.EnableRoutings svr.targetServer.EnableRoutings ∧
    ForwardsOnApproval svr.CheckConsolePermission svr.GetRequestContext
      "ExportRoutings"
      (fun ctx (_request : List (String × String)) =>
        svr.collectRouteRuleV2AuthContext ctx none
          ResourceOperation.Read "ExportRoutings")
      svr.ExportRoutings svr.targetServer.ExportRoutings ∧
    ForwardsOnApproval svr.CheckConsolePermission svr.GetRequestContext
      "ImportRoutings"
      (fun ctx (_request : List (Option ConfigFile)) =>
        svr.collectCircuitBreakerRuleV2AuthContext ctx none
          ResourceOperation.Read "ImportRoutings")
      svr.ImportRoutings svr.targetServer.ImportRoutings ∧
    ForwardsOnApproval s.CheckConsolePermission s.GetRequestContext
      "CreateConfigFile"
      (fun ctx (request : Option ConfigFile) =>
        s.collectConfigFileAuthContext ctx [request]
          ResourceOperation.Create "CreateConfigFile")
      (fun st ctx (request : Option ConfigFile) =>
        s.CreateConfigFile st ctx request)
      (fun t ctx (request : Option ConfigFile) =>
        s.targetServer.CreateConfigFile t ctx request) ∧
    ForwardsOnApproval s.CheckConsolePermission s.GetRequestContext
      "UpdateConfigFile"
      (fun ctx (request : Option ConfigFile) =>
        s.collectConfigFileAuthContext ctx [request]
          ResourceOperation.Modify "UpdateConfigFile")
      (fun st ctx (request : Option ConfigFile) =>
        s.UpdateConfigFile st ctx request)
      (fun t ctx (request : Option ConfigFile) =>
        s.targetServer.UpdateConfigFile t ctx request) ∧
    ForwardsOnApproval s.CheckConsolePermission s.GetRequestContext
      "DeleteConfigFile"
      (fun ctx (request : String × String × String × String) =>
        s.collectConfigFileAuthContext ctx 
          [some { Content := none, Namespace := some request.fst,
                  Name := some request.snd.snd.fst, Group := some request.snd.fst }]
          ResourceOperation.Delete "DeleteConfigFile")
      (fun st ctx (request : String × String × String × String) =>
        s.DeleteConfigFile st ctx request.fst request.snd.fst
          request.snd.snd.fst request.snd.snd.snd)
      (fun t ctx (request : String × String × String × String) =>
        s.targetServer.DeleteConfigFile t ctx request.fst request.snd.fst
          request.snd.snd.fst request.snd.snd.snd) ∧
    ForwardsOnApproval s.CheckConsolePermission s.GetRequestContext
      "BatchDeleteConfigFile"
      (fun ctx (request : List (Option ConfigFile) × String) =>
        s.collectConfigFileAuthContext ctx request.fst
          ResourceOperation.Delete "BatchDeleteConfigFile")
      (fun st ctx (request : List (Option ConfigFile) × String) =>
        s.BatchDeleteConfigFile st ctx request.fst request.snd)
      (fun t ctx (request : List (Option ConfigFile) × String) =>
        s.targetServer.BatchDeleteConfigFile t ctx request.fst request.snd) ∧
    ForwardsOnApproval s.CheckConsolePermission s.GetRequestContext
      "ImportConfigFile"
      (fun ctx (request : List (Option ConfigFile) × String) =>
        s.collectConfigFileAuthContext ctx request.fst
          ResourceOperation.Create "ImportConfigFile")
      (fun st ctx (request : List (Option ConfigFile) × String) =>
        s.ImportConfigFile st ctx request.fst request.snd)
      (fun t ctx (request : List (Option ConfigFile) × String) =>
        s.targetServer.ImportConfigFile t ctx request.fst request.snd) := by
  refine ⟨?_, ?_, ?_, ?_, ?_, ?_, ?_, ?_, ?_, ?_,
    ?_, ?_, ?_, ?_, ?_, ?_, ?_, ?_, ?_, ?_,
    ?_, ?_, ?_, ?_, ?_, ?_, ?_, ?_, ?_⟩
  all_goals
    intro st ctx request authCtx h
    simp only [ServerAuthAbility.CreateCircuitBreakerRules,
      ServerAuthAbility.DeleteCircuitBreakerRules,
      ServerAuthAbility.EnableCircuitBreakerRules,
      ServerAuthAbility.UpdateCircuitBreakerRules,
      ServerAuthAbility.GetCircuitBreakerRules,
      ServerAuthAbility.ExportCircuitBreakerRules,
      ServerAuthAbility.ImportCircuitBreakerRules,
      ServerAuthAbility.CreateRateLimits,
      ServerAuthAbility.DeleteRateLimits,
      ServerAuthAbility.UpdateRateLimits,
      ServerAuthAbility.EnableRateLimits,
      ServerAuthAbility.GetRateLimits,
      ServerAuthAbility.ExportRateLimits,
      ServerAuthAbility.ImportRateLimits,
      ServerAuthAbility.CreateRoutingConfigs,
      ServerAuthAbility.DeleteRoutingConfigs,
      ServerAuthAbility.UpdateRoutingConfigs,
      ServerAuthAbility.GetRoutingConfigs,
      ServerAuthAbility.CreateRoutingConfigsV2,
      ServerAuthAbility.DeleteRoutingConfigsV2,
      ServerAuthAbility.UpdateRoutingConfigsV2,
      ServerAuthAbility.EnableRoutings,
      ServerAuthAbility.ExportRoutings,
      ServerAuthAbility.ImportRoutings,
      serverAuthability.CreateConfigFile,
      serverAuthability.UpdateConfigFile,
      serverAuthability.DeleteConfigFile,
      serverAuthability.BatchDeleteConfigFile,
      serverAuthability.ImportConfigFile, h, forward]

/-- Witness of C20: an approved `UpdateCircuitBreakerRules` on the sample server. -/
theorem decorators_forward_on_approval_witness :
    sampleAuth.CheckConsolePermission
        (sampleAuth.collectCircuitBreakerRuleV2AuthContext aliceCall (some [some sampleItem])
          ResourceOperation.Read "UpdateCircuitBreakerRules")
      = ({ request := sampleCtx, operation := ResourceOperation.Read,
           method := "UpdateCircuitBreakerRules" }, none) ∧
    sampleAuth.UpdateCircuitBreakerRules sampleAuthState aliceCall [some sampleItem]
      = ({ target := (sampleTarget.UpdateCircuitBreakerRules sampleState
              (WithValue { request := sampleCtx, authContext := none }
                { request := sampleCtx, operation := ResourceOperation.Read,
                  method := "UpdateCircuitBreakerRules" })
              [some sampleItem]).1,
           forwarded := [("UpdateCircuitBreakerRules",
              WithValue { request := sampleCtx, authContext := none }
                { request := sampleCtx, operation := ResourceOperation.Read,
                  method := "UpdateCircuitBreakerRules" })] },
          (sampleTarget.UpdateCircuitBreakerRules sampleState
            (WithValue { request := sampleCtx, authContext := none }
              { request := sampleCtx, operation := ResourceOperation.Read,
                method := "UpdateCircuitBreakerRules" })
            [some sampleItem]).2) :=
  ⟨rfl, (decorators_forward_on_approval sampleAuth sampleConfigAuth).2.2.2.1
    sampleAuthState aliceCall [some sampleItem] _ rfl⟩

/-- C19: evaluation at a call that the policy checker denies with the message
`no permission`. The circuit-breaker decorator does not call the wrapped server and answers
with a batch-write response of code `NotAllowedAccess`, but the info text of the response
is the text of the code: the message of the checker is not in the response. The rate-limit
decorator, at the same denial, answers with the message of the checker. -/
theorem denied_circuit_breaker_call_drops_checker_message :
    (sampleAuth.CheckConsolePermission
        (sampleAuth.collectCircuitBreakerRuleV2AuthContext guestCall (some [some sampleItem])
          ResourceOperation.Read "CreateCircuitBreakerRules")).2
      = some { message := "no permission" } ∧
    (sampleAuth.CreateCircuitBreakerRules sampleAuthState guestCall [some sampleItem]).1.forwarded
      = [] ∧
    (sampleAuth.CreateCircuitBreakerRules sampleAuthState guestCall [some sampleItem]).1.target
      = sampleState ∧
    (sampleAuth.CreateCircuitBreakerRules sampleAuthState guestCall [some sampleItem]).2
      = { code := Code.NotAllowedAccess, info := "not allowed access", size := 0,
          responses := [] } ∧
    (sampleAuth.CreateRateLimits sampleAuthState guestCall ["limit"]).2
      = { code := Code.NotAllowedAccess, info := "no permission", size := 0,
          responses := [] } := by
  refine ⟨by decide, rfl, rfl, by decide, by decide⟩

/-! ## Queries: a rule whose payload does not decode -/

/-- Counterexample to C12 as stated: on a store holding one rule whose stored payload does
not decode, the empty query is accepted and the storage listing succeeds with that rule as
its page; the response is a success with total match count 1 and page size 1, but the rule
is skipped and the response has no payload: the page size is not the number of payloads and
the rule of the page has no external representation in the response. -/
theorem query_page_size_counts_skipped_rule :
    sampleCodec.ParseOffsetAndLimit [] = .ok { offset := 0, limit := 100, query := [] } ∧
    buildSearchFilter [] [] = some [] ∧
    memStorage.GetCircuitBreakerRules brokenRuleState.store [] 0 100
      = .ok (1, brokenRuleState.store.rules) ∧
    brokenRuleState.store.rules.length = 1 ∧
    (GetCircuitBreakerRules sampleEnv sampleCodec memStorage sampleCtx brokenRuleState []).2.code
      = Code.ExecuteSuccess ∧
    (GetCircuitBreakerRules sampleEnv sampleCodec memStorage sampleCtx brokenRuleState []).2.amount
      = 1 ∧
    (GetCircuitBreakerRules sampleEnv sampleCodec memStorage sampleCtx brokenRuleState []).2.size
      = 1 ∧
    (GetCircuitBreakerRules sampleEnv sampleCodec memStorage sampleCtx brokenRuleState []).2.data
      = [] ∧
    (GetCircuitBreakerRules sampleEnv sampleCodec memStorage sampleCtx brokenRuleState []).2.size
      ≠ (GetCircuitBreakerRules sampleEnv sampleCodec memStorage sampleCtx brokenRuleState
          []).2.data.length := by
  refine ⟨rfl, rfl, rfl, rfl, by decide, by decide, by decide, by decide, by decide⟩

/-! ## Which operations are gated (C21) -/

/-- C21 (amended): every operation of the authorization decorators other than
`QueryRoutingConfigsV2` and the five read operations of the config-file decorator
(`GetConfigFileBaseInfo`, `GetConfigFileRichInfo`, `QueryConfigFilesByGroup`,
`SearchConfigFile`, `ExportConfigFile`) is gated: either the call leaves the state of the
wrapped server and the trace of forwarded calls as they were, or the policy checker
returned no error for the authorization context collected for the call.  The six
operations named above forward to the wrapped server under the context of the caller,
whatever the policy checker is. -/
theorem gated_operations {M : Messages} {α ω : Type}
    (svr : ServerAuthAbility M α ω) (s : serverAuthability M α ω) :
    GatedBy svr.CheckConsolePermission
      (fun ctx (request : List (Option ApiRule)) =>
        svr.collectCircuitBreakerRuleV2AuthContext ctx (some request)
          ResourceOperation.Read "CreateCircuitBreakerRules")
      svr.CreateCircuitBreakerRules ∧
    GatedBy svr.CheckConsolePermission
      (fun ctx (request : List (Option ApiRule)) =>
        svr.collectCircuitBreakerRuleV2AuthContext ctx (some request)
          ResourceOperation.Read "DeleteCircuitBreakerRules")
      svr.DeleteCircuitBreakerRules ∧
    GatedBy svr.CheckConsolePermission
      (fun ctx (request : List (Option ApiRule)) =>
        svr.collectCircuitBreakerRuleV2AuthContext ctx (some request)
          ResourceOperation.Read "EnableCircuitBreakerRules")
      svr.EnableCircuitBreakerRules ∧
    GatedBy svr.CheckConsolePermission
      (fun ctx (request : List (Option ApiRule)) =>
        svr.collectCircuitBreakerRuleV2AuthContext ctx (some request)
          ResourceOperation.Read "UpdateCircuitBreakerRules")
      svr.UpdateCircuitBreakerRules ∧
    GatedBy svr.CheckConsolePermission
      (fun ctx (_request : List (String × String)) =>
        svr.collectCircuitBreakerRuleV2AuthContext ctx none
          ResourceOperation.Read "GetCircuitBreakerRules")
      svr.GetCircuitBreakerRules ∧
    GatedBy svr.CheckConsolePermission
      (fun ctx (_request : List (String × String)) =>
        svr.collectCircuitBreakerRuleV2AuthContext ctx none
          ResourceOperation.Read "ExportCircuitBreakerRules")
      svr.ExportCircuitBreakerRules ∧
    GatedBy svr.CheckConsolePermission
      (fun ctx (_request : List (Option ConfigFile)) =>
        svr.collectCircuitBreakerRuleV2AuthContext ctx none
          ResourceOperation.Read "ImportCircuitBreakerRules")
      svr.ImportCircuitBreakerRules ∧
    GatedBy svr.CheckConsolePermission
      (fun ctx (request : List M.Rule) =>
        svr.collectRateLimitAuthContext ctx (some request)
          ResourceOperation.Create "CreateRateLimits")
      svr.CreateRateLimits ∧
    GatedBy svr.CheckConsolePermission
      (fun ctx (request : List M.Rule) =>
        svr.collectRateLimitAuthContext ctx (some request)
          ResourceOperation.Delete "DeleteRateLimits")
      svr.DeleteRateLimits ∧
    GatedBy svr.CheckConsolePermission
      (fun ctx (request : List M.Rule) =>
        svr.collectRateLimitAuthContext ctx (some request)
          ResourceOperation.Modify "UpdateRateLimits")
      svr.UpdateRateLimits ∧
    GatedBy svr.CheckConsolePermission
      (fun ctx (_request : List M.Rule) =>
        svr.collectRateLimitAuthContext ctx none
          ResourceOperation.Read "EnableRateLimits")
      svr.EnableRateLimits ∧
    GatedBy svr.CheckConsolePermission
      (fun ctx (_request : List (String × String)) =>
        svr.collectRateLimitAuthContext ctx none
          ResourceOperation.Read "GetRateLimits")
      svr.GetRateLimits ∧
    GatedBy svr.CheckConsolePermission
      (fun ctx (_request : List (String × String)) =>
        svr.collectRateLimitAuthContext ctx none
          ResourceOperation.Read "ExportRateLimits")
      svr.ExportRateLimits ∧
    GatedBy svr.CheckConsolePermission
      (fun ctx (_request : List (Option ConfigFile)) =>
        svr.collectRateLimitAuthContext ctx none
          ResourceOperation.Read "ImportRateLimits")
      svr.ImportRateLimits ∧
    GatedBy svr.CheckConsolePermission
      (fun ctx (request : List M.Routing) =>
        svr.collectRouteRuleAuthContext ctx (some request)
          ResourceOperation.Create "CreateRoutingConfigs")
      svr.CreateRoutingConfigs ∧
    GatedBy svr.CheckConsolePermission
      (fun ctx (request : List M.Routing) =>
        svr.collectRouteRuleAuthContext ctx (some request)
          ResourceOperation.Delete "DeleteRoutingConfigs")
      svr.DeleteRoutingConfigs ∧
    GatedBy svr.CheckConsolePermission
      (fun ctx (request : List M.Routing) =>
        svr.collectRouteRuleAuthContext ctx (some request)
          ResourceOperation.Modify "UpdateRoutingConfigs")
      svr.UpdateRoutingConfigs ∧
    GatedBy svr.CheckConsolePermission
      (fun ctx (_request : List (String × String)) =>
        svr.collectRouteRuleAuthContext ctx none
          ResourceOperation.Read "GetRoutingConfigs")
      svr.GetRoutingConfigs ∧
    GatedBy svr.CheckConsolePermission
      (fun ctx (request : List M.RouteRule) =>
        svr.collectRouteRuleV2AuthContext ctx (some request)
          ResourceOperation.Read "CreateRoutingConfigsV2")
      svr.CreateRoutingConfigsV2 ∧
    GatedBy svr.CheckConsolePermission
      (fun ctx (request : List M.RouteRule) =>
        svr.collectRouteRuleV2AuthContext ctx (some request)
          ResourceOperation.Read "DeleteRoutingConfigsV2")
      svr.DeleteRoutingConfigsV2 ∧
    GatedBy svr.CheckConsolePermission
      (fun ctx (request : List M.RouteRule) =>
        svr.collectRouteRuleV2AuthContext ctx (some request)
          ResourceOperation.Read "UpdateRoutingConfigsV2")
      svr.UpdateRoutingConfigsV2 ∧
    GatedBy svr.CheckConsolePermission
      (fun ctx (request : List M.RouteRule) =>
        svr.collectRouteRuleV2AuthContext ctx (some request)
          ResourceOperation.Read "EnableRoutings")
      svr.EnableRoutings ∧
    GatedBy svr.CheckConsolePermission
      (fun ctx (_request : List (String × String)) =>
        svr.collectRouteRuleV2AuthContext ctx none
          ResourceOperation.Read "ExportRoutings")
      svr.ExportRoutings ∧
    GatedBy svr.CheckConsolePermission
      (fun ctx (_request : List (Option ConfigFile)) =>
        svr.collectCircuitBreakerRuleV2AuthContext ctx none
          ResourceOperation.Read "ImportRoutings")
      svr.ImportRoutings ∧
    GatedBy s.CheckConsolePermission
      (fun ctx (request : Option ConfigFile) =>
        s.collectConfigFileAuthContext ctx [request]
          ResourceOperation.Create "CreateConfigFile")
      (fun st ctx (request : Option ConfigFile) =>
        s.CreateConfigFile st ctx request) ∧
    GatedBy s.CheckConsolePermission
      (fun ctx (request : Option ConfigFile) =>
        s.collectConfigFileAuthContext ctx [request]
          ResourceOperation.Modify "UpdateConfigFile")
      (fun st ctx (request : Option ConfigFile) =>
        s.UpdateConfigFile st ctx request) ∧
    GatedBy s.CheckConsolePermission
      (fun ctx (request : String × String × String × String) =>
        s.collectConfigFileAuthContext ctx 
          [some { Content := none, Namespace := some request.fst,
                  Name := some request.snd.snd.fst, Group := some request.snd.fst }]
          ResourceOperation.Delete "DeleteConfigFile")
      (fun st ctx (request : String × String × String × String) =>
        s.DeleteConfigFile st ctx request.fst request.snd.fst
          request.snd.snd.fst request.snd.snd.snd) ∧
    GatedBy s.CheckConsolePermission
      (fun ctx (request : List (Option ConfigFile) × String) =>
        s.collectConfigFileAuthContext ctx request.fst
          ResourceOperation.Delete "BatchDeleteConfigFile")
      (fun st ctx (request : List (Option ConfigFile) × String) =>
        s.BatchDeleteConfigFile st ctx request.fst request.snd) ∧
    GatedBy s.CheckConsolePermission
      (fun ctx (request : List (Option ConfigFile) × String) =>
        s.collectConfigFileAuthContext ctx request.fst
          ResourceOperation.Create "ImportConfigFile")
      (fun st ctx (request : List (Option ConfigFile) × String) =>
        s.ImportConfigFile st ctx request.fst request.snd) ∧
    ForwardsUnchecked "QueryRoutingConfigsV2" svr.QueryRoutingConfigsV2
      svr.targetServer.QueryRoutingConfigsV2 ∧
    ForwardsUnchecked "GetConfigFileBaseInfo"
      (fun st ctx (request : String × String × String) =>
        s.GetConfigFileBaseInfo st ctx request.fst request.snd.fst request.snd.snd)
      (fun t ctx (request : String × String × String) =>
        s.targetServer.GetConfigFileBaseInfo t ctx request.fst request.snd.fst request.snd.snd) ∧
    ForwardsUnchecked "GetConfigFileRichInfo"
      (fun st ctx (request : String × String × String) =>
        s.GetConfigFileRichInfo st ctx request.fst request.snd.fst request.snd.snd)
      (fun t ctx (request : String × String × String) =>
        s.targetServer.GetConfigFileRichInfo t ctx request.fst request.snd.fst request.snd.snd) ∧
    ForwardsUnchecked "QueryConfigFilesByGroup"
      (fun st ctx (request : String × String × Nat × Nat) =>
        s.QueryConfigFilesByGroup st ctx request.fst request.snd.fst
          request.snd.snd.fst request.snd.snd.snd)
      (fun t ctx (request : String × String × Nat × Nat) =>
        s.targetServer.QueryConfigFilesByGroup t ctx request.fst request.snd.fst
          request.snd.snd.fst request.snd.snd.snd) ∧
    ForwardsUnchecked "SearchConfigFile"
      (fun st ctx (request : String × String × String × String × Nat × Nat) =>
        s.SearchConfigFile st ctx request.fst request.snd.fst
          request.snd.snd.fst request.snd.snd.snd.fst request.snd.snd.snd.snd.fst
          request.snd.snd.snd.snd.snd)
      (fun t ctx (request : String × String × String × String × Nat × Nat) =>
        s.targetServer.SearchConfigFile t ctx request.fst request.snd.fst
          request.snd.snd.fst request.snd.snd.snd.fst request.snd.snd.snd.snd.fst
          request.snd.snd.snd.snd.snd) ∧
    ForwardsUnchecked "ExportConfigFile"
      (fun st ctx (request : Option M.ConfigFileExportRequest) =>
        s.ExportConfigFile st ctx request)
      (fun t ctx (request : Option M.ConfigFileExportRequest) =>
        s.targetServer.ExportConfigFile t ctx request) := by
  refine ⟨?_, ?_, ?_, ?_, ?_, ?_, ?_, ?_, ?_, ?_,
    ?_, ?_, ?_, ?_, ?_, ?_, ?_, ?_, ?_, ?_,
    ?_, ?_, ?_, ?_, ?_, ?_, ?_, ?_, ?_, ?_,
    ?_, ?_, ?_, ?_, ?_⟩
  all_goals first
    | (intro st ctx request
       cases h : (svr.CheckConsolePermission _) with
       | mk authCtx err =>
         cases err with
         | none => exact Or.inr rfl
         | some e =>
           refine Or.inl ?_
           simp only [ServerAuthAbility.CreateCircuitBreakerRules,
        ServerAuthAbility.DeleteCircuitBreakerRules,
        ServerAuthAbility.EnableCircuitBreakerRules,
        ServerAuthAbility.UpdateCircuitBreakerRules,
        ServerAuthAbility.GetCircuitBreakerRules,
        ServerAuthAbility.ExportCircuitBreakerRules,
        ServerAuthAbility.ImportCircuitBreakerRules,
        ServerAuthAbility.CreateRateLimits,
        ServerAuthAbility.DeleteRateLimits,
        ServerAuthAbility.UpdateRateLimits,
        ServerAuthAbility.EnableRateLimits,
        ServerAuthAbility.GetRateLimits,
        ServerAuthAbility.ExportRateLimits,
        ServerAuthAbility.ImportRateLimits,
        ServerAuthAbility.CreateRoutingConfigs,
        ServerAuthAbility.DeleteRoutingConfigs,
        ServerAuthAbility.UpdateRoutingConfigs,
        ServerAuthAbility.GetRoutingConfigs,
        ServerAuthAbility.CreateRoutingConfigsV2,
        ServerAuthAbility.DeleteRoutingConfigsV2,
        ServerAuthAbility.UpdateRoutingConfigsV2,
        ServerAuthAbility.EnableRoutings,
        ServerAuthAbility.ExportRoutings,
        ServerAuthAbility.ImportRoutings,
        serverAuthability.CreateConfigFile,
        serverAuthability.UpdateConfigFile,
        serverAuthability.DeleteConfigFile,
        serverAuthability.BatchDeleteConfigFile,
        serverAuthability.ImportConfigFile, h])
    | (intro st ctx request
       cases h : (s.CheckConsolePermission _) with
       | mk authCtx err =>
         cases err with
         | none => exact Or.inr rfl
         | some e =>
           refine Or.inl ?_
           simp only [ServerAuthAbility.CreateCircuitBreakerRules,
        ServerAuthAbility.DeleteCircuitBreakerRules,
        ServerAuthAbility.EnableCircuitBreakerRules,
        ServerAuthAbility.UpdateCircuitBreakerRules,
        ServerAuthAbility.GetCircuitBreakerRules,
        ServerAuthAbility.ExportCircuitBreakerRules,
        ServerAuthAbility.ImportCircuitBreakerRules,
        ServerAuthAbility.CreateRateLimits,
        ServerAuthAbility.DeleteRateLimits,
        ServerAuthAbility.UpdateRateLimits,
        ServerAuthAbility.EnableRateLimits,
        ServerAuthAbility.GetRateLimits,
        ServerAuthAbility.ExportRateLimits,
        ServerAuthAbility.ImportRateLimits,
        ServerAuthAbility.CreateRoutingConfigs,
        ServerAuthAbility.DeleteRoutingConfigs,
        ServerAuthAbility.UpdateRoutingConfigs,
        ServerAuthAbility.GetRoutingConfigs,
        ServerAuthAbility.CreateRoutingConfigsV2,
        ServerAuthAbility.DeleteRoutingConfigsV2,
        ServerAuthAbility.UpdateRoutingConfigsV2,
        ServerAuthAbility.EnableRoutings,
        ServerAuthAbility.ExportRoutings,
        ServerAuthAbility.ImportRoutings,
        serverAuthability.CreateConfigFile,
        serverAuthability.UpdateConfigFile,
        serverAuthability.DeleteConfigFile,
        serverAuthability.BatchDeleteConfigFile,
        serverAuthability.ImportConfigFile, h])
    | (intro st ctx request
       rfl)

/-- Counterexample to C21 as stated: with a policy checker that returns an error for every
authorization context, `QueryRoutingConfigsV2`, `GetConfigFileBaseInfo` and
`ExportConfigFile` still call the wrapped server, under the context of the caller; the
gated `GetRoutingConfigs` does not. -/
theorem ungated_operations_reach_wrapped_server :
    (∀ authCtx : SampleAcquire,
      (lockedAuth.CheckConsolePermission authCtx).2 = some { message := "no permission" }) ∧
    (∀ authCtx : SampleAcquire,
      (lockedConfigAuth.CheckConsolePermission authCtx).2
        = some { message := "no permission" }) ∧
    (lockedAuth.QueryRoutingConfigsV2 sampleAuthState guestCall []).1.forwarded
      = [("QueryRoutingConfigsV2", guestCall)] ∧
    (lockedConfigAuth.GetConfigFileBaseInfo sampleAuthState guestCall "default" "group"
      "app.yaml").1.forwarded = [("GetConfigFileBaseInfo", guestCall)] ∧
    (lockedConfigAuth.ExportConfigFile sampleAuthState guestCall none).1.forwarded
      = [("ExportConfigFile", guestCall)] ∧
    (lockedAuth.GetRoutingConfigs sampleAuthState guestCall []).1.forwarded = [] :=
  ⟨fun _ => rfl, fun _ => rfl, rfl, rfl, rfl, rfl⟩

/-! ## Access modes handed to the policy checker (C22) -/

/-- C22: evaluation at `EnableRateLimits` and `ImportRateLimits`, with collectors that
record the access mode they are given.  The rate-limit decorator asks for `Create`,
`Delete` and `Modify` on create, delete and update, but for `Read` on enable and on import,
both of which change rules; a checker that grants `Read` only refuses `UpdateRateLimits`
and lets `EnableRateLimits` and `ImportRateLimits` reach the wrapped server.  Routing v1
asks for the true mode on each operation; the circuit-breaker and routing v2 decorators ask
for `Read` on every operation. -/
theorem rate_limit_enable_and_import_ask_for_read :
    modesAsked (sampleAuth.EnableRateLimits sampleAuthState aliceCall ["limit"]).1
      = [("EnableRateLimits", some ResourceOperation.Read)] ∧
    modesAsked (sampleAuth.ImportRateLimits sampleAuthState aliceCall []).1
      = [("ImportRateLimits", some ResourceOperation.Read)] ∧
    modesAsked (sampleAuth.CreateRateLimits sampleAuthState aliceCall ["limit"]).1
      = [("CreateRateLimits", some ResourceOperation.Create)] ∧
    modesAsked (sampleAuth.DeleteRateLimits sampleAuthState aliceCall ["limit"]).1
      = [("DeleteRateLimits", some ResourceOperation.Delete)] ∧
    modesAsked (sampleAuth.UpdateRateLimits sampleAuthState aliceCall ["limit"]).1
      = [("UpdateRateLimits", some ResourceOperation.Modify)] ∧
    modesAsked (sampleAuth.GetRateLimits sampleAuthState aliceCall []).1
      = [("GetRateLimits", some ResourceOperation.Read)] ∧
    modesAsked (sampleAuth.ExportRateLimits sampleAuthState aliceCall []).1
      = [("ExportRateLimits", some ResourceOperation.Read)] ∧
    modesAsked (sampleAuth.CreateRoutingConfigs sampleAuthState aliceCall ["route"]).1
      = [("CreateRoutingConfigs", some ResourceOperation.Create)] ∧
    modesAsked (sampleAuth.DeleteRoutingConfigs sampleAuthState aliceCall ["route"]).1
      = [("DeleteRoutingConfigs", some ResourceOperation.Delete)] ∧
    modesAsked (sampleAuth.UpdateRoutingConfigs sampleAuthState aliceCall ["route"]).1
      = [("UpdateRoutingConfigs", some ResourceOperation.Modify)] ∧
    modesAsked (sampleAuth.GetRoutingConfigs sampleAuthState aliceCall []).1
      = [("GetRoutingConfigs", some ResourceOperation.Read)] ∧
    modesAsked (sampleAuth.CreateCircuitBreakerRules sampleAuthState aliceCall
      [some sampleItem]).1 = [("CreateCircuitBreakerRules", some ResourceOperation.Read)] ∧
    modesAsked (sampleAuth.DeleteCircuitBreakerRules sampleAuthState aliceCall
      [some sampleItem]).1 = [("DeleteCircuitBreakerRules", some ResourceOperation.Read)] ∧
    modesAsked (sampleAuth.EnableCircuitBreakerRules sampleAuthState aliceCall
      [some sampleItem]).1 = [("EnableCircuitBreakerRules", some ResourceOperation.Read)] ∧
    modesAsked (sampleAuth.UpdateCircuitBreakerRules sampleAuthState aliceCall
      [some sampleItem]).1 = [("UpdateCircuitBreakerRules", some ResourceOperation.Read)] ∧
    modesAsked (sampleAuth.ImportCircuitBreakerRules sampleAuthState aliceCall []).1
      = [("ImportCircuitBreakerRules", some ResourceOperation.Read)] ∧
    modesAsked (sampleAuth.CreateRoutingConfigsV2 sampleAuthState aliceCall ["route"]).1
      = [("CreateRoutingConfigsV2", some ResourceOperation.Read)] ∧
    modesAsked (sampleAuth.DeleteRoutingConfigsV2 sampleAuthState aliceCall ["route"]).1
      = [("DeleteRoutingConfigsV2", some ResourceOperation.Read)] ∧
    modesAsked (sampleAuth.UpdateRoutingConfigsV2 sampleAuthState aliceCall ["route"]).1
      = [("UpdateRoutingConfigsV2", some ResourceOperation.Read)] ∧
    modesAsked (sampleAuth.EnableRoutings sampleAuthState aliceCall ["route"]).1
      = [("EnableRoutings", some ResourceOperation.Read)] ∧
    modesAsked (sampleAuth.ImportRoutings sampleAuthState aliceCall []).1
      = [("ImportRoutings", some ResourceOperation.Read)] ∧
    modesAsked (readOnlyAuth.UpdateRateLimits sampleAuthState guestCall ["limit"]).1 = [] ∧
    modesAsked (readOnlyAuth.EnableRateLimits sampleAuthState guestCall ["limit"]).1
      = [("EnableRateLimits", some ResourceOperation.Read)] ∧
    modesAsked (readOnlyAuth.ImportRateLimits sampleAuthState guestCall []).1
      = [("ImportRateLimits", some ResourceOperation.Read)] := by
  refine ⟨rfl, rfl, rfl, rfl, rfl, rfl, rfl, rfl, rfl, rfl, rfl, rfl, rfl, rfl, rfl, rfl,
    rfl, rfl, rfl, rfl, rfl, rfl, rfl, rfl⟩

/-! ## Storage errors in the per-item result (C23) -/

/-- C23: evaluation at a delete of the stored rule `uu` on a store whose writes fail with
`disk full`, and at an update of it on a store whose reads fail with `connection lost`.
The delete answers with `ParseCircuitBreakerException` and the text of that code: neither
the mapped code of the storage error nor its message. The update, whose existence check
fails, answers with the mapped code and the text of the code: the message of the error is
not in the result. On the same stores the enable and the create answer with the mapped code
and the message of the error. -/
theorem storage_error_lost_on_delete_and_existence_check :
    memStorage.DeleteCircuitBreakerRule writeFaultState.store "uu"
      = (writeFaultState.store, some diskFull) ∧
    sampleEnv.StoreCode2APICode diskFull = Code.StoreLayerException ∧
    (deleteCircuitBreakerRule sampleEnv memStorage sampleCtx writeFaultState
      (some { ApiRule.empty with Id := "uu" })).2
      = { code := Code.ParseCircuitBreakerException, info := "",
          data := some { ApiRule.empty with Id := "uu" } } ∧
    (enableCircuitBreakerRule sampleEnv memStorage sampleCtx writeFaultState
      (some { ApiRule.empty with Id := "uu" })).2
      = { code := Code.StoreLayerException, info := "disk full",
          data := some { ApiRule.empty with Id := "uu" } } ∧
    memStorage.HasCircuitBreakerRule readFaultState.store "uu" = .error connectionLost ∧
    (updateCircuitBreakerRule sampleEnv memStorage sampleCtx readFaultState
      (some { sampleItem with Id := "uu" })).2
      = { code := Code.StoreLayerException, info := "", data := none } ∧
    (deleteCircuitBreakerRule sampleEnv memStorage sampleCtx readFaultState
      (some { ApiRule.empty with Id := "uu" })).2
      = { code := Code.StoreLayerException, info := "", data := none } ∧
    (enableCircuitBreakerRule sampleEnv memStorage sampleCtx readFaultState
      (some { ApiRule.empty with Id := "uu" })).2
      = { code := Code.StoreLayerException, info := "", data := none } ∧
    (createCircuitBreakerRule sampleEnv memStorage sampleCtx readFaultState
      (some { sampleItem with Name := "r2" })).2
      = { code := Code.StoreLayerException, info := "connection lost", data := none } := by
  refine ⟨rfl, rfl, by decide, by decide, rfl, by decide, by decide, by decide, by decide⟩

/-! ## The audit history (C24) -/

theorem countWrite_failed {σ : Type} (s : Counted σ) (r : σ × Option StoreError)
    (s1 : Counted σ) (err : StoreError) (h : countWrite s r = (s1, some err)) :
    s1.writes = s.writes := by
  obtain ⟨a, o⟩ := r
  cases o with
  | none => simp [countWrite] at h
  | some e =>
    simp only [countWrite, Prod.mk.injEq] at h
    rw [← h.1]

theorem countWrite_done {σ : Type} (s : Counted σ) (r : σ × Option StoreError)
    (s1 : Counted σ) (h : countWrite s r = (s1, none)) :
    s1.writes = s.writes + 1 := by
  obtain ⟨a, o⟩ := r
  cases o with
  | none =>
    simp only [countWrite, Prod.mk.injEq] at h
    rw [← h.1]
  | some e => simp [countWrite] at h

theorem create_step_audits {σ : Type} (env : Env) (S : Storage σ) (ctx : Context) :
    StepAudits OperationType.OCreate
      (createCircuitBreakerRule env (countedStorage S) ctx) := by
  intro st item
  cases hv : checkCircuitBreakerRuleParams env item false true with
  | some resp =>
    rw [createCircuitBreakerRule_invalid env _ ctx st item resp hv]
    exact Or.inl ⟨rfl, rfl⟩
  | none =>
    cases item with
    | none => simp [checkCircuitBreakerRuleParams_nil] at hv
    | some req =>
      cases hm : marshalCircuitBreakerRuleV2 env req with
      | error e =>
        rw [createCircuitBreakerRule_unencodable env _ ctx st req e hv hm]
        exact Or.inl ⟨rfl, rfl⟩
      | ok payload =>
        cases hh : (countedStorage S).HasCircuitBreakerRuleByName st.store req.Name
            (effectiveNamespace env req) with
        | error err =>
          rw [createCircuitBreakerRule_checkFailed env _ ctx st req payload err hv hm hh]
          exact Or.inl ⟨rfl, rfl⟩
        | ok b =>
          cases b with
          | true =>
            rw [createCircuitBreakerRule_conflict env _ ctx st req payload hv hm hh]
            exact Or.inl ⟨rfl, rfl⟩
          | false =>
            cases hc : (countedStorage S).CreateCircuitBreakerRule st.store
                { convertedRule env req payload (env.uuid st.uuidCount) with
                  ID := env.uuid (st.uuidCount + 1) } with
            | mk store1 oerr =>
              cases oerr with
              | some err =>
                rw [createCircuitBreakerRule_storeFailed env _ ctx st req payload store1 err
                  hv hm hh hc]
                exact Or.inl ⟨rfl, countWrite_failed _ _ _ _ hc⟩
              | none =>
                rw [createCircuitBreakerRule_created env _ ctx st req payload store1
                  hv hm hh hc]
                exact Or.inr ⟨_, rfl, rfl, countWrite_done _ _ _ hc, rfl⟩

theorem update_step_audits {σ : Type} (env : Env) (S : Storage σ) (ctx : Context) :
    StepAudits OperationType.OUpdate
      (updateCircuitBreakerRule env (countedStorage S) ctx) := by
  intro st item
  cases hv : checkCircuitBreakerRuleParams env item true true with
  | some resp =>
    rw [updateCircuitBreakerRule_invalid env _ ctx st item resp hv]
    exact Or.inl ⟨rfl, rfl⟩
  | none =>
    cases item with
    | none => simp [checkCircuitBreakerRuleParams_nil] at hv
    | some req =>
      cases hh : (countedStorage S).HasCircuitBreakerRule st.store req.Id with
      | error err =>
        rw [updateCircuitBreakerRule_existsFailed env _ ctx st req err hv hh]
        exact Or.inl ⟨rfl, rfl⟩
      | ok found =>
        cases found with
        | false =>
          rw [updateCircuitBreakerRule_notFound env _ ctx st req hv hh]
          exact Or.inl ⟨rfl, rfl⟩
        | true =>
          cases hm : marshalCircuitBreakerRuleV2 env req with
          | error e =>
            rw [updateCircuitBreakerRule_unencodable env _ ctx st req e hv hh hm]
            exact Or.inl ⟨rfl, rfl⟩
          | ok payload =>
            cases ho : (countedStorage S).HasCircuitBreakerRuleByNameExcludeId st.store
                req.Name (effectiveNamespace env req) req.Id with
            | error err =>
              rw [updateCircuitBreakerRule_checkFailed env _ ctx st req payload err hv hh hm ho]
              exact Or.inl ⟨rfl, rfl⟩
            | ok b =>
              cases b with
              | true =>
                rw [updateCircuitBreakerRule_conflict env _ ctx st req payload hv hh hm ho]
                exact Or.inl ⟨rfl, rfl⟩
              | false =>
                cases hu : (countedStorage S).UpdateCircuitBreakerRule st.store
                    (updatedRule env req payload (env.uuid st.uuidCount)) with
                | mk store1 oerr =>
                  cases oerr with
                  | some err =>
                    rw [updateCircuitBreakerRule_storeFailed env _ ctx st req payload store1
                      err hv hh hm ho hu]
                    exact Or.inl ⟨rfl, countWrite_failed _ _ _ _ hu⟩
                  | none =>
                    rw [updateCircuitBreakerRule_updated env _ ctx st req payload store1
                      hv hh hm ho hu]
                    exact Or.inr ⟨_, rfl, rfl, countWrite_done _ _ _ hu, rfl⟩

theorem delete_step_audits {σ : Type} (env : Env) (S : Storage σ) (ctx : Context) :
    StepAudits OperationType.ODelete
      (deleteCircuitBreakerRule env (countedStorage S) ctx) := by
  intro st item
  cases hv : checkCircuitBreakerRuleParams env item true false with
  | some resp =>
    rw [deleteCircuitBreakerRule_invalid env _ ctx st item resp hv]
    exact Or.inl ⟨rfl, rfl⟩
  | none =>
    cases item with
    | none => simp [checkCircuitBreakerRuleParams_nil] at hv
    | some req =>
      cases hh : (countedStorage S).HasCircuitBreakerRule st.store req.Id with
      | error err =>
        rw [deleteCircuitBreakerRule_existsFailed env _ ctx st req err hv hh]
        exact Or.inl ⟨rfl, rfl⟩
      | ok found =>
        cases found with
        | false =>
          rw [deleteCircuitBreakerRule_notFound env _ ctx st req hv hh]
          exact Or.inl ⟨rfl, rfl⟩
        | true =>
          cases hd : (countedStorage S).DeleteCircuitBreakerRule st.store req.Id with
          | mk store1 oerr =>
            cases oerr with
            | some err =>
              rw [deleteCircuitBreakerRule_storeFailed env _ ctx st req store1 err hv hh hd]
              exact Or.inl ⟨rfl, countWrite_failed _ _ _ _ hd⟩
            | none =>
              rw [deleteCircuitBreakerRule_deleted env _ ctx st req store1 hv hh hd]
              exact Or.inr ⟨_, rfl, rfl, countWrite_done _ _ _ hd, rfl⟩

theorem batch_audits_of_step {σ : Type} (env : Env) (op : OperationType)
    (step : ServerState (Counted σ) → Option ApiRule → ServerState (Counted σ) × Response)
    (hstep : StepAudits op step) : BatchAudits op (runBatch env step) := by
  intro st request
  refine runBatch_inv
    (fun s => ∃ added, s.history = st.history ++ added ∧
      (∀ e ∈ added, e.OperationType = op) ∧
      s.store.writes = st.store.writes + added.length) env step ?_ request st
    ⟨[], by simp, by simp, by simp⟩
  intro s item ⟨added, h1, h2, h3⟩
  rcases hstep s item with ⟨g1, g2⟩ | ⟨e, g1, g2, g3, _⟩
  · exact ⟨added, by rw [g1, h1], h2, by rw [g2, h3]⟩
  · refine ⟨added ++ [e], by rw [g1, h1, List.append_assoc], ?_, ?_⟩
    · intro x hx
      rcases List.mem_append.mp hx with hx | hx
      · exact h2 x hx
      · rw [List.mem_singleton.mp hx]; exact g2
    · rw [g3, h3, List.length_append, List.length_singleton, Nat.add_assoc]

/-- C24: on the audit history of the server, with the writes of the store counted. Each item
of a create, update or delete batch either leaves the audit history and the count of writes
as they were, or appends exactly one audit entry, of operation create, update or delete
respectively, while the store takes exactly one write and the item succeeds; so an item
that does not succeed (validation, conflict, unknown id of an update, storage error)
appends no entry. The entries a batch appends are all of its operation and are as many as
the writes the store took without error during the batch. -/
theorem audit_entries_match_writes {σ : Type} (env : Env) (S : Storage σ) (ctx : Context) :
    StepAudits OperationType.OCreate (createCircuitBreakerRule env (countedStorage S) ctx) ∧
    StepAudits OperationType.OUpdate (updateCircuitBreakerRule env (countedStorage S) ctx) ∧
    StepAudits OperationType.ODelete (deleteCircuitBreakerRule env (countedStorage S) ctx) ∧
    BatchAudits OperationType.OCreate (CreateCircuitBreakerRules env (countedStorage S) ctx) ∧
    BatchAudits OperationType.OUpdate (UpdateCircuitBreakerRules env (countedStorage S) ctx) ∧
    BatchAudits OperationType.ODelete (DeleteCircuitBreakerRules env (countedStorage S) ctx) :=
  ⟨create_step_audits env S ctx, update_step_audits env S ctx, delete_step_audits env S ctx,
    batch_audits_of_step env _ _ (create_step_audits env S ctx),
    batch_audits_of_step env _ _ (update_step_audits env S ctx),
    batch_audits_of_step env _ _ (delete_step_audits env S ctx)⟩

/-! ## Per-item validation (C25) -/

theorem string_length_eq_zero_iff (s : String) : s.length = 0 ↔ s = "" := by
  constructor
  · intro h
    have h1 : s.data = [] := List.length_eq_zero.mp h
    cases s
    simp only at h1
    subst h1
    rfl
  · intro h
    rw [h]
    rfl

theorem checkCircuitBreakerRuleParamsDbLen_none_iff (env : Env) (r : ApiRule) :
    checkCircuitBreakerRuleParamsDbLen env r = none ↔
      r.srcService.length ≤ env.MaxDbServiceNameLength ∧
      r.srcNamespace.length ≤ env.MaxDbServiceNamespaceLength ∧
      r.Name.length ≤ env.MaxRuleName ∧
      r.Namespace.length ≤ env.MaxDbServiceNamespaceLength ∧
      r.Description.length ≤ env.MaxCommentLength := by
  unfold checkCircuitBreakerRuleParamsDbLen CheckDbRawStrFieldLen
  by_cases h1 : r.srcService.length > env.MaxDbServiceNameLength
  · simp [h1]
  · by_cases h2 : r.srcNamespace.length > env.MaxDbServiceNamespaceLength
    · simp [h1, h2]
    · by_cases h3 : r.Name.length > env.MaxRuleName
      · simp [h1, h2, h3]
      · by_cases h4 : r.Namespace.length > env.MaxDbServiceNamespaceLength
        · simp [h1, h2, h3, h4]
        · by_cases h5 : r.Description.length > env.MaxCommentLength
          · simp [h1, h2, h3, h4, h5]
          · simp only [h1, h2, h3, h4, h5, decide_False, Bool.false_eq_true, if_false,
              true_iff]
            omega

theorem checkCircuitBreakerRuleParams_none_iff (env : Env) (r : ApiRule)
    (idRequired nameRequired : Bool) :
    checkCircuitBreakerRuleParams env (some r) idRequired nameRequired = none ↔
      MeetsRequirements env r idRequired nameRequired := by
  unfold MeetsRequirements
  have hlen := checkCircuitBreakerRuleParamsDbLen_none_iff env r
  unfold checkCircuitBreakerRuleParams
  cases hd : checkCircuitBreakerRuleParamsDbLen env r with
  | some resp =>
    have : ¬ (r.srcService.length ≤ env.MaxDbServiceNameLength ∧
      r.srcNamespace.length ≤ env.MaxDbServiceNamespaceLength ∧
      r.Name.length ≤ env.MaxRuleName ∧
      r.Namespace.length ≤ env.MaxDbServiceNamespaceLength ∧
      r.Description.length ≤ env.MaxCommentLength) := by
      intro h
      rw [hlen.mpr h] at hd
      cases hd
    simp only [hd]
    constructor
    · intro h
      cases h
    · intro h
      exact absurd ⟨h.1, h.2.1, h.2.2.1, h.2.2.2.1, h.2.2.2.2.1⟩ this
  | none =>
    obtain ⟨a1, a2, a3, a4, a5⟩ := hlen.mp hd
    simp only [hd, string_length_eq_zero_iff]
    cases nameRequired <;> cases idRequired <;>
      by_cases hn : r.Name = "" <;> by_cases hi : r.Id = "" <;>
      simp [hn, hi, a1, a2, a3, a4, a5]

theorem checkCircuitBreakerRuleParams_reject_code (env : Env) (item : Option ApiRule)
    (idRequired nameRequired : Bool) (resp : Response)
    (h : checkCircuitBreakerRuleParams env item idRequired nameRequired = some resp) :
    resp.code ≠ Code.ExecuteSuccess ∧ resp.data = none := by
  unfold checkCircuitBreakerRuleParams at h
  cases item with
  | none =>
    simp only [Option.some.injEq] at h
    rw [← h]
    exact ⟨by simp [NewResponse], rfl⟩
  | some r =>
    simp only at h
    cases hd : checkCircuitBreakerRuleParamsDbLen env r with
    | some resp1 =>
      simp only [hd, Option.some.injEq] at h
      subst h
      unfold checkCircuitBreakerRuleParamsDbLen at hd
      split at hd
      · cases hd; exact ⟨by simp [NewResponse], rfl⟩
      · split at hd
        · cases hd; exact ⟨by simp [NewResponse], rfl⟩
        · split at hd
          · cases hd; exact ⟨by simp [NewResponse], rfl⟩
          · split at hd
            · cases hd; exact ⟨by simp [NewResponse], rfl⟩
            · split at hd
              · cases hd; exact ⟨by simp [NewResponse], rfl⟩
              · cases hd
    | none =>
      simp only [hd] at h
      split at h
      · cases h; exact ⟨by simp [NewResponse], rfl⟩
      · split at h
        · cases h; exact ⟨by simp [NewResponse], rfl⟩
        · cases h

/-- C25 (amended): `checkCircuitBreakerRuleParams` rejects a nil item with `EmptyRequest`
and returns nil exactly for the items whose source service name and namespace, name,
namespace and description are within their maximum lengths, that have a name when a name
is required and an id when an id is required; the destination service name and namespace
are not checked. Every rejection carries a code other than success and no payload. A
rejected item is answered before any storage access: create (name required), update (id
and name required), delete and enable (id required) return the rejection and the server
state, the trace of storage calls included, as it was. -/
theorem validation_requirements {σ : Type} (env : Env) (S : Storage σ) (ctx : Context)
    (st : ServerState σ) :
    (∀ idRequired nameRequired,
      checkCircuitBreakerRuleParams env none idRequired nameRequired
        = some (NewResponse env Code.EmptyRequest)) ∧
    (∀ r idRequired nameRequired,
      checkCircuitBreakerRuleParams env (some r) idRequired nameRequired = none ↔
        MeetsRequirements env r idRequired nameRequired) ∧
    (∀ item idRequired nameRequired resp,
      checkCircuitBreakerRuleParams env item idRequired nameRequired = some resp →
        resp.code ≠ Code.ExecuteSuccess ∧ resp.data = none) ∧
    (∀ item resp, checkCircuitBreakerRuleParams env item false true = some resp →
      createCircuitBreakerRule env S ctx st item = (st, resp)) ∧
    (∀ item resp, checkCircuitBreakerRuleParams env item true true = some resp →
      updateCircuitBreakerRule env S ctx st item = (st, resp)) ∧
    (∀ item resp, checkCircuitBreakerRuleParams env item true false = some resp →
      deleteCircuitBreakerRule env S ctx st item = (st, resp)) ∧
    (∀ item resp, checkCircuitBreakerRuleParams env item true false = some resp →
      enableCircuitBreakerRule env S ctx st item = (st, resp)) :=
  ⟨fun _ _ => rfl,
    fun r idRequired nameRequired =>
      checkCircuitBreakerRuleParams_none_iff env r idRequired nameRequired,
    fun item idRequired nameRequired resp h =>
      checkCircuitBreakerRuleParams_reject_code env item idRequired nameRequired resp h,
    fun item resp h => createCircuitBreakerRule_invalid env S ctx st item resp h,
    fun item resp h => updateCircuitBreakerRule_invalid env S ctx st item resp h,
    fun item resp h => deleteCircuitBreakerRule_invalid env S ctx st item resp h,
    fun item resp h => enableCircuitBreakerRule_invalid env S ctx st item resp h⟩

/-- Witness of C25: an update item without id is rejected with `InvalidCircuitBreakerID`
and the server state is returned as it was. -/
theorem validation_requirements_witness :
    checkCircuitBreakerRuleParams sampleEnv (some sampleItem) true true
      = some (NewResponse sampleEnv Code.InvalidCircuitBreakerID) ∧
    updateCircuitBreakerRule sampleEnv memStorage sampleCtx oneRuleState (some sampleItem)
      = (oneRuleState, NewResponse sampleEnv Code.InvalidCircuitBreakerID) :=
  ⟨rfl, (validation_requirements sampleEnv memStorage sampleCtx oneRuleState).2.2.2.2.1
    (some sampleItem) _ rfl⟩

/-- Counterexample to C25 as stated: with service names and namespaces of at most eight
characters, an item whose destination service name has 13 characters and whose destination
namespace has 10 passes the validation of create and of update, and the create stores it;
the same service name on the source side is rejected. -/
theorem oversized_destination_passes_validation :
    shortNamesEnv.MaxDbServiceNameLength = 8 ∧
    shortNamesEnv.MaxDbServiceNamespaceLength = 8 ∧
    longDestinationItem.dstService.length = 13 ∧
    longDestinationItem.dstNamespace.length = 10 ∧
    checkCircuitBreakerRuleParams shortNamesEnv (some longDestinationItem) false true
      = none ∧
    checkCircuitBreakerRuleParams shortNamesEnv (some { longDestinationItem with Id := "uu" })
      true true = none ∧
    (createCircuitBreakerRule shortNamesEnv memStorage sampleCtx sampleState
      (some longDestinationItem)).2.code = Code.ExecuteSuccess ∧
    ((createCircuitBreakerRule shortNamesEnv memStorage sampleCtx sampleState
      (some longDestinationItem)).1.store.rules.map
        (fun r => (r.DstService, r.DstNamespace))) = [("order-service", "production")] ∧
    checkCircuitBreakerRuleParams shortNamesEnv (some longSourceItem) false true
      = some (NewResponse shortNamesEnv Code.InvalidServiceName) := by
  refine ⟨rfl, rfl, by decide, by decide, by decide, by decide, by decide, by decide, rfl⟩

/-! ## Empty filter values (C26) -/

theorem mapSet_fresh (m : List (String × String)) (key value : String)
    (h : ∀ a ∈ m, a.1 ≠ key) : mapSet m key value = m ++ [(key, value)] := by
  unfold mapSet
  have : m.any (fun kv => decide (kv.1 = key)) = false := by
    rw [List.any_eq_false]
    intro a ha
    simpa using h a ha
  simp [this]

theorem buildSearchFilter_keeps (query acc : List (String × String))
    (hallowed : ∀ kv ∈ query, kv.1 ∈ CircuitBreakerRuleFilters)
    (hnodup : (query.map Prod.fst).Nodup)
    (hfresh : ∀ kv ∈ query, ∀ a ∈ acc, a.1 ≠ kv.1) :
    buildSearchFilter query acc
      = some (acc ++ query.filter (fun kv => decide (kv.2 ≠ ""))) := by
  induction query generalizing acc with
  | nil => simp [buildSearchFilter]
  | cons x xs ih =>
    obtain ⟨key, value⟩ := x
    have hk : key ∈ CircuitBreakerRuleFilters := hallowed (key, value) (List.mem_cons_self _ _)
    have hallowed1 : ∀ kv ∈ xs, kv.1 ∈ CircuitBreakerRuleFilters :=
      fun kv hkv => hallowed kv (List.mem_cons_of_mem _ hkv)
    simp only [List.map_cons, List.nodup_cons] at hnodup
    have hc : CircuitBreakerRuleFilters.contains key = true := by simpa using hk
    unfold buildSearchFilter
    by_cases hv : value = ""
    · simp only [hc, not_true_eq_false, if_false, hv, if_true]
      rw [ih acc hallowed1 hnodup.2
        (fun kv hkv a ha => hfresh kv (List.mem_cons_of_mem _ hkv) a ha)]
      simp
    · simp only [hc, not_true_eq_false, if_false, hv]
      rw [mapSet_fresh acc key value
        (fun a ha => hfresh (key, value) (List.mem_cons_self _ _) a ha)]
      rw [ih (acc ++ [(key, value)]) hallowed1 hnodup.2]
      · simp [hv]
      · intro kv hkv a ha
        rcases List.mem_append.mp ha with ha | ha
        · exact hfresh kv (List.mem_cons_of_mem _ hkv) a ha
        · rw [List.mem_singleton.mp ha]
          intro heq
          apply hnodup.1
          rw [List.mem_map]
          exact ⟨kv, hkv, heq.symm⟩

/-- C26: `GetCircuitBreakerRules` hands to the storage listing exactly the entries of the
query map, as the parser of offset and limit leaves it, whose value is not empty: for a map
with allowed keys the one storage call is the listing on those entries, in the order the
loop visits them.  The query `{"id": ""}` is answered like the empty query, on every store
and with the same effect on the server state, when the parser reads the same offset and
limit from both; on the in-memory store without a read fault its total match count is the
number of stored rules. -/
theorem query_drops_empty_values {σ : Type} (env : Env) (codec : Codec) (S : Storage σ)
    (ctx : Context) (st : ServerState σ) (stm : ServerState MemStore) :
    (∀ (query : List (String × String)) (paging : Paging),
      codec.ParseOffsetAndLimit query = .ok paging →
      (∀ kv ∈ paging.query, kv.1 ∈ CircuitBreakerRuleFilters) →
      (paging.query.map Prod.fst).Nodup →
      (GetCircuitBreakerRules env codec S ctx st query).1.calls
        = st.calls ++ [StorageCall.Get
            (paging.query.filter (fun kv => decide (kv.2 ≠ ""))) paging.offset
            paging.limit]) ∧
    (∀ (p0 : Paging), codec.ParseOffsetAndLimit [] = .ok p0 → p0.query = [] →
      codec.ParseOffsetAndLimit [("id", "")] = .ok { p0 with query := [("id", "")] } →
      GetCircuitBreakerRules env codec S ctx st [("id", "")]
        = GetCircuitBreakerRules env codec S ctx st []) ∧
    (∀ (p0 : Paging), codec.ParseOffsetAndLimit [] = .ok p0 → p0.query = [] →
      codec.ParseOffsetAndLimit [("id", "")] = .ok { p0 with query := [("id", "")] } →
      stm.store.readErr = none →
      (GetCircuitBreakerRules env codec memStorage ctx stm [("id", "")]).2.code
        = Code.ExecuteSuccess ∧
      (GetCircuitBreakerRules env codec memStorage ctx stm [("id", "")]).2.amount
        = stm.store.rules.length) := by
  refine ⟨?_, ?_, ?_⟩
  · intro query paging hparse hallowed hnodup
    have hfilter := buildSearchFilter_keeps paging.query [] hallowed hnodup
      (fun _ _ a ha => absurd ha (List.not_mem_nil a))
    rw [List.nil_append] at hfilter
    cases hlist : S.GetCircuitBreakerRules st.store
        (paging.query.filter (fun kv => decide (kv.2 ≠ ""))) paging.offset paging.limit with
    | error err =>
      rw [GetCircuitBreakerRules_listFailed env codec S ctx st query paging _ err hparse
        hfilter hlist]
    | ok p =>
      obtain ⟨total, page⟩ := p
      rw [GetCircuitBreakerRules_listed env codec S ctx st query paging _ total page hparse
        hfilter hlist]
  · intro p0 h0 hq h1
    unfold GetCircuitBreakerRules
    rw [h0, h1]
    simp only [hq, buildSearchFilter, CircuitBreakerRuleFilters]
    simp
  · intro p0 h0 hq h1 hread
    have hfilter : buildSearchFilter ({ p0 with query := [("id", "")] } : Paging).query []
        = some [] := by
      simp [buildSearchFilter, CircuitBreakerRuleFilters]
    have hlist : memStorage.GetCircuitBreakerRules stm.store [] p0.offset p0.limit
        = .ok (stm.store.rules.length, (stm.store.rules.drop p0.offset).take p0.limit) := by
      simp [memStorage, MemStore.GetCircuitBreakerRules, hread]
    rw [GetCircuitBreakerRules_listed env codec memStorage ctx stm [("id", "")]
      { p0 with query := [("id", "")] } [] _ _ h1 hfilter hlist, collectRules_spec]
    exact ⟨rfl, rfl⟩

/-- Witness of C26: the query `{"id": ""}` on a store of two rules. -/
theorem query_drops_empty_values_witness :
    sampleCodec.ParseOffsetAndLimit [] = .ok { offset := 0, limit := 100, query := [] } ∧
    twoRuleState.store.readErr = none ∧
    twoRuleState.store.rules.length = 2 ∧
    (GetCircuitBreakerRules sampleEnv sampleCodec memStorage sampleCtx twoRuleState
      [("id", "")]).2.amount = twoRuleState.store.rules.length :=
  ⟨rfl, rfl, rfl,
    ((query_drops_empty_values sampleEnv sampleCodec memStorage sampleCtx twoRuleState
      twoRuleState).2.2 { offset := 0, limit := 100, query := [] } rfl rfl rfl rfl).2⟩

/-! ## Conversion round trip (C27) -/

theorem circuitBreakerRule2api_ok (codec : Codec) (cbRule : CircuitBreakerRule)
    (decoded : ApiRule)
    (hde : cbRule.Rule.length > 0 → codec.jsonUnmarshal cbRule.Rule = .ok decoded) :
    ∃ m, circuitBreakerRule2api codec (some cbRule) = .ok (some m) ∧
      m.Id = cbRule.ID ∧ m.Name = cbRule.Name ∧ m.Namespace = cbRule.Namespace ∧
      m.Description = cbRule.Description ∧ m.Level = cbRule.Level ∧
      m.Enable = cbRule.Enable ∧ m.Revision = cbRule.Revision := by
  unfold circuitBreakerRule2api
  by_cases hlen : cbRule.Rule.length > 0
  · simp only [hlen, if_true, hde hlen]
    exact ⟨_, rfl, rfl, rfl, rfl, rfl, rfl, rfl, rfl⟩
  · simp only [hlen, if_false]
    exact ⟨_, rfl, rfl, rfl, rfl, rfl, rfl, rfl, rfl⟩

theorem circuitBreakerRule2api_etime (codec : Codec) (cbRule : CircuitBreakerRule)
    (out : ApiRule) (h : circuitBreakerRule2api codec (some cbRule) = .ok (some out)) :
    out.Etime = if cbRule.EnableTime.year > 2000 then codec.Time2String cbRule.EnableTime
      else "" := by
  unfold circuitBreakerRule2api at h
  simp only at h
  split at h
  · simp at h
  · simp only [Except.ok.injEq, Option.some.injEq] at h
    rw [← h]

/-- C27: for a rule message whose policy payload serializes, and deserializes again, the
conversion to the internal record and back returns a rule message with the name, the
description, the level and the enable flag of the request, with the namespace of the
request, or the default namespace when the request has none, and with the id and the
revision of the internal record.  The conversion of a nil record returns nil and no error.
The enable time returned for a record is the empty text exactly when the year of the
enable time of the record is at most 2000, the formatted time being a non-empty text. -/
theorem conversion_round_trip {σ : Type} (env : Env) (codec : Codec) (st : ServerState σ)
    (r : ApiRule) (payload : String) (decoded : ApiRule)
    (hser : marshalCircuitBreakerRuleV2 env r = .ok payload)
    (hde : codec.jsonUnmarshal payload = .ok decoded) :
    (∃ data m, (api2CircuitBreakerRule env st r).1 = .ok data ∧
      circuitBreakerRule2api codec (some data) = .ok (some m) ∧
      m.Name = r.Name ∧ m.Description = r.Description ∧ m.Level = r.Level ∧
      m.Enable = r.Enable ∧
      m.Namespace = (if r.Namespace = "" then env.DefaultNamespace else r.Namespace) ∧
      m.Id = data.ID ∧ m.Revision = data.Revision) ∧
    circuitBreakerRule2api codec none = .ok none ∧
    (∀ (cbRule : CircuitBreakerRule) (out : ApiRule),
      circuitBreakerRule2api codec (some cbRule) = .ok (some out) →
      codec.Time2String cbRule.EnableTime ≠ "" →
      (out.Etime = "" ↔ cbRule.EnableTime.year ≤ 2000)) := by
  refine ⟨?_, rfl, ?_⟩
  · have hdata : (api2CircuitBreakerRule env st r).1
        = .ok (convertedRule env r payload (env.uuid st.uuidCount)) := by
      simp only [api2CircuitBreakerRule, hser, NewUUID, convertedRule, effectiveNamespace]
      split <;> simp_all
    obtain ⟨m, hm, h1, h2, h3, h4, h5, h6, h7⟩ := circuitBreakerRule2api_ok codec
      (convertedRule env r payload (env.uuid st.uuidCount)) decoded
      (fun _ => by simpa [convertedRule] using hde)
    refine ⟨_, m, hdata, hm, ?_, ?_, ?_, ?_, ?_, h1, h7⟩
    · rw [h2]; rfl
    · rw [h4]; rfl
    · rw [h5]; rfl
    · rw [h6]; rfl
    · rw [h3]; rfl
  · intro cbRule out h htime
    rw [circuitBreakerRule2api_etime codec cbRule out h]
    by_cases hy : cbRule.EnableTime.year > 2000
    · simp only [hy, if_true]
      constructor
      · intro h0
        exact absurd h0 htime
      · intro hle
        omega
    · simp only [hy, if_false, true_iff]
      omega

/-- Witness of C27: the rule `r1` without namespace, converted on the sample server and
back, and the enable time of a record enabled in 2024. -/
theorem conversion_round_trip_witness :
    marshalCircuitBreakerRuleV2 sampleEnv describedItem = .ok "e1" ∧
    sampleCodec.jsonUnmarshal "e1" = .ok ApiRule.empty ∧
    (∃ data m, (api2CircuitBreakerRule sampleEnv sampleState describedItem).1 = .ok data ∧
      circuitBreakerRule2api sampleCodec (some data) = .ok (some m) ∧
      m.Name = "r1" ∧ m.Description = "first rule" ∧ m.Level = 2 ∧ m.Enable = true ∧
      m.Namespace = "default" ∧ m.Id = data.ID ∧ m.Revision = data.Revision) ∧
    sampleCodec.Time2String enabledRecord.EnableTime ≠ "" ∧
    ∃ out, circuitBreakerRule2api sampleCodec (some enabledRecord) = .ok (some out) ∧
      (out.Etime = "" ↔ enabledRecord.EnableTime.year ≤ 2000) :=
  ⟨rfl, rfl,
    (conversion_round_trip sampleEnv sampleCodec sampleState describedItem "e1"
      ApiRule.empty rfl rfl).1,
    by decide,
    (circuitBreakerRule2api_ok sampleCodec enabledRecord ApiRule.empty
      (fun h => absurd h (by decide))).elim (fun out h =>
        ⟨out, h.1, (conversion_round_trip sampleEnv sampleCodec sampleState describedItem
          "e1" ApiRule.empty rfl rfl).2.2 enabledRecord out h.1 (by decide)⟩)⟩

/-! ## The type-URL rewrite (C28) -/

theorem replaceFrom_skip (old new : List Char) (x rest : List Char) :
    replaceFrom old new x.length (x ++ rest) = replaceFrom old new 0 rest := by
  induction x with
  | nil => rfl
  | cons c cs ih =>
    cases rest with
    | nil => simpa [replaceFrom] using ih
    | cons r rs => simpa [replaceFrom] using ih

theorem replaceFrom_hit (old new : List Char) (hne : old ≠ []) (rest : List Char) :
    replaceFrom old new 0 (old ++ rest) = new ++ replaceFrom old new 0 rest := by
  cases old with
  | nil => exact absurd rfl hne
  | cons h ot =>
    have hp : (h :: ot).isPrefixOf (h :: (ot ++ rest)) = true := by
      rw [List.isPrefixOf_iff_prefix]
      exact List.prefix_append (h :: ot) rest
    rw [List.cons_append, replaceFrom, if_pos hp]
    simp only [List.length_cons, Nat.add_sub_cancel]
    rw [replaceFrom_skip]

theorem replaceFrom_miss (old new : List Char) (c : Char) (cs : List Char)
    (h : old.isPrefixOf (c :: cs) = false) :
    replaceFrom old new 0 (c :: cs) = c :: replaceFrom old new 0 cs := by
  simp [replaceFrom, h]

theorem replace_induction (old : List Char) (hne : old ≠ []) (motive : List Char → Prop)
    (nil : motive [])
    (hit : ∀ rest, motive rest → motive (old ++ rest))
    (miss : ∀ c cs, old.isPrefixOf (c :: cs) = false → motive cs → motive (c :: cs)) :
    ∀ s, motive s := by
  suffices hall : ∀ n s, s.length = n → motive s from fun s => hall _ s rfl
  intro n
  induction n using Nat.strong_induction_on with
  | _ n ih =>
    intro s hn
    cases s with
    | nil => exact nil
    | cons c cs =>
      cases hp : old.isPrefixOf (c :: cs) with
      | false =>
        exact miss c cs hp (ih cs.length (by rw [← hn]; simp) cs rfl)
      | true =>
        obtain ⟨rest, hrest⟩ := List.isPrefixOf_iff_prefix.mp hp
        rw [← hrest]
        apply hit
        apply ih rest.length _ rest rfl
        rw [← hn, ← hrest, List.length_append]
        have : 0 < old.length := List.length_pos.mpr hne
        omega

theorem replaceFrom_length (old new : List Char) (hne : old ≠ [])
    (hlen : new.length = old.length) (s : List Char) :
    (replaceFrom old new 0 s).length = s.length := by
  refine replace_induction old hne (fun s => (replaceFrom old new 0 s).length = s.length)
    rfl ?_ ?_ s
  · intro rest ih
    simp only [replaceFrom_hit old new hne, List.length_append, ih, hlen]
  · intro c cs hp ih
    simp only [replaceFrom_miss old new c cs hp, List.length_cons, ih]

theorem replaceFrom_unchanged (old new : List Char) (hne : old ≠ []) (s : List Char)
    (h : ¬ old <:+: s) : replaceFrom old new 0 s = s := by
  revert h
  refine replace_induction old hne
    (fun s => ¬ old <:+: s → replaceFrom old new 0 s = s) (fun _ => rfl) ?_ ?_ s
  · intro rest _ h
    exact absurd (List.infix_append' [] old rest) (by simpa using h)
  · intro c cs hp ih h
    rw [replaceFrom_miss old new c cs hp, ih]
    intro hin
    exact h (hin.trans (List.suffix_cons c cs).isInfix)

theorem replaceFrom_prefix_clean (h : Char) (ot new : List Char) (nt : List Char)
    (hnew : new = h :: nt) (s : List Char) :
    ∀ t, h ∉ t → t <+: replaceFrom (h :: ot) new 0 s → t <+: s := by
  refine replace_induction (h :: ot) (List.cons_ne_nil _ _)
    (fun s => ∀ t, h ∉ t → t <+: replaceFrom (h :: ot) new 0 s → t <+: s) ?_ ?_ ?_ s
  · intro t _ ht
    simpa [replaceFrom] using ht
  · intro rest _ t hh ht
    rw [replaceFrom_hit _ _ (List.cons_ne_nil _ _), hnew] at ht
    cases t with
    | nil => exact List.nil_prefix
    | cons a t1 =>
      have : a = h := by
        obtain ⟨u, hu⟩ := ht
        simp only [List.cons_append, List.cons.injEq] at hu
        exact hu.1
      exact absurd (by simp [this]) hh
  · intro c cs hp ih t hh ht
    rw [replaceFrom_miss _ _ c cs hp] at ht
    cases t with
    | nil => exact List.nil_prefix
    | cons a t1 =>
      obtain ⟨u, hu⟩ := ht
      simp only [List.cons_append, List.cons.injEq] at hu
      have h1 : t1 <+: cs := ih t1 (fun hm => hh (List.mem_cons_of_mem _ hm)) ⟨u, hu.2⟩
      obtain ⟨v, hv⟩ := h1
      exact ⟨v, by simp [hu.1, hv]⟩

theorem replaceFrom_clean (h : Char) (ot nt : List Char) (hot : h ∉ ot) (hnt : h ∉ nt)
    (hlen : nt.length = ot.length) (hdiff : ot ≠ nt) (s : List Char) :
    ¬ (h :: ot) <:+: replaceFrom (h :: ot) (h :: nt) 0 s := by
  refine replace_induction (h :: ot) (List.cons_ne_nil _ _)
    (fun s => ¬ (h :: ot) <:+: replaceFrom (h :: ot) (h :: nt) 0 s) ?_ ?_ ?_ s
  · simp [replaceFrom]
  · intro rest ih hin
    rw [replaceFrom_hit _ _ (List.cons_ne_nil _ _)] at hin
    obtain ⟨pre, suf, heq⟩ := hin
    cases pre with
    | nil =>
      simp only [List.nil_append, List.cons_append, List.cons.injEq, true_and] at heq
      have := (List.append_inj heq hlen.symm).1
      exact hdiff this
    | cons a pre1 =>
      simp only [List.cons_append, List.cons.injEq, List.append_assoc] at heq
      obtain ⟨_, heq⟩ := heq
      rcases List.append_eq_append_iff.mp heq with ⟨a1, h1, h2⟩ | ⟨c1, h1, h2⟩
      · cases a1 with
        | nil =>
          simp only [List.nil_append] at h2
          exact ih ⟨[], suf, by simp [← h2]⟩
        | cons x a2 =>
          simp only [List.cons_append, List.cons.injEq] at h2
          apply hnt
          rw [h1, ← h2.1]
          simp
      · exact ih ⟨c1, suf, by simp [h2]⟩
  · intro c cs hp ih hin
    rw [replaceFrom_miss _ _ c cs hp] at hin
    obtain ⟨pre, suf, heq⟩ := hin
    cases pre with
    | nil =>
      simp only [List.nil_append, List.cons_append, List.cons.injEq] at heq
      have h1 : ot <+: cs :=
        replaceFrom_prefix_clean h ot (h :: nt) nt rfl cs ot hot ⟨suf, heq.2⟩
      have h2 : (h :: ot) <+: (c :: cs) := by
        obtain ⟨v, hv⟩ := h1
        exact ⟨v, by simp [← heq.1, hv]⟩
      rw [← List.isPrefixOf_iff_prefix, hp] at h2
      cases h2
    | cons a pre1 =>
      simp only [List.cons_append, List.cons.injEq] at heq
      exact ih ⟨pre1, suf, heq.2⟩

/-- C28: for every request text that is read without error, `replaceV2TypeUrl` returns a
text of the same length in which `type.googleapis.com/v2.` does not occur; rewriting the
returned text again returns it as it is; and a text in which the deprecated prefix does not
occur is returned as it is.  A read error is returned as the error. -/
theorem type_url_rewrite (requestText : String) :
    ∃ rewritten, replaceV2TypeUrl (.ok requestText) = .ok rewritten ∧
      rewritten.length = requestText.length ∧
      ¬ Occurs deprecatedRoutingV2TypeUrl rewritten ∧
      replaceV2TypeUrl (.ok rewritten) = .ok rewritten ∧
      (¬ Occurs deprecatedRoutingV2TypeUrl requestText → rewritten = requestText) ∧
      (∀ err, replaceV2TypeUrl (.error err) = .error err) := by
  have hne : deprecatedRoutingV2TypeUrl.data ≠ [] := by decide
  have hclean : ∀ s, ¬ deprecatedRoutingV2TypeUrl.data
      <:+: replaceFrom deprecatedRoutingV2TypeUrl.data newRoutingV2TypeUrl.data 0 s :=
    fun s => replaceFrom_clean (Char.ofNat 116) "ype.googleapis.com/v2.".data
      "ype.googleapis.com/v1.".data (by decide) (by decide) (by decide) (by decide) s
  have hdef : ∀ t : String,
      ReplaceAll t deprecatedRoutingV2TypeUrl newRoutingV2TypeUrl
        = String.mk (replaceFrom deprecatedRoutingV2TypeUrl.data
            newRoutingV2TypeUrl.data 0 t.data) := by
    intro t
    simp only [ReplaceAll, hne, if_false]
  refine ⟨ReplaceAll requestText deprecatedRoutingV2TypeUrl newRoutingV2TypeUrl, rfl,
    ?_, ?_, ?_, ?_, fun _ => rfl⟩
  · rw [hdef]
    exact replaceFrom_length _ _ hne (by decide) requestText.data
  · rw [hdef]
    exact hclean requestText.data
  · simp only [replaceV2TypeUrl]
    rw [hdef requestText, hdef]
    simp only
    rw [replaceFrom_unchanged _ _ hne _ (hclean requestText.data)]
  · intro hno
    rw [hdef, replaceFrom_unchanged _ _ hne _ hno]

/-- Witness of C28: a request text without the deprecated prefix is returned as it is. -/
theorem type_url_rewrite_witness :
    ¬ Occurs deprecatedRoutingV2TypeUrl "\"@type\": \"type.googleapis.com/v1.RouteRule\"" ∧
    replaceV2TypeUrl (.ok "\"@type\": \"type.googleapis.com/v1.RouteRule\"")
      = .ok "\"@type\": \"type.googleapis.com/v1.RouteRule\"" :=
  ⟨by decide,
    (type_url_rewrite "\"@type\": \"type.googleapis.com/v1.RouteRule\"").elim
      (fun rewritten h => by
        rw [h.1, h.2.2.2.2.1 (by decide)])⟩

/-! ## Samples of gating and of the audit history -/

/-- Witness of C21: with the checker that denies every call, a create of circuit-breaker
rules leaves the wrapped server and the trace of forwarded calls as they were. -/
theorem gated_operations_witness :
    (lockedAuth.CheckConsolePermission
      (lockedAuth.collectCircuitBreakerRuleV2AuthContext guestCall (some [some sampleItem])
        ResourceOperation.Read "CreateCircuitBreakerRules")).2 ≠ none ∧
    (lockedAuth.CreateCircuitBreakerRules sampleAuthState guestCall [some sampleItem]).1
      = sampleAuthState :=
  ⟨by decide,
    ((gated_operations lockedAuth lockedConfigAuth).1 sampleAuthState guestCall
      [some sampleItem]).resolve_right (by decide)⟩

/-- Witness of C24: a create batch of two items with the same name on the empty store. The
first item is written and audited, the second conflicts: one write, one audit entry, of
operation create. -/
theorem audit_entries_match_writes_witness :
    ((CreateCircuitBreakerRules sampleEnv (countedStorage memStorage) sampleCtx countedState
      [some sampleItem, some sampleItem]).2.responses.map (fun r => r.code))
      = [Code.ExecuteSuccess, Code.ServiceExistedCircuitBreakers] ∧
    (CreateCircuitBreakerRules sampleEnv (countedStorage memStorage) sampleCtx countedState
      [some sampleItem, some sampleItem]).1.store.writes = 1 ∧
    ∃ added, (CreateCircuitBreakerRules sampleEnv (countedStorage memStorage) sampleCtx
        countedState [some sampleItem, some sampleItem]).1.history
        = countedState.history ++ added ∧
      (∀ e ∈ added, e.OperationType = OperationType.OCreate) ∧
      (CreateCircuitBreakerRules sampleEnv (countedStorage memStorage) sampleCtx countedState
        [some sampleItem, some sampleItem]).1.store.writes
        = countedState.store.writes + added.length :=
  ⟨by decide, by decide,
    (audit_entries_match_writes sampleEnv memStorage sampleCtx).2.2.2.1 countedState
      [some sampleItem, some sampleItem]⟩

end Polaris
